import Mathlib

/-!
# SkeletalMesh::ImportFromFbxMesh

A shallow embedding of `src/Engine/SkeletalMesh.cpp` and proofs about it.

Conventions of the embedding:

* A finite `float` is the exact rational it stands for. The compaction
  `trimInfluences` and the sum `WeightTotal` are stated in exact arithmetic;
  the `assert` of line 467 is evaluated as the code evaluates it, with every
  `float` operation rounded to nearest (`Float32`, `weightCheck`).
* `int` / `unsigned int` counters and indices are natural numbers; the 32-bit
  width is made explicit (`% 2 ^ 32`) where a word is assembled by shifts.
* `std::vector<T>` is `List T`; a pointer that may be `NULL` is an `Option`.
* `std::map<std::string, BoneIndexInfo>` is the list of its (key, value) pairs
  in iteration order.
* `std::sort` is library code: it is a parameter of the embedding, and only
  its contract `IsStdSort` is assumed about it. `stdSort` is the `std::sort`
  of libstdc++, for the behaviour that the contract leaves open.
* An access outside the bounds of an array is undefined behaviour in the
  source; the functions that can perform one return `Option`, with `none`
  standing for the undefined behaviour.
-/

namespace SkeletalMesh

/-! ## Definitions -/

/-- The contract of `std::sort(first, last)` for a comparator `lt`: the result
is a rearrangement of the input in which no later element is `lt` an earlier
one. -/
def IsStdSort {α : Type} (lt : α → α → Bool) (sort : List α → List α) : Prop :=
  ∀ l, (sort l).Perm l ∧ (sort l).Pairwise (fun a b => lt b a = false)

/-- `struct BoneInf` (lines 46-57). -/
structure BoneInf where
  BoneName : String
  Weight : ℚ
deriving DecidableEq

/-- `BoneInf::operator<` (lines 50-56): an influence is "less" when its weight
is larger, so that `std::sort` orders by descending weight. -/
def BoneInf.lt (self other : BoneInf) : Bool :=
  if self.Weight > other.Weight then true else false

/-- `struct VertexSkinInfo` (lines 58-62). -/
structure VertexSkinInfo where
  BoneLink : List BoneInf
deriving DecidableEq

/-- `SkinInfo.BoneLink[k].Weight += w` (line 455). -/
def addWeight (BoneLink : List BoneInf) (k : Nat) (w : ℚ) : List BoneInf :=
  BoneLink.modify (fun b => { b with Weight := b.Weight + w }) k

/-- The inner loop of lines 453-456 for one `OverIndex`:
`for k in 0..3: BoneLink[k].Weight += BoneLink[OverIndex].Weight / 4.f`. -/
def redistributeOne (BoneLink : List BoneInf) (OverIndex : Nat) : List BoneInf :=
  (List.range 4).foldl
    (fun acc k =>
      match acc[OverIndex]? with
      | some over => addWeight acc k (over.Weight / 4)
      | none => acc)
    BoneLink

/-- The loop of lines 451-457:
`for (OverIndex = 4; OverIndex < BoneLink.size(); OverIndex++)`. -/
def redistribute (BoneLink : List BoneInf) : List BoneInf :=
  (List.range' 4 (BoneLink.length - 4)).foldl redistributeOne BoneLink

/-- The compaction step for one vertex (lines 447-460): when there are more
than 4 influences, sort, redistribute, and erase the last `size - 4`. -/
def trimInfluences (sort : List BoneInf → List BoneInf) (BoneLink : List BoneInf) :
    List BoneInf :=
  if BoneLink.length > 4 then
    let sorted := redistribute (sort BoneLink)
    let NumErase := sorted.length - 4
    sorted.take (sorted.length - NumErase)
  else BoneLink

/-- The sum `WeightTotal` of lines 461-465. -/
def WeightTotal (BoneLink : List BoneInf) : ℚ :=
  BoneLink.foldl (fun acc b => acc + b.Weight) 0

/-- A concrete sorting routine satisfying the `std::sort` contract for
`BoneInf::operator<`, used to evaluate the embedding on examples. -/
def sortBoneInf (l : List BoneInf) : List BoneInf :=
  l.insertionSort (fun a b => a.Weight ≥ b.Weight)

/-! ### Material partitioning (lines 96-158) and index fill (lines 281-340) -/

/-- `const int TRIANGLE_VERTEX_COUNT = 3;` (line 9). -/
def TRIANGLE_VERTEX_COUNT : Nat := 3

/-- `FbxGeometryElement::EMappingMode` of the FBX SDK. -/
inductive EMappingMode where
  | eNone | eByControlPoint | eByPolygonVertex | eByPolygon | eByEdge | eAllSame
deriving DecidableEq

/-- What the import reads of `FbxGeometryElementMaterial`: the index array and
the mapping mode. Material indices are non-negative. -/
structure FbxGeometryElementMaterial where
  IndexArray : List Nat
  MappingMode : EMappingMode

/-- What the partitioning and index fill read of the (triangulated) `FbxMesh`:
`GetPolygonCount()`, `GetElementMaterial()` (`none` for `NULL`),
`GetControlPointsCount()` and `GetPolygonVertex(polygon, vertex)`, the
control-point index of a polygon corner. -/
structure FbxMesh where
  PolygonCount : Nat
  ElementMaterial : Option FbxGeometryElementMaterial
  ControlPointsCount : Nat
  PolygonVertex : Nat → Nat → Nat

/-- `struct SubMesh`, a member of `_SubMeshArray`. -/
structure SubMesh where
  _IndexOffset : Nat
  _TriangleCount : Nat
deriving DecidableEq

/-- Modelled from the spec: the constructor of `SubMesh`, declared in
`SkeletalMesh.h` which is not under src/. A new submesh is empty: index offset
0 and triangle count 0 (the count pass increments the counter of a submesh it
has just allocated). -/
def SubMesh.new : SubMesh := ⟨0, 0⟩

/-- One iteration of the count loop (lines 115-124) for a polygon of material
`lMaterialIndex`: grow the table, allocate the submesh, count the face. -/
def countPolygon (_SubMeshArray : List (Option SubMesh)) (lMaterialIndex : Nat) :
    List (Option SubMesh) :=
  let resized :=
    if _SubMeshArray.length < lMaterialIndex + 1 then
      _SubMeshArray ++ List.replicate (lMaterialIndex + 1 - _SubMeshArray.length) none
    else _SubMeshArray
  let allocated :=
    if resized.getD lMaterialIndex none = none then
      resized.set lMaterialIndex (some SubMesh.new)
    else resized
  allocated.modify
    (Option.map (fun s => { s with _TriangleCount := s._TriangleCount + 1 })) lMaterialIndex

/-- The count loop (lines 113-125) over `PolygonIndex < PolygonCount`, reading
`MaterialIndice->GetAt(PolygonIndex)`; it runs only when the index array has
`PolygonCount` entries, so every read is in range. -/
def countPass (PolygonCount : Nat) (MaterialIndice : List Nat)
    (_SubMeshArray : List (Option SubMesh)) : List (Option SubMesh) :=
  (List.range PolygonCount).foldl
    (fun acc PolygonIndex => countPolygon acc (MaterialIndice.getD PolygonIndex 0))
    _SubMeshArray

/-- The loop of lines 129-134: every `NULL` entry gets a new submesh. -/
def fixHoles (_SubMeshArray : List (Option SubMesh)) : List (Option SubMesh) :=
  _SubMeshArray.map (fun e => if e = none then some SubMesh.new else e)

/-- The offset loop (lines 137-145), started with `lOffset`: every submesh gets
the running offset, the offset advances by three times its triangle count,
and the count is reset to zero. (No entry is `NULL` after `fixHoles`.) -/
def offsetPass (lOffset : Nat) : List (Option SubMesh) → List (Option SubMesh)
  | [] => []
  | some s :: rest => some ⟨lOffset, 0⟩ :: offsetPass (lOffset + s._TriangleCount * 3) rest
  | none :: rest => none :: offsetPass lOffset rest

/-- Lines 102-158 on a new `SkeletalMesh` (whose `_SubMeshArray` is empty):
the submesh table before the fill pass. -/
def buildSubMeshes (Mesh : FbxMesh) : List (Option SubMesh) :=
  let counted :=
    match Mesh.ElementMaterial with
    | some ElementMaterial =>
      if ElementMaterial.MappingMode = EMappingMode.eByPolygon ∧
          ElementMaterial.IndexArray.length = Mesh.PolygonCount then
        offsetPass 0 (fixHoles (countPass Mesh.PolygonCount ElementMaterial.IndexArray []))
      else []
    | none => []
  if counted.length = 0 then [some SubMesh.new] else counted

/-- The flag `mAllByControlPoint` (line 164): it is initialised to `true` and
both assignments of `false` (lines 176, 188) are commented out. -/
def mAllByControlPoint : Bool := true

/-- The state of the fill loop: the submesh table (cursors), the index array,
the running `lVertexCount`, and `written`, a record of the index-array
positions written so far, in order (not a variable of the source). -/
structure FillState where
  _SubMeshArray : List (Option SubMesh)
  _IndiceArray : List Nat
  lVertexCount : Nat
  written : List Nat

/-- `_IndiceArray[pos] = value`; `none` when `pos` is out of range. -/
def writeIndex (st : FillState) (pos value : Nat) : Option FillState :=
  if pos < st._IndiceArray.length then
    some { st with _IndiceArray := st._IndiceArray.set pos value,
                   written := st.written ++ [pos] }
  else none

/-- The material of a polygon in the fill pass (lines 285-289); `none` when
`GetAt` is called outside the index array. -/
def fillMaterialIndex (Mesh : FbxMesh) (lPolygonIndex : Nat) : Option Nat :=
  match Mesh.ElementMaterial with
  | some ElementMaterial =>
    if ElementMaterial.MappingMode = EMappingMode.eByPolygon then
      ElementMaterial.IndexArray[lPolygonIndex]?
    else some 0
  | none => some 0

/-- One corner of a polygon in the fill pass (lines 296-337). -/
def fillVertex (Mesh : FbxMesh) (lPolygonIndex lIndexOffset : Nat) (st : FillState)
    (lVerticeIndex : Nat) : Option FillState := do
  let lControlPointIndex := Mesh.PolygonVertex lPolygonIndex lVerticeIndex
  let st1 ←
    if mAllByControlPoint then writeIndex st (lIndexOffset + lVerticeIndex) lControlPointIndex
    else writeIndex st (lIndexOffset + lVerticeIndex) st.lVertexCount
  pure { st1 with lVertexCount := st1.lVertexCount + 1 }

/-- One iteration of the fill loop (lines 282-340) for polygon `lPolygonIndex`;
`none` when the submesh lookup or an index write is out of range. -/
def fillPolygon (Mesh : FbxMesh) (st : FillState) (lPolygonIndex : Nat) :
    Option FillState := do
  let lMaterialIndex ← fillMaterialIndex Mesh lPolygonIndex
  let sub ← (st._SubMeshArray[lMaterialIndex]?).join
  let lIndexOffset := sub._IndexOffset + sub._TriangleCount * 3
  let st1 ← (List.range TRIANGLE_VERTEX_COUNT).foldlM
    (fillVertex Mesh lPolygonIndex lIndexOffset) st
  let sub1 ← (st1._SubMeshArray[lMaterialIndex]?).join
  let counted : SubMesh := { sub1 with _TriangleCount := sub1._TriangleCount + 1 }
  pure { st1 with _SubMeshArray := st1._SubMeshArray.set lMaterialIndex (some counted) }

/-- The fill loop (lines 281-340) from a given state. -/
def fillPass (Mesh : FbxMesh) (st : FillState) : Option FillState :=
  (List.range Mesh.PolygonCount).foldlM (fillPolygon Mesh) st

/-- The state in which the fill pass of a new `SkeletalMesh` starts. -/
def fillStart (Mesh : FbxMesh) : FillState :=
  { _SubMeshArray := buildSubMeshes Mesh,
    _IndiceArray := List.replicate (Mesh.PolygonCount * TRIANGLE_VERTEX_COUNT) 0,
    lVertexCount := 0,
    written := [] }

/-- Lines 96-340 as far as submeshes and indices go, on a new `SkeletalMesh`:
build the submesh table, `_IndiceArray.resize(PolygonCount * 3)`, fill. -/
def partitionAndFill (Mesh : FbxMesh) : Option FillState :=
  fillPass Mesh (fillStart Mesh)

/-- Scenario B of the specification: five polygons with material indices
`[0, 1, 0, 1, 1]`; polygon `p` has corners `3p, 3p+1, 3p+2`. -/
def scenarioB : FbxMesh :=
  { PolygonCount := 5,
    ElementMaterial := some { IndexArray := [0, 1, 0, 1, 1], MappingMode := EMappingMode.eByPolygon },
    ControlPointsCount := 15,
    PolygonVertex := fun p v => 3 * p + v }

/-- Scenario A of the specification: six raw influences of one vertex. -/
def scenarioA : List BoneInf :=
  [⟨"b0", 40 / 100⟩, ⟨"b1", 30 / 100⟩, ⟨"b2", 15 / 100⟩, ⟨"b3", 10 / 100⟩,
   ⟨"b4", 3 / 100⟩, ⟨"b5", 2 / 100⟩]

/-- Adding `w` to the weight of an influence (used to state results). -/
def bump (w : ℚ) (b : BoneInf) : BoneInf := { b with Weight := b.Weight + w }

/-- The sum of the weights of a list of influences. -/
def weightSum (l : List BoneInf) : ℚ := (l.map (fun b => b.Weight)).sum

/-! ### Closed forms used to state and prove the partitioning results -/

/-- The length the count pass gives the table for the materials `mats`:
the largest material index plus one (0 for no polygon). -/
def tableLen (mats : List Nat) : Nat := mats.foldl (fun L m => max L (m + 1)) 0

/-- Three times the number of polygons of `mats` with a material below `i`. -/
def offsetOf (mats : List Nat) (i : Nat) : Nat :=
  3 * ∑ j in Finset.range i, mats.count j

/-- The table of the count pass after the polygons `p`. -/
def countedTable (p : List Nat) : List (Option SubMesh) :=
  (List.range (tableLen p)).map
    (fun i => if p.count i = 0 then none else some ⟨0, p.count i⟩)

/-- The table of the fill pass for a mesh with materials `mats`, of length `L`,
after the polygons `p`: the offsets are final, the counters count `p`. -/
def cursorTable (mats : List Nat) (L : Nat) (p : List Nat) : List (Option SubMesh) :=
  (List.range L).map (fun i => some ⟨offsetOf mats i, p.count i⟩)

/-- The first index-array position of polygon `P` of a mesh with materials
`mats`: the offset of its submesh plus three times the number of earlier
polygons of the same material. -/
def polygonPos (mats : List Nat) (P : Nat) : Nat :=
  offsetOf mats (mats.getD P 0) + 3 * (mats.take P).count (mats.getD P 0)

/-- The triangle count of entry `j` of a submesh table (0 if there is none). -/
def triangleCountAt (table : List (Option SubMesh)) (j : Nat) : Nat :=
  match table[j]? with
  | some (some s) => s._TriangleCount
  | _ => 0

/-- The state of the fill pass of a mesh with materials `mats` after its first
`k` polygons, as a property of the state `st`. -/
def FillInv (Mesh : FbxMesh) (mats : List Nat) (k : Nat) (st : FillState) : Prop :=
  st._SubMeshArray = cursorTable mats (max (tableLen mats) 1) (mats.take k) ∧
  st._IndiceArray.length = 3 * mats.length ∧
  st.lVertexCount = 3 * k ∧
  st.written =
    (List.range k).flatMap
      (fun P => [polygonPos mats P, polygonPos mats P + 1, polygonPos mats P + 2]) ∧
  ∀ P, P < k → ∀ v, v < 3 →
    st._IndiceArray[polygonPos mats P + v]? = some (Mesh.PolygonVertex P v)

/-! ### Bone registry (lines 470-559) -/

/-- Modelled from the spec: `struct BoneIndexInfo`, declared in a header that
is not under src/. The fields are the ones `ImportFromFbxMesh` uses: the bone
name, the `used` flag, the index of the bone in the skeleton and the dense
index. -/
structure BoneIndexInfo where
  BoneName : String
  IsUsedLink : Bool
  SkeletonIndex : Int
  Index : Nat
deriving DecidableEq

/-- Modelled from the spec: `BoneIndexInfo::operator<`, declared in a header
that is not under src/ and used by `std::sort(BoneLinkArray)` (line 507): the
bones are ordered ascending by `SkeletonIndex`. -/
def BoneIndexInfo.lt (self other : BoneIndexInfo) : Bool :=
  decide (self.SkeletonIndex < other.SkeletonIndex)

/-- What `ImportFromFbxMesh` uses of `FbxFileImporter`: the registry
`BoneIndexMap` (a `std::map` from bone name to `BoneIndexInfo`, here the list
of its entries in iteration order) and the array `BoneArray`. Both live in
the importer and persist from one import to the next. -/
structure FbxFileImporter where
  BoneIndexMap : List (String × BoneIndexInfo)
  BoneArray : List BoneIndexInfo

/-- `BoneIndexMap.find(key)`: the value of the entry with that key, `none` for
`end()`. -/
def mapFind (BoneIndexMap : List (String × BoneIndexInfo)) (key : String) :
    Option BoneIndexInfo :=
  match BoneIndexMap with
  | [] => none
  | e :: rest => if e.1 = key then some e.2 else mapFind rest key

/-- `it = BoneIndexMap.find(key); if (it != end()) it->second = f(it->second)`:
the entry found is updated in place. -/
def mapModify (f : BoneIndexInfo → BoneIndexInfo) (key : String) :
    List (String × BoneIndexInfo) → List (String × BoneIndexInfo)
  | [] => []
  | e :: rest => if e.1 = key then (e.1, f e.2) :: rest else e :: mapModify f key rest

/-- The update of the mark loop (line 482). -/
def setUsed (LinkInfo : BoneIndexInfo) : BoneIndexInfo := { LinkInfo with IsUsedLink := true }

/-- The update of the assign loop (line 518). -/
def setIndex (BoneIndex : Nat) (LinkInfoMap : BoneIndexInfo) : BoneIndexInfo :=
  { LinkInfoMap with Index := BoneIndex }

/-- The mark loop (lines 471-485): every influence of every vertex whose bone
name is found in the registry sets `IsUsedLink` of that entry. -/
def markPhase (SkinInfoArray : List VertexSkinInfo)
    (BoneIndexMap : List (String × BoneIndexInfo)) : List (String × BoneIndexInfo) :=
  SkinInfoArray.foldl
    (fun m Vertex =>
      Vertex.BoneLink.foldl
        (fun m inf => mapModify setUsed inf.BoneName m)
        m)
    BoneIndexMap

/-- The erase loop (lines 487-497): entries with `IsUsedLink == false` are
erased from the registry itself. -/
def eraseUnused (BoneIndexMap : List (String × BoneIndexInfo)) :
    List (String × BoneIndexInfo) :=
  BoneIndexMap.filter (fun e => e.2.IsUsedLink)

/-- The loop of lines 501-505: a copy of every registry entry is pushed to the
back of `BoneArray`. -/
def pushAll (BoneLinkArray : List BoneIndexInfo)
    (BoneIndexMap : List (String × BoneIndexInfo)) : List BoneIndexInfo :=
  BoneLinkArray ++ BoneIndexMap.map (fun e => e.2)

/-- The loop of lines 509-520 from position `BoneIndex` on: the registry entry
found under the name of `BoneLinkArray[BoneIndex]` gets `Index = BoneIndex`. -/
def assignIndexFrom (BoneIndex : Nat) :
    List BoneIndexInfo → List (String × BoneIndexInfo) → List (String × BoneIndexInfo)
  | [], m => m
  | LinkInfo :: rest, m =>
    assignIndexFrom (BoneIndex + 1) rest (mapModify (setIndex BoneIndex) LinkInfo.BoneName m)

/-- Modelled from the spec: `MAX_BONELINK`, a macro of a header that is not
under src/; a vertex has 4 skin slots. -/
def MAX_BONELINK : Nat := 4

/-- Modelled from the spec: `struct SkinInfo`, the element of `_SkinInfoArray`,
declared in a header that is not under src/: 4 weights and 4 bone indices. A
bone index is stored as assigned (no narrowing is modelled). -/
structure SkinInfo where
  Weights : List ℚ
  Bones : List Nat
deriving DecidableEq

/-- A value-initialised `SkinInfo`, as `_SkinInfoArray.resize` creates it. -/
def SkinInfo.zero : SkinInfo := ⟨[0, 0, 0, 0], [0, 0, 0, 0]⟩

/-- One iteration of the loop of lines 527-539 for slot `BIdx` holding the
influence `inf`. After the compaction a vertex has at most 4 influences, so
`BIdx < 4` and both writes are inside the 4-slot arrays. -/
def remapSlot (BoneIndexMap : List (String × BoneIndexInfo)) (skin : SkinInfo)
    (BIdx : Nat) (inf : BoneInf) : SkinInfo :=
  let skin1 : SkinInfo := { skin with Weights := skin.Weights.set BIdx inf.Weight }
  match mapFind BoneIndexMap inf.BoneName with
  | some LinkInfoMap => { skin1 with Bones := skin1.Bones.set BIdx LinkInfoMap.Index }
  | none => skin1

/-- The loop of lines 527-539 from slot `BIdx` on. -/
def remapSlotsFrom (BoneIndexMap : List (String × BoneIndexInfo)) (BIdx : Nat) :
    List BoneInf → SkinInfo → SkinInfo
  | [], skin => skin
  | inf :: rest, skin =>
    remapSlotsFrom BoneIndexMap (BIdx + 1) rest (remapSlot BoneIndexMap skin BIdx inf)

/-- The padding loop of lines 540-548: `Remain = 4 - size` slots, from slot 3
down, get weight 0 and bone 0. -/
def padSlots (Remain : Nat) (skin : SkinInfo) : SkinInfo :=
  (List.range Remain).foldl
    (fun s r => { Weights := s.Weights.set (3 - r) 0, Bones := s.Bones.set (3 - r) 0 })
    skin

/-- The body of the loop of lines 524-549 for one vertex. -/
def remapVertex (BoneIndexMap : List (String × BoneIndexInfo)) (Vertex : VertexSkinInfo)
    (skin : SkinInfo) : SkinInfo :=
  padSlots (4 - Vertex.BoneLink.length) (remapSlotsFrom BoneIndexMap 0 Vertex.BoneLink skin)

/-- What the skin block leaves behind: the importer state, and the members
`_SkinInfoArray`, `_NumBone` and `_RequiredBoneArray` of the mesh. -/
structure SkinResult where
  Importer : FbxFileImporter
  _SkinInfoArray : List SkinInfo
  _NumBone : Nat
  _RequiredBoneArray : List Int

/-- The compaction loop over all vertices (lines 444-460). The `assert` of
line 467 changes no state and is not part of this function. -/
def trimAll (sortInf : List BoneInf → List BoneInf) (SkinInfoArray : List VertexSkinInfo) :
    List VertexSkinInfo :=
  SkinInfoArray.map (fun Vertex => { BoneLink := trimInfluences sortInf Vertex.BoneLink })

/-- Lines 470-520 on an already compacted influence table: mark, erase, push,
sort, assign. The result is the new importer state. -/
def resolveBones (sortBones : List BoneIndexInfo → List BoneIndexInfo)
    (SkinInfoArray : List VertexSkinInfo) (Importer : FbxFileImporter) : FbxFileImporter :=
  let marked := eraseUnused (markPhase SkinInfoArray Importer.BoneIndexMap)
  let BoneLinkArray := sortBones (pushAll Importer.BoneArray marked)
  { BoneIndexMap := assignIndexFrom 0 BoneLinkArray marked, BoneArray := BoneLinkArray }

/-- Lines 443-559 of `ImportFromFbxMesh` on a new `SkeletalMesh`, from the
influence table `SkinInfoArray` that the collection loops have filled (one
entry per control point): compaction, bone registry, remap, and the
dense-to-skeleton array. `sortInf` and `sortBones` are the two calls of
`std::sort`. -/
def importSkin (sortInf : List BoneInf → List BoneInf)
    (sortBones : List BoneIndexInfo → List BoneIndexInfo)
    (SkinInfoArray : List VertexSkinInfo) (Importer : FbxFileImporter) : SkinResult :=
  let trimmed := trimAll sortInf SkinInfoArray
  let Importer1 := resolveBones sortBones trimmed Importer
  { Importer := Importer1,
    _SkinInfoArray := trimmed.map (fun Vertex =>
      remapVertex Importer1.BoneIndexMap Vertex SkinInfo.zero),
    _NumBone := Importer1.BoneArray.length,
    _RequiredBoneArray := Importer1.BoneArray.map (fun b => b.SkeletonIndex) }

/-- A concrete sorting routine satisfying the `std::sort` contract for
`BoneIndexInfo::operator<`, used to evaluate the embedding on examples. -/
def sortBoneIndexInfo (l : List BoneIndexInfo) : List BoneIndexInfo :=
  l.insertionSort (fun a b => a.SkeletonIndex ≤ b.SkeletonIndex)

/-- Scenario C of the specification: a registry of 10 skeleton bones. -/
def scenarioCRegistry : List (String × BoneIndexInfo) :=
  [("bone0", ⟨"bone0", false, 0, 0⟩), ("bone1", ⟨"bone1", false, 1, 0⟩),
   ("bone2", ⟨"bone2", false, 2, 0⟩), ("bone3", ⟨"bone3", false, 3, 0⟩),
   ("bone4", ⟨"bone4", false, 4, 0⟩), ("bone5", ⟨"bone5", false, 5, 0⟩),
   ("bone6", ⟨"bone6", false, 6, 0⟩), ("bone7", ⟨"bone7", false, 7, 0⟩),
   ("bone8", ⟨"bone8", false, 8, 0⟩), ("bone9", ⟨"bone9", false, 9, 0⟩)]

/-- Scenario C of the specification: two vertices that reference 3 of the 10
bones, `bone7`, `bone2` and `bone5`. -/
def scenarioCTable : List VertexSkinInfo :=
  [⟨[⟨"bone7", 1 / 2⟩, ⟨"bone2", 1 / 2⟩]⟩, ⟨[⟨"bone5", 1 / 2⟩, ⟨"bone7", 1 / 2⟩]⟩]

/-- The importer at the start of a session with the registry of Scenario C. -/
def scenarioCImporter : FbxFileImporter := ⟨scenarioCRegistry, []⟩

/-- The position that the loop of lines 509-520, started at `BoneIndex`,
leaves in the entry with key `key`: that of the last element of
`BoneLinkArray` with this name (`none` when there is none). -/
def finalIndex (BoneIndex : Nat) : List BoneIndexInfo → String → Option Nat
  | [], _ => none
  | LinkInfo :: rest, key =>
    match finalIndex (BoneIndex + 1) rest key with
    | some i => some i
    | none => if LinkInfo.BoneName = key then some BoneIndex else none

/-- The bone names that an influence table references. -/
def referencedNames (SkinInfoArray : List VertexSkinInfo) : List String :=
  SkinInfoArray.flatMap (fun Vertex => Vertex.BoneLink.map (fun inf => inf.BoneName))

/-- The keys of a registry. -/
def mapKeys (BoneIndexMap : List (String × BoneIndexInfo)) : List String :=
  BoneIndexMap.map (fun e => e.1)

/-- A registry as a `std::map` filled by the importer holds it: the keys are
pairwise distinct, and every entry is stored under its own bone name. -/
def RegistryWF (BoneIndexMap : List (String × BoneIndexInfo)) : Prop :=
  (mapKeys BoneIndexMap).Nodup ∧ ∀ e ∈ BoneIndexMap, e.2.BoneName = e.1

/-- The invariant of an import session: the registry is well formed, and every
element of `BoneArray` that carries the name of a registry entry carries its
skeleton index too. It holds at the start of a session (`BoneArray` empty)
and every import re-establishes it. -/
def ImporterInv (Importer : FbxFileImporter) : Prop :=
  RegistryWF Importer.BoneIndexMap ∧
  ∀ x ∈ Importer.BoneArray, ∀ e ∈ Importer.BoneIndexMap,
    e.1 = x.BoneName → x.SkeletonIndex = e.2.SkeletonIndex

/-- The dense indices (`Index`) of the registry entries with `used = true`. -/
def usedDenseIndices (BoneIndexMap : List (String × BoneIndexInfo)) : List Nat :=
  (BoneIndexMap.filter (fun e => e.2.IsUsedLink)).map (fun e => e.2.Index)

/-- The number of registry entries with `used = true`. -/
def usedBoneCount (BoneIndexMap : List (String × BoneIndexInfo)) : Nat :=
  (BoneIndexMap.filter (fun e => e.2.IsUsedLink)).length

/-- The result of importing the mesh of Scenario C at the start of a session. -/
def scenarioCFirst : SkinResult :=
  importSkin sortBoneInf sortBoneIndexInfo scenarioCTable scenarioCImporter

/-- The result of importing the mesh of Scenario C a second time, through the
importer that the first import left behind. -/
def scenarioCSecond : SkinResult :=
  importSkin sortBoneInf sortBoneIndexInfo scenarioCTable scenarioCFirst.Importer

/-! ### Vertex packing (lines 586-596 and 621-632) -/

/-- The conversion `(unsigned int) x` of a `float`: truncation toward zero. The
C++ conversion is defined only when the truncated value fits the type, that
is for `-1 < x < 2 ^ 32`; `none` otherwise. -/
def toUnsignedInt (x : ℚ) : Option Nat :=
  if -1 < x ∧ x < 2 ^ 32 then some (Int.toNat ⌊x⌋) else none

/-- One iteration of the loops of lines 589-592 and 624-627:
`Weights |= (unsigned int)(Weights[k] * 255.f) << k*8`, on a 32-bit word;
`none` when `k` is not a slot or the conversion is undefined. -/
def packWeightStep (skin : SkinInfo) (Weights : Nat) (k : Nat) : Option Nat := do
  let w ← skin.Weights[k]?
  let q ← toUnsignedInt (w * 255)
  pure (Weights ||| ((q <<< (k * 8)) % 2 ^ 32))

/-- The loops of lines 586-592 and 621-627: the packed `Weights` word. -/
def packWeights (skin : SkinInfo) : Option Nat :=
  (List.range MAX_BONELINK).foldlM (packWeightStep skin) 0

/-- One iteration of the loops of lines 593-596 and 628-632:
`Bones |= (unsigned int)Bones[k] << k*8`, on a 32-bit word. -/
def packBoneStep (skin : SkinInfo) (Bones : Nat) (k : Nat) : Option Nat := do
  let b ← skin.Bones[k]?
  pure (Bones ||| (((b % 2 ^ 32) <<< (k * 8)) % 2 ^ 32))

/-- The loops of lines 587-596 and 622-632: the packed `Bones` word. -/
def packBones (skin : SkinInfo) : Option Nat :=
  (List.range MAX_BONELINK).foldlM (packBoneStep skin) 0

/-- Byte `k` of a 32-bit word: bits `8k .. 8k+7`. -/
def byteOf (word k : Nat) : Nat := (word >>> (k * 8)) % 256

/-- The quantisation in the words of the specification: `round(w * 255)`
clamped to `[0, 255]`. -/
def quantizeSpec (w : ℚ) : Int := max 0 (min 255 (round (w * 255)))

/-- The two skin words of a packed vertex (`Weights` and `Bones`, members of
both `NormalVertexGpuSkin` and `NormalTexVertexGpuSkin`). -/
structure GpuSkinWords where
  Weights : Nat
  Bones : Nat
deriving DecidableEq

/-- The skin words of a `NormalVertexGpuSkin` (lines 586-596). -/
def packNormalVertexGpuSkin (skin : SkinInfo) : Option GpuSkinWords := do
  let Weights ← packWeights skin
  let Bones ← packBones skin
  pure ⟨Weights, Bones⟩

/-- The skin words of a `NormalTexVertexGpuSkin` (lines 621-632): the same two
loops as in the layout without texture coordinates. -/
def packNormalTexVertexGpuSkin (skin : SkinInfo) : Option GpuSkinWords := do
  let Weights ← packWeights skin
  let Bones ← packBones skin
  pure ⟨Weights, Bones⟩

/-- The bone index that the remap loop leaves in the slot of the influence
`inf` on a new mesh: the `Index` of the registry entry found under its bone
name, and the value-initialised 0 when there is none (line 534 skips the
write). -/
def slotBone (BoneIndexMap : List (String × BoneIndexInfo)) (inf : BoneInf) : Nat :=
  match mapFind BoneIndexMap inf.BoneName with
  | some LinkInfoMap => LinkInfoMap.Index
  | none => 0

/-! ### Control flow of `ImportFromFbxMesh` -/

/-! #### Single-precision arithmetic (lines 455-467)

The additions of lines 455 and 464, the division of line 455 and the
comparison of line 467 are made in `float`. A finite `float` is the exact
rational it stands for; an operation rounds its exact result to the nearest
`float`, ties to even, as IEEE 754 binary32 does: 24-bit significand,
exponents down to `2 ^ -149`, overflow to infinity. -/

/-- A value of type `float`: a finite value, an infinity or a NaN. -/
inductive Float32 where
  | finite (value : ℚ)
  | posInf
  | negInf
  | nan
deriving DecidableEq

/-- Rounding of a rational to the nearest integer, ties to the even one. -/
def roundHalfEven (y : ℚ) : ℤ :=
  let f := ⌊y⌋
  if y - f < 1 / 2 then f
  else if 1 / 2 < y - f then f + 1
  else if f % 2 = 0 then f else f + 1

/-- The `float` nearest to the rational `x` (ties to even): the last place of a
value with binary exponent `e` is `2 ^ (e - 23)`, and `2 ^ -149` at least; a
result of magnitude `2 ^ 128` or more is an infinity. This is also the
conversion `(float)lWeight` of line 426. -/
def Float32.ofRat (x : ℚ) : Float32 :=
  if x = 0 then Float32.finite 0
  else
    let q : ℤ := max (Int.log 2 |x| - 23) (-149)
    let r : ℚ := (roundHalfEven (x / 2 ^ q) : ℚ) * 2 ^ q
    if (2 : ℚ) ^ (128 : ℕ) ≤ |r| then (if 0 < x then Float32.posInf else Float32.negInf)
    else Float32.finite r

/-- The `float` addition `a + b`. -/
def Float32.add : Float32 → Float32 → Float32
  | Float32.finite a, Float32.finite b => Float32.ofRat (a + b)
  | Float32.nan, _ => Float32.nan
  | _, Float32.nan => Float32.nan
  | Float32.posInf, Float32.negInf => Float32.nan
  | Float32.negInf, Float32.posInf => Float32.nan
  | Float32.posInf, _ => Float32.posInf
  | _, Float32.posInf => Float32.posInf
  | Float32.negInf, _ => Float32.negInf
  | _, Float32.negInf => Float32.negInf

/-- The `float` division `a / 4.f`. -/
def Float32.div4 : Float32 → Float32
  | Float32.finite a => Float32.ofRat (a / 4)
  | a => a

/-- The comparison `a >= c` of a `float` with a finite `float` constant `c`. -/
def Float32.ge (a : Float32) (c : ℚ) : Bool :=
  match a with
  | Float32.finite value => decide (c ≤ value)
  | Float32.posInf => true
  | _ => false

/-- The constant `0.999f` of line 467: the `float` nearest to 0.999. -/
def float0999 : ℚ := 16760439 / 16777216

/-- The inner loop of lines 453-456 for one `OverIndex`, on the `float`
weights: `Weight[k] += Weight[OverIndex] / 4.f` for `k = 0, ..., 3`. -/
def redistributeOneF32 (Weights : List Float32) (OverIndex : Nat) : List Float32 :=
  (List.range 4).foldl
    (fun acc k =>
      match acc[OverIndex]? with
      | some over => acc.modify (fun w => Float32.add w (Float32.div4 over)) k
      | none => acc)
    Weights

/-- The loop of lines 451-457 on the `float` weights. -/
def redistributeF32 (Weights : List Float32) : List Float32 :=
  (List.range' 4 (Weights.length - 4)).foldl redistributeOneF32 Weights

/-- The `float` weights of a vertex after the compaction step (lines 447-460):
when there are more than 4 influences, sort, redistribute in `float`, and
erase the last `size - 4`. -/
def compactedWeights (sort : List BoneInf → List BoneInf) (BoneLink : List BoneInf) :
    List Float32 :=
  if BoneLink.length > 4 then
    let Weights := redistributeF32 ((sort BoneLink).map (fun b => Float32.ofRat b.Weight))
    let NumErase := Weights.length - 4
    Weights.take (Weights.length - NumErase)
  else BoneLink.map (fun b => Float32.ofRat b.Weight)

/-- The variable `WeightTotal` after the loop of lines 461-465: the `float` sum
of the weights, accumulated from `0.f` in slot order. -/
def weightTotalF32 (Weights : List Float32) : Float32 :=
  Weights.foldl Float32.add (Float32.finite 0)

/-- The condition `WeightTotal >= 0.999f` of the `assert` of line 467 for the
influences `BoneLink` that a vertex holds when the assertion is reached. -/
def weightAssert (BoneLink : List BoneInf) : Bool :=
  Float32.ge (weightTotalF32 (BoneLink.map (fun b => Float32.ofRat b.Weight))) float0999

/-- The condition of the `assert` of line 467 for a vertex with the raw
influences `BoneLink`: compaction and sum in `float`, then the comparison. -/
def weightCheck (sort : List BoneInf → List BoneInf) (BoneLink : List BoneInf) : Bool :=
  Float32.ge (weightTotalF32 (compactedWeights sort BoneLink)) float0999

/-- How a call of `ImportFromFbxMesh` ends: a failed `assert` terminates the
program (`aborted`, nothing is returned to the caller); otherwise the
function returns `result`, and `skin` is what the skin block has left behind
if it has run. -/
inductive ImportOutcome where
  | aborted
  | returned (result : Bool) (skin : Option SkinResult)

/-- The value returned to the caller, if any. -/
def ImportOutcome.result : ImportOutcome → Option Bool
  | ImportOutcome.aborted => none
  | ImportOutcome.returned result _ => some result

/-- What decides the control flow of one call: whether `Mesh->GetNode()` is
non-null (line 66); the influence table that the collection loops have filled
when the skin block runs (`none` when the guards of lines 356-382 skip the
block); whether a vertex buffer is built (`mHasNormal`, lines 577 and 611);
and whether the two `CreateBuffer` calls fail (lines 600, 636 and 653). -/
structure ImportRun where
  hasNode : Bool
  SkinInfoArray : Option (List VertexSkinInfo)
  mHasNormal : Bool
  vertexBufferFailed : Bool
  indexBufferFailed : Bool

/-- The statement `assert(false); return false;` after a failed `CreateBuffer`
(lines 600-604, 636-640, 653-657). -/
def failedBuffer (NDEBUG : Bool) (skin : Option SkinResult) : ImportOutcome :=
  if NDEBUG then ImportOutcome.returned false skin else ImportOutcome.aborted

/-- The skin block with its `assert` (lines 443-559): `none` when the assertion
of line 467 fails for some vertex in a build with assertions (`NDEBUG` not
defined); otherwise the result of `importSkin`. -/
def skinBlock (NDEBUG : Bool) (sortInf : List BoneInf → List BoneInf)
    (sortBones : List BoneIndexInfo → List BoneIndexInfo)
    (SkinInfoArray : List VertexSkinInfo) (Importer : FbxFileImporter) : Option SkinResult :=
  if NDEBUG || SkinInfoArray.all (fun Vertex => weightCheck sortInf Vertex.BoneLink)
  then some (importSkin sortInf sortBones SkinInfoArray Importer)
  else none

/-- The control flow of `ImportFromFbxMesh` (lines 64-678): the early return of
line 67, the skin block, the creation of the vertex and index buffers, and
`return true`. `NDEBUG` tells whether `assert` is compiled out. -/
def importMesh (NDEBUG : Bool) (sortInf : List BoneInf → List BoneInf)
    (sortBones : List BoneIndexInfo → List BoneIndexInfo) (run : ImportRun)
    (Importer : FbxFileImporter) : ImportOutcome :=
  if !run.hasNode then ImportOutcome.returned false none
  else
    match run.SkinInfoArray with
    | none =>
      if run.mHasNormal && run.vertexBufferFailed then failedBuffer NDEBUG none
      else if run.indexBufferFailed then failedBuffer NDEBUG none
      else ImportOutcome.returned true none
    | some table =>
      match skinBlock NDEBUG sortInf sortBones table Importer with
      | none => ImportOutcome.aborted
      | some skin =>
        if run.mHasNormal && run.vertexBufferFailed then failedBuffer NDEBUG (some skin)
        else if run.indexBufferFailed then failedBuffer NDEBUG (some skin)
        else ImportOutcome.returned true (some skin)

/-- A call on a skinned mesh with normals whose node exists and whose buffers
are created: the run of the skin block on the table `SkinInfoArray`. -/
def skinnedRun (SkinInfoArray : List VertexSkinInfo) : ImportRun :=
  { hasNode := true, SkinInfoArray := some SkinInfoArray, mHasNormal := true,
    vertexBufferFailed := false, indexBufferFailed := false }

/-- A skinned mesh with one vertex whose only influence has weight 0.5. -/
def halfWeightTable : List VertexSkinInfo := [⟨[⟨"bone2", 1 / 2⟩]⟩]

/-- A skinned mesh with two vertices: the first is fully weighted, the second
has no influence at all. -/
def unskinnedVertexTable : List VertexSkinInfo := [⟨[⟨"bone2", 1⟩]⟩, ⟨[]⟩]

/-- A skinned mesh with one vertex bound to a bone that the registry of
Scenario C does not contain. -/
def ghostBoneTable : List VertexSkinInfo := [⟨[⟨"ghost", 1⟩]⟩]

/-- A skinned mesh with one vertex whose two `float` weights have an exact sum
below 0.999 and a `float` sum equal to `0.999f`. -/
def roundedUpTable : List VertexSkinInfo :=
  [⟨[⟨"bone2", 16760438 / 16777216⟩, ⟨"bone5", 32769 / 1099511627776⟩]⟩]

/-- A skinned mesh with one vertex whose three `float` weights have the exact
sum `16760439 / 2 ^ 24` (above 0.999) and a `float` sum one place below
`0.999f`. -/
def roundedDownTable : List VertexSkinInfo :=
  [⟨[⟨"bone2", 1 / 2⟩, ⟨"bone5", 8388609 / 33554432⟩, ⟨"bone7", 16710106 / 67108864⟩]⟩]

/-- The name of bone `i` of the large example: `i + 1` letters `b`. -/
def manyBoneName (i : Nat) : String := String.mk (List.replicate (i + 1) 'b')

/-- A registry of 257 skeleton bones, none flagged as used. -/
def manyBonesRegistry : List (String × BoneIndexInfo) :=
  (List.range 257).map (fun i => (manyBoneName i, ⟨manyBoneName i, false, i, 0⟩))

/-- A skinned mesh of 257 vertices; vertex `i` is bound to bone `i` with
weight 1. -/
def manyBonesTable : List VertexSkinInfo :=
  (List.range 257).map (fun i => ⟨[⟨manyBoneName i, 1⟩]⟩)

/-- The importer at the start of a session with the registry of 257 bones. -/
def manyBonesImporter : FbxFileImporter := ⟨manyBonesRegistry, []⟩

/-- The dequantised weight sum of a packed `Weights` word: the sum of its four
bytes divided by 255. -/
def dequantizedSum (word : Nat) : ℚ :=
  ((byteOf word 0 + byteOf word 1 + byteOf word 2 + byteOf word 3 : Nat) : ℚ) / 255

/-- A skinned mesh with one vertex bound to four bones with weight 0.25
each (weight sum 1). -/
def quarterWeightsTable : List VertexSkinInfo :=
  [⟨[⟨"bone2", 1 / 4⟩, ⟨"bone5", 1 / 4⟩, ⟨"bone7", 1 / 4⟩, ⟨"bone8", 1 / 4⟩]⟩]

/-- A second mesh for the session of Scenario C: one vertex bound to `bone5`
with weight 1. -/
def scenarioCMeshB : List VertexSkinInfo := [⟨[⟨"bone5", 1⟩]⟩]

/-- The result of importing `scenarioCMeshB` after the mesh of Scenario C,
through the same importer. -/
def scenarioCThenB : SkinResult :=
  importSkin sortBoneInf sortBoneIndexInfo scenarioCMeshB scenarioCFirst.Importer

/-- A second mesh for the session of Scenario C whose only vertex is bound to
`bone3`, a bone of the registry that the first mesh does not use. -/
def scenarioCMeshBone3 : List VertexSkinInfo := [⟨[⟨"bone3", 1⟩]⟩]

/-- The result of importing `scenarioCMeshBone3` after the mesh of Scenario C,
through the same importer. -/
def scenarioCThenBone3 : SkinResult :=
  importSkin sortBoneInf sortBoneIndexInfo scenarioCMeshBone3 scenarioCFirst.Importer

/-! ### `std::sort` as libstdc++ implements it

`std::sort` belongs to the C++ standard library, not to the repository. The
definitions below follow the implementation of libstdc++ (`bits/stl_algo.h`
and `bits/stl_heap.h` of GCC): an introsort loop with median-of-three
partitioning and a heap sort fallback, finished by an insertion sort. The
range is rendered as the list of the original positions of its elements, so
that moving an element is moving its position. -/

/-- The exchange `std::iter_swap` of the elements at positions `i` and `j`. -/
def iterSwap (x : List Nat) (i j : Nat) : List Nat :=
  (x.set i (x.getD j 0)).set j (x.getD i 0)

/-- The loop of `std::__unguarded_linear_insert`: the element `val` taken from
position `last` moves down while it compares less than its predecessor. -/
def unguardedLinearInsertLoop (comp : Nat → Nat → Bool) (val : Nat) :
    Nat → List Nat → Nat → List Nat
  | 0, x, last => x.set last val
  | fuel + 1, x, last =>
    if last = 0 then x.set last val
    else if comp val (x.getD (last - 1) 0) then
      unguardedLinearInsertLoop comp val fuel (x.set last (x.getD (last - 1) 0)) (last - 1)
    else x.set last val

/-- `std::__unguarded_linear_insert(last, comp)`. -/
def unguardedLinearInsert (comp : Nat → Nat → Bool) (x : List Nat) (last : Nat) : List Nat :=
  unguardedLinearInsertLoop comp (x.getD last 0) last x last

/-- One iteration of the loop of `std::__insertion_sort(first, last, comp)` with
`first` at position 0: an element less than the first one is moved to the
front (`std::move_backward`), any other is inserted unguarded. -/
def insertionSortStep (comp : Nat → Nat → Bool) (x : List Nat) (i : Nat) : List Nat :=
  if comp (x.getD i 0) (x.getD 0 0) then x.getD i 0 :: (x.take i ++ x.drop (i + 1))
  else unguardedLinearInsert comp x i

/-- `std::__insertion_sort` on the positions `[0, last)`. -/
def stdInsertionSort (comp : Nat → Nat → Bool) (x : List Nat) (last : Nat) : List Nat :=
  (List.range' 1 (last - 1)).foldl (insertionSortStep comp) x

/-- `std::__unguarded_insertion_sort` on the positions `[first, last)`. -/
def unguardedInsertionSort (comp : Nat → Nat → Bool) (x : List Nat) (first last : Nat) :
    List Nat :=
  (List.range' first (last - first)).foldl (unguardedLinearInsert comp) x

/-- `std::__final_insertion_sort` on the whole range (`_S_threshold` is 16). -/
def finalInsertionSort (comp : Nat → Nat → Bool) (x : List Nat) : List Nat :=
  if x.length > 16 then
    unguardedInsertionSort comp (stdInsertionSort comp x 16) 16 x.length
  else stdInsertionSort comp x x.length

/-- `std::__move_median_to_first(result, a, b, c, comp)`. -/
def moveMedianToFirst (comp : Nat → Nat → Bool) (x : List Nat) (result a b c : Nat) :
    List Nat :=
  if comp (x.getD a 0) (x.getD b 0) then
    if comp (x.getD b 0) (x.getD c 0) then iterSwap x result b
    else if comp (x.getD a 0) (x.getD c 0) then iterSwap x result c
    else iterSwap x result a
  else if comp (x.getD a 0) (x.getD c 0) then iterSwap x result a
  else if comp (x.getD b 0) (x.getD c 0) then iterSwap x result c
  else iterSwap x result b

/-- The loop `while (comp(first, pivot)) ++first;` of the partition. -/
def advanceFirst (comp : Nat → Nat → Bool) (x : List Nat) (pivot : Nat) : Nat → Nat → Nat
  | 0, first => first
  | fuel + 1, first =>
    if comp (x.getD first 0) (x.getD pivot 0) then advanceFirst comp x pivot fuel (first + 1)
    else first

/-- The loop `while (comp(pivot, last)) --last;` of the partition. -/
def retreatLast (comp : Nat → Nat → Bool) (x : List Nat) (pivot : Nat) : Nat → Nat → Nat
  | 0, last => last
  | fuel + 1, last =>
    if comp (x.getD pivot 0) (x.getD last 0) then retreatLast comp x pivot fuel (last - 1)
    else last

/-- `std::__unguarded_partition(first, last, pivot, comp)`: the rearranged
range and the cut. -/
def unguardedPartition (comp : Nat → Nat → Bool) (pivot : Nat) :
    Nat → List Nat → Nat → Nat → List Nat × Nat
  | 0, x, first, _ => (x, first)
  | fuel + 1, x, first, last =>
    let first1 := advanceFirst comp x pivot x.length first
    let last1 := retreatLast comp x pivot x.length (last - 1)
    if first1 < last1 then
      unguardedPartition comp pivot fuel (iterSwap x first1 last1) (first1 + 1) last1
    else (x, first1)

/-- The loop of `std::__push_heap` on the heap that starts at `first`. -/
def pushHeapLoop (comp : Nat → Nat → Bool) (first topIndex value : Nat) :
    Nat → List Nat → Nat → List Nat
  | 0, x, holeIndex => x.set (first + holeIndex) value
  | fuel + 1, x, holeIndex =>
    let parent := (holeIndex - 1) / 2
    if holeIndex > topIndex ∧ comp (x.getD (first + parent) 0) value = true then
      pushHeapLoop comp first topIndex value fuel
        (x.set (first + holeIndex) (x.getD (first + parent) 0)) parent
    else x.set (first + holeIndex) value

/-- The first loop of `std::__adjust_heap`: the hole moves down to the larger
child. The result is the range, the hole and `secondChild`. -/
def adjustHeapLoop (comp : Nat → Nat → Bool) (first len : Nat) :
    Nat → List Nat → Nat → Nat → List Nat × Nat × Nat
  | 0, x, holeIndex, secondChild => (x, holeIndex, secondChild)
  | fuel + 1, x, holeIndex, secondChild =>
    if secondChild < (len - 1) / 2 then
      let child := 2 * (secondChild + 1)
      let child1 :=
        if comp (x.getD (first + child) 0) (x.getD (first + (child - 1)) 0) then child - 1
        else child
      adjustHeapLoop comp first len fuel
        (x.set (first + holeIndex) (x.getD (first + child1) 0)) child1 child1
    else (x, holeIndex, secondChild)

/-- `std::__adjust_heap(first, holeIndex, len, value, comp)`. -/
def adjustHeap (comp : Nat → Nat → Bool) (x : List Nat) (first holeIndex len value : Nat) :
    List Nat :=
  let r := adjustHeapLoop comp first len len x holeIndex holeIndex
  let x1 := r.1
  let hole1 := r.2.1
  let secondChild := r.2.2
  if len % 2 = 0 ∧ secondChild = (len - 2) / 2 then
    let child := 2 * (secondChild + 1)
    pushHeapLoop comp first holeIndex value len
      (x1.set (first + hole1) (x1.getD (first + (child - 1)) 0)) (child - 1)
  else pushHeapLoop comp first holeIndex value len x1 hole1

/-- The loop of `std::__make_heap` from `parent` down to 0. -/
def makeHeapLoop (comp : Nat → Nat → Bool) (first len : Nat) : Nat → List Nat → Nat → List Nat
  | 0, x, _ => x
  | fuel + 1, x, parent =>
    let x1 := adjustHeap comp x first parent len (x.getD (first + parent) 0)
    if parent = 0 then x1 else makeHeapLoop comp first len fuel x1 (parent - 1)

/-- `std::__make_heap(first, last, comp)`. -/
def makeHeap (comp : Nat → Nat → Bool) (x : List Nat) (first last : Nat) : List Nat :=
  if last - first < 2 then x
  else makeHeapLoop comp first (last - first) (last - first) x ((last - first - 2) / 2)

/-- `std::__sort_heap(first, last, comp)`: `std::__pop_heap` moves the top to the
end of the shrinking heap. -/
def sortHeap (comp : Nat → Nat → Bool) (first : Nat) : Nat → List Nat → Nat → List Nat
  | 0, x, _ => x
  | fuel + 1, x, last =>
    if last - first > 1 then
      let value := x.getD (last - 1) 0
      let x1 := x.set (last - 1) (x.getD first 0)
      sortHeap comp first fuel (adjustHeap comp x1 first 0 (last - 1 - first) value) (last - 1)
    else x

/-- `std::__partial_sort(first, last, last, comp)`, the heap sort that the
introsort loop falls back to. -/
def partialSort (comp : Nat → Nat → Bool) (x : List Nat) (first last : Nat) : List Nat :=
  sortHeap comp first (last - first) (makeHeap comp x first last) last

/-- `std::__introsort_loop(first, last, depth_limit, comp)`. -/
def introsortLoop (comp : Nat → Nat → Bool) : Nat → Nat → List Nat → Nat → Nat → List Nat
  | 0, _, x, _, _ => x
  | fuel + 1, depth_limit, x, first, last =>
    if last - first > 16 then
      if depth_limit = 0 then partialSort comp x first last
      else
        let mid := first + (last - first) / 2
        let x1 := moveMedianToFirst comp x first (first + 1) mid (last - 1)
        let r := unguardedPartition comp first x.length x1 (first + 1) last
        let x2 := introsortLoop comp fuel (depth_limit - 1) r.1 r.2 last
        introsortLoop comp fuel (depth_limit - 1) x2 first r.2
    else x

/-- `std::sort(first, last)` on `n` elements (`std::__sort`), as a rearrangement
of the positions `0, ..., n - 1`; `comp i j` compares the elements that were
at the positions `i` and `j` before the call. The depth limit is
`2 * std::__lg(n)`. -/
def stdSortPositions (comp : Nat → Nat → Bool) (n : Nat) : List Nat :=
  if n = 0 then []
  else finalInsertionSort comp (introsortLoop comp n (2 * Nat.log2 n) (List.range n) 0 n)

/-- The comparison `BoneLink[i] < BoneLink[j]` (`BoneInf::operator<`) of the
elements at two positions of a list. -/
def compareAt (BoneLink : List BoneInf) (i j : Nat) : Bool :=
  match BoneLink[i]?, BoneLink[j]? with
  | some a, some b => a.lt b
  | _, _ => false

/-- The call `std::sort(BoneLink.begin(), BoneLink.end())` of line 451 with the
`std::sort` of libstdc++. -/
def stdSort (BoneLink : List BoneInf) : List BoneInf :=
  (stdSortPositions (compareAt BoneLink) BoneLink.length).filterMap (fun i => BoneLink[i]?)

/-- Twenty influences of equal weight `1/32`, collected in the order `A .. T`. -/
def twentyTiedInfluences : List BoneInf :=
  [⟨"A", 1 / 32⟩, ⟨"B", 1 / 32⟩, ⟨"C", 1 / 32⟩, ⟨"D", 1 / 32⟩, ⟨"E", 1 / 32⟩,
   ⟨"F", 1 / 32⟩, ⟨"G", 1 / 32⟩, ⟨"H", 1 / 32⟩, ⟨"I", 1 / 32⟩, ⟨"J", 1 / 32⟩,
   ⟨"K", 1 / 32⟩, ⟨"L", 1 / 32⟩, ⟨"M", 1 / 32⟩, ⟨"N", 1 / 32⟩, ⟨"O", 1 / 32⟩,
   ⟨"P", 1 / 32⟩, ⟨"Q", 1 / 32⟩, ⟨"R", 1 / 32⟩, ⟨"S", 1 / 32⟩, ⟨"T", 1 / 32⟩]

/-- Five influences of equal weight `1/32`, collected in the order `A .. E`. -/
def fiveTiedInfluences : List BoneInf :=
  [⟨"A", 1 / 32⟩, ⟨"B", 1 / 32⟩, ⟨"C", 1 / 32⟩, ⟨"D", 1 / 32⟩, ⟨"E", 1 / 32⟩]

/-! ### The collection loops (`SkeletalMesh.cpp`, lines 388-441)

A cluster is its link (`GetLink()`, null or a bone node, of which only
`GetName()` is used) and its `GetControlPointIndicesCount()` pairs of
`GetControlPointIndices()[k]` and `GetControlPointWeights()[k]`. The table
`SkinInfoArray` is `new VertexSkinInfo[lVertexCount]`; indexing it at
`lVertexCount` or above is undefined behaviour, rendered as `none`. -/

structure FbxCluster where
  Link : Option String
  ControlPoints : List (Nat × ℚ)
  deriving DecidableEq, Repr

structure FbxSkin where
  Clusters : List FbxCluster
  deriving DecidableEq, Repr

/-- Body of the innermost loop for one pair `k`. The statement
`SkinInfoArray[lIndex].BoneLink.push_back(Inf)` comes first; the tests
`if (lIndex >= lVertexCount) continue;` and `if (lWeight == 0.0) continue;`
follow it and end an iteration that has nothing left to do. -/
def collectPair (BoneName : String) (SkinInfoArray : List VertexSkinInfo) (p : Nat × ℚ) :
    Option (List VertexSkinInfo) :=
  match SkinInfoArray[p.1]? with
  | none => none
  | some V => some (SkinInfoArray.set p.1 ⟨V.BoneLink ++ [⟨BoneName, p.2⟩]⟩)

/-- Body of the cluster loop: `if (!lCluster->GetLink()) continue;`, then the
loop over the pairs. -/
def collectCluster (SkinInfoArray : List VertexSkinInfo) (lCluster : FbxCluster) :
    Option (List VertexSkinInfo) :=
  match lCluster.Link with
  | none => some SkinInfoArray
  | some Bone => lCluster.ControlPoints.foldlM (collectPair Bone) SkinInfoArray

def collectSkin (SkinInfoArray : List VertexSkinInfo) (lSkinDeformer : FbxSkin) :
    Option (List VertexSkinInfo) :=
  lSkinDeformer.Clusters.foldlM collectCluster SkinInfoArray

/-- The collection loops over all skins of a mesh with `lVertexCount` control
points, starting from the freshly allocated table. -/
def collectSkinInfo (lVertexCount : Nat) (Skins : List FbxSkin) :
    Option (List VertexSkinInfo) :=
  Skins.foldlM collectSkin (List.replicate lVertexCount ⟨[]⟩)

/-- Influences that one cluster contributes to control point `v`, in pair order. -/
def clusterInfluencesOf (v : Nat) (c : FbxCluster) : List BoneInf :=
  match c.Link with
  | none => []
  | some Bone => (c.ControlPoints.filter (fun p => p.1 = v)).map (fun p => ⟨Bone, p.2⟩)

/-- The sequence of (linked bone name, weight) over all triples (skin, cluster,
pair) whose pair has control-point index `v`, in iteration order. -/
def influencesOf (Skins : List FbxSkin) (v : Nat) : List BoneInf :=
  Skins.flatMap (fun s => s.Clusters.flatMap (clusterInfluencesOf v))

/-- Two skins over three control points: bone `hip` is referenced twice for
control point 1, once with weight 0, and the middle cluster has no link. -/
def twoSkins : List FbxSkin :=
  [⟨[⟨some "hip", [(1, 1 / 2), (0, 1), (1, 0)]⟩, ⟨none, [(1, 1), (2, 1)]⟩]⟩,
   ⟨[⟨some "knee", [(2, 1), (1, 1 / 2)]⟩]⟩]

/-- One skin whose only cluster weights control point 1 of a mesh that has a
single control point (index 0). -/
def staleSkin : List FbxSkin :=
  [⟨[⟨some "hip", [(0, 1), (1, 1)]⟩]⟩]

/-- The table `T1` extends `T0` by the lists `f v`. -/
def Extends (T0 T1 : List VertexSkinInfo) (f : Nat → List BoneInf) : Prop :=
  T1.length = T0.length ∧
  ∀ (v : Nat) (V : VertexSkinInfo), T0[v]? = some V → T1[v]? = some ⟨V.BoneLink ++ f v⟩

/-! ### Material indices as the fill pass resolves them -/

/-- The material index that the fill pass resolves for each polygon, in polygon
order (0 stands in where `GetAt` is called outside the index array). -/
def resolvedMaterials (Mesh : FbxMesh) : List Nat :=
  (List.range Mesh.PolygonCount).map (fun p => (fillMaterialIndex Mesh p).getD 0)

/-- The condition tested by line 110 (and asserted by `FBX_ASSERT` on line
109): a material element mapped by polygon has one index per polygon. -/
def MaterialCountMatches (Mesh : FbxMesh) : Prop :=
  ∀ em, Mesh.ElementMaterial = some em → em.MappingMode = EMappingMode.eByPolygon →
    em.IndexArray.length = Mesh.PolygonCount

/-- The mesh `Mesh` with a by-polygon material element that gives every
polygon the material 0. -/
def byPolygonTwin (Mesh : FbxMesh) : FbxMesh :=
  { Mesh with
    ElementMaterial :=
      some { IndexArray := List.replicate Mesh.PolygonCount 0,
             MappingMode := EMappingMode.eByPolygon } }

/-- Two polygons over four control points, no material element. -/
def plainQuad : FbxMesh :=
  { PolygonCount := 2,
    ElementMaterial := none,
    ControlPointsCount := 4,
    PolygonVertex := fun p v => if v = 0 then 0 else p + v }

/-- Two polygons whose by-polygon material element has three indices,
`[0, 1, 1]`. -/
def extraIndexMesh : FbxMesh :=
  { PolygonCount := 2,
    ElementMaterial := some { IndexArray := [0, 1, 1], MappingMode := EMappingMode.eByPolygon },
    ControlPointsCount := 4,
    PolygonVertex := fun p v => if v = 0 then 0 else p + v }

/-- One polygon whose by-polygon material element has two indices, `[1, 0]`. -/
def twoIndexTriangle : FbxMesh :=
  { PolygonCount := 1,
    ElementMaterial := some { IndexArray := [1, 0], MappingMode := EMappingMode.eByPolygon },
    ControlPointsCount := 3,
    PolygonVertex := fun _ v => v }

/-- A skinned mesh with one control point that no cluster weights. -/
def noInfluenceTable : List VertexSkinInfo := [⟨[]⟩]

/-! ### Vertex attribute arrays (lines 160-277) and the vertex packer (lines 577-633)

Coordinates are exact rationals. `FbxVector4::Normalize` belongs to the FBX
SDK and is a parameter `Normalize` of the embedding. -/

/-- The three coordinates of an `FbxVector4` that the import reads, and an
`XMFLOAT3`. -/
structure Vec3 where
  x : ℚ
  y : ℚ
  z : ℚ
deriving DecidableEq

/-- The coordinates of an `FbxVector2`, and an `XMFLOAT2`. -/
structure Vec2 where
  x : ℚ
  y : ℚ
deriving DecidableEq

/-- What lines 160-277 read of the normal and UV elements of the mesh and of
its control points: `GetElementNormalCount()`, the mapping mode of
`GetElementNormal(0)`, the same for the UV element, the number of names that
`GetUVSetNames` returns, `GetControlPoints()[lIndex]`, and the normal and UV
that the direct arrays return for control point `lIndex` (through the index
array when the reference mode is `eIndexToDirect`). -/
structure FbxMeshAttributes where
  ElementNormalCount : Nat
  NormalMappingMode : EMappingMode
  ElementUVCount : Nat
  UVMappingMode : EMappingMode
  UVSetNamesCount : Nat
  ControlPoint : Nat → Vec3
  Normal : Nat → Vec3
  UV : Nat → Vec2

/-- The flag `mHasNormal` after lines 162-178. -/
def mHasNormal (a : FbxMeshAttributes) : Bool :=
  decide (0 < a.ElementNormalCount) && decide (a.NormalMappingMode ≠ EMappingMode.eNone)

/-- The flag `mHasUV` after lines 163-190. -/
def mHasUV (a : FbxMeshAttributes) : Bool :=
  decide (0 < a.ElementUVCount) && decide (a.UVMappingMode ≠ EMappingMode.eNone)

/-- The variable `lPolygonVertexCount` (lines 194-198). -/
def lPolygonVertexCount (Mesh : FbxMesh) : Nat :=
  if !mAllByControlPoint then Mesh.PolygonCount * TRIANGLE_VERTEX_COUNT
  else Mesh.ControlPointsCount

/-- The members `_PositionArray`, `_NormalArray` and `_TexCoordArray`. -/
structure VertexArrays where
  _PositionArray : List Vec3
  _NormalArray : List Vec3
  _TexCoordArray : List Vec2
deriving DecidableEq

/-- The `resize` calls of lines 200-217 on a new `SkeletalMesh`, whose arrays
are empty. -/
def allocateArrays (Mesh : FbxMesh) (a : FbxMeshAttributes) : VertexArrays :=
  { _PositionArray := List.replicate (lPolygonVertexCount Mesh) ⟨0, 0, 0⟩,
    _NormalArray :=
      if mHasNormal a then List.replicate (lPolygonVertexCount Mesh) ⟨0, 0, 0⟩ else [],
    _TexCoordArray :=
      if mHasUV a && decide (0 < a.UVSetNamesCount) then
        List.replicate (lPolygonVertexCount Mesh) ⟨0, 0⟩
      else [] }

/-- The assignment `array[i] = x`; `none` when `i` is outside the array. -/
def setAt {α : Type} (array : List α) (i : Nat) (x : α) : Option (List α) :=
  if i < array.length then some (array.set i x) else none

/-- The normal stored for a control point (lines 257-262): `x` and `y` come
from `FinalNormal`, the normalised copy, and `z` from `lCurrentNormal`. -/
def storedNormal (Normalize : Vec3 → Vec3) (lCurrentNormal : Vec3) : Vec3 :=
  let FinalNormal := Normalize lCurrentNormal
  ⟨FinalNormal.x, FinalNormal.y, lCurrentNormal.z⟩

/-- The normal stored for a polygon corner by the branch of the fill pass for
attributes by polygon vertex (lines 319-325): all of `FinalNormal`. -/
def storedNormalByPolygonVertex (Normalize : Vec3 → Vec3) (lCurrentNormal : Vec3) : Vec3 :=
  let FinalNormal := Normalize lCurrentNormal
  ⟨FinalNormal.x, FinalNormal.y, FinalNormal.z⟩

/-- One iteration of the loop of lines 236-277 for control point `lIndex`. -/
def populateControlPoint (Normalize : Vec3 → Vec3) (a : FbxMeshAttributes)
    (arrays : VertexArrays) (lIndex : Nat) : Option VertexArrays := do
  let Position ← setAt arrays._PositionArray lIndex (a.ControlPoint lIndex)
  let Normal ←
    if mHasNormal a then
      setAt arrays._NormalArray lIndex (storedNormal Normalize (a.Normal lIndex))
    else some arrays._NormalArray
  let TexCoord ←
    if mHasUV a then setAt arrays._TexCoordArray lIndex (a.UV lIndex)
    else some arrays._TexCoordArray
  pure ⟨Position, Normal, TexCoord⟩

/-- Lines 224-279: the arrays are populated by control point when
`mAllByControlPoint` holds. -/
def populateByControlPoint (Normalize : Vec3 → Vec3) (Mesh : FbxMesh) (a : FbxMeshAttributes)
    (arrays : VertexArrays) : Option VertexArrays :=
  if mAllByControlPoint then
    (List.range (lPolygonVertexCount Mesh)).foldlM (populateControlPoint Normalize a) arrays
  else some arrays

/-- The attribute arrays of a new `SkeletalMesh` after lines 160-279. -/
def importArrays (Normalize : Vec3 → Vec3) (Mesh : FbxMesh) (a : FbxMeshAttributes) :
    Option VertexArrays :=
  populateByControlPoint Normalize Mesh a (allocateArrays Mesh a)

/-- The member `_SkinInfoArray` of a new `SkeletalMesh` when the import reaches
the vertex packer: what the skin block has left, and empty when the block has
not run (the only `resize` of the array is on line 522, inside the block). -/
def meshSkinInfoArray (skin : Option SkinResult) : List SkinInfo :=
  match skin with
  | some result => result._SkinInfoArray
  | none => []

/-- A packed vertex, `NormalVertexGpuSkin` (no `TexCoord`) or
`NormalTexVertexGpuSkin`. -/
structure PackedVertex where
  Position : Vec3
  Normal : Vec3
  TexCoord : Option Vec2
  Skin : GpuSkinWords
deriving DecidableEq

/-- One iteration of the loop of lines 583-597; `none` when an array is read
outside its bounds. -/
def packNormalVertex (arrays : VertexArrays) (_SkinInfoArray : List SkinInfo) (i : Nat) :
    Option PackedVertex := do
  let Position ← arrays._PositionArray[i]?
  let Normal ← arrays._NormalArray[i]?
  let skin ← _SkinInfoArray[i]?
  let words ← packNormalVertexGpuSkin skin
  pure ⟨Position, Normal, none, words⟩

/-- One iteration of the loop of lines 615-633; `none` when an array is read
outside its bounds. -/
def packNormalTexVertex (arrays : VertexArrays) (_SkinInfoArray : List SkinInfo) (i : Nat) :
    Option PackedVertex := do
  let Position ← arrays._PositionArray[i]?
  let Normal ← arrays._NormalArray[i]?
  let TexCoord ← arrays._TexCoordArray[i]?
  let skin ← _SkinInfoArray[i]?
  let words ← packNormalTexVertexGpuSkin skin
  pure ⟨Position, Normal, some TexCoord, words⟩

/-- The vertex packer (lines 577-633): one packed vertex for every
`i < lPolygonVertexCount` when the mesh has normals, in the layout chosen by
`mHasUV`; no vertex buffer otherwise. -/
def packVertices (Mesh : FbxMesh) (a : FbxMeshAttributes) (arrays : VertexArrays)
    (_SkinInfoArray : List SkinInfo) : Option (List PackedVertex) :=
  if mHasNormal a && !mHasUV a then
    (List.range (lPolygonVertexCount Mesh)).mapM (packNormalVertex arrays _SkinInfoArray)
  else if mHasNormal a && mHasUV a then
    (List.range (lPolygonVertexCount Mesh)).mapM (packNormalTexVertex arrays _SkinInfoArray)
  else some []

/-- The state of the attribute arrays of a mesh with `n` control points after
the first `k` iterations of the loop of lines 236-277. -/
def PopulateInv (Normalize : Vec3 → Vec3) (a : FbxMeshAttributes) (n k : Nat)
    (arrays : VertexArrays) : Prop :=
  arrays._PositionArray.length = n ∧
  arrays._NormalArray.length = (if mHasNormal a then n else 0) ∧
  arrays._TexCoordArray.length = (if mHasUV a then n else 0) ∧
  ∀ i, i < k →
    arrays._PositionArray[i]? = some (a.ControlPoint i) ∧
    (mHasNormal a = true →
      arrays._NormalArray[i]? = some (storedNormal Normalize (a.Normal i))) ∧
    (mHasUV a = true → arrays._TexCoordArray[i]? = some (a.UV i))

/-- Attributes of a mesh with control-point normals and no UV element;
control point `i` is at `(i, 0, 0)` and every normal is `(3, 0, 4)`. -/
def normalsByControlPoint : FbxMeshAttributes :=
  { ElementNormalCount := 1, NormalMappingMode := EMappingMode.eByControlPoint,
    ElementUVCount := 0, UVMappingMode := EMappingMode.eNone, UVSetNamesCount := 0,
    ControlPoint := fun i => ⟨i, 0, 0⟩,
    Normal := fun _ => ⟨3, 0, 4⟩,
    UV := fun _ => ⟨0, 0⟩ }

/-- Attributes of a mesh whose normal and UV elements are mapped by polygon
vertex: entry `j` of a direct array is the attribute of polygon vertex `j`
(corner `j % 3` of polygon `j / 3`). -/
def attributesByPolygonVertex : FbxMeshAttributes :=
  { ElementNormalCount := 1, NormalMappingMode := EMappingMode.eByPolygonVertex,
    ElementUVCount := 1, UVMappingMode := EMappingMode.eByPolygonVertex, UVSetNamesCount := 1,
    ControlPoint := fun i => ⟨i, 0, 0⟩,
    Normal := fun _ => ⟨0, 0, 1⟩,
    UV := fun i => ⟨i, 1⟩ }

/-! ## Lemmas and theorems -/

theorem redistributeOne_cons4 (a b c d : BoneInf) (t : List BoneInf) (j : Nat)
    (over : BoneInf) (h : t[j]? = some over) :
    redistributeOne (a :: b :: c :: d :: t) (j + 4) =
      bump (over.Weight / 4) a :: bump (over.Weight / 4) b :: bump (over.Weight / 4) c ::
        bump (over.Weight / 4) d :: t := by
  simp [redistributeOne, List.range, List.range.loop, addWeight, h, bump]

theorem bump_bump (v w : ℚ) (b : BoneInf) : bump w (bump v b) = bump (v + w) b := by
  simp [bump, add_assoc]

theorem foldl_redistributeOne (t2 : List BoneInf) :
    ∀ (a b c d : BoneInf) (t1 : List BoneInf),
      (List.range' (t1.length + 4) t2.length).foldl redistributeOne
          (a :: b :: c :: d :: (t1 ++ t2)) =
        bump (weightSum t2 / 4) a :: bump (weightSum t2 / 4) b ::
          bump (weightSum t2 / 4) c :: bump (weightSum t2 / 4) d :: (t1 ++ t2) := by
  induction t2 with
  | nil => intro a b c d t1; simp [weightSum, bump]
  | cons x t2 ih =>
    intro a b c d t1
    have hx : (t1 ++ x :: t2)[t1.length]? = some x := by
      rw [List.getElem?_append_right (le_refl _)]; simp
    rw [List.length_cons, List.range'_succ, List.foldl_cons,
      redistributeOne_cons4 a b c d (t1 ++ x :: t2) t1.length x hx]
    have happ : t1 ++ x :: t2 = (t1 ++ [x]) ++ t2 := by simp
    have hlen : t1.length + 4 + 1 = (t1 ++ [x]).length + 4 := by simp
    rw [happ, hlen, ih, bump_bump, bump_bump, bump_bump, bump_bump]
    have hs : x.Weight / 4 + weightSum t2 / 4 = weightSum (x :: t2) / 4 := by
      simp [weightSum]; ring
    rw [hs]

theorem redistribute_cons4 (a b c d : BoneInf) (t : List BoneInf) :
    redistribute (a :: b :: c :: d :: t) =
      bump (weightSum t / 4) a :: bump (weightSum t / 4) b ::
        bump (weightSum t / 4) c :: bump (weightSum t / 4) d :: t := by
  have h := foldl_redistributeOne t a b c d []
  simpa [redistribute] using h

/-- Closed form of the compaction step on a list with more than 4 entries. -/
theorem trimInfluences_gt (sort : List BoneInf → List BoneInf)
    (hlen : ∀ l, (sort l).length = l.length) (l : List BoneInf) (h : 4 < l.length) :
    trimInfluences sort l =
      ((sort l).take 4).map (bump (weightSum ((sort l).drop 4) / 4)) := by
  have hs : 4 < (sort l).length := by rw [hlen]; exact h
  rw [trimInfluences, if_pos h]
  match hm : sort l, hs with
  | a :: b :: c :: d :: t, _ =>
    have h4 : t.length + 1 + 1 + 1 + 1 - t.length = 4 := by omega
    simp [redistribute_cons4, h4]

theorem IsStdSort.length_eq {α : Type} {lt : α → α → Bool} {sort : List α → List α}
    (h : IsStdSort lt sort) (l : List α) : (sort l).length = l.length :=
  (h l).1.length_eq

theorem sortBoneInf_isStdSort : IsStdSort BoneInf.lt sortBoneInf := by
  intro l
  refine ⟨List.perm_insertionSort _ l, ?_⟩
  have hsorted : List.Sorted (fun a b : BoneInf => a.Weight ≥ b.Weight) (sortBoneInf l) := by
    haveI : IsTotal BoneInf (fun a b : BoneInf => a.Weight ≥ b.Weight) :=
      ⟨fun a b => le_total b.Weight a.Weight⟩
    haveI : IsTrans BoneInf (fun a b : BoneInf => a.Weight ≥ b.Weight) :=
      ⟨fun a b c hab hbc => le_trans hbc hab⟩
    exact List.sorted_insertionSort _ l
  refine List.Pairwise.imp ?_ hsorted
  intro a b hab
  have : ¬ b.Weight > a.Weight := not_lt.mpr hab
  simp [BoneInf.lt, this]

theorem WeightTotal_eq_weightSum (l : List BoneInf) : WeightTotal l = weightSum l := by
  have h : ∀ (l : List BoneInf) (acc : ℚ),
      l.foldl (fun acc b => acc + b.Weight) acc = acc + weightSum l := by
    intro l
    induction l with
    | nil => intro acc; simp [weightSum]
    | cons x t ih => intro acc; simp [List.foldl_cons, ih, weightSum, add_assoc]
  simpa [WeightTotal] using h l 0

theorem weightSum_map_bump (w : ℚ) (l : List BoneInf) :
    weightSum (l.map (bump w)) = weightSum l + l.length * w := by
  induction l with
  | nil => simp [weightSum]
  | cons x t ih =>
    simp only [weightSum, List.map_cons, List.sum_cons, List.length_cons] at ih ⊢
    rw [ih]; simp [bump]; ring

theorem weightSum_perm {l₁ l₂ : List BoneInf} (h : l₁.Perm l₂) :
    weightSum l₁ = weightSum l₂ :=
  (h.map _).sum_eq

theorem weightSum_take_add_drop (n : Nat) (l : List BoneInf) :
    weightSum (l.take n) + weightSum (l.drop n) = weightSum l := by
  have h := congrArg weightSum (List.take_append_drop n l)
  rw [← h]
  simp [weightSum, List.map_append, List.sum_append]

/-- C2. The compaction step conserves weight: for every influence list, the
sum of the weights after `trimInfluences` equals the sum before it. -/
theorem C2_compaction_conserves_weight (sort : List BoneInf → List BoneInf)
    (hsort : IsStdSort BoneInf.lt sort) (BoneLink : List BoneInf) :
    WeightTotal (trimInfluences sort BoneLink) = WeightTotal BoneLink := by
  by_cases h : 4 < BoneLink.length
  · have hlen := hsort.length_eq
    have hs : 4 < (sort BoneLink).length := by rw [hlen]; exact h
    rw [trimInfluences_gt sort hlen BoneLink h, WeightTotal_eq_weightSum,
      WeightTotal_eq_weightSum, weightSum_map_bump, ← weightSum_perm (hsort BoneLink).1,
      ← weightSum_take_add_drop 4 (sort BoneLink)]
    have h4 : ((sort BoneLink).take 4).length = 4 := by simp; omega
    rw [h4]; push_cast; ring
  · simp [trimInfluences, h]

/-- Witness for C2 on Scenario A. -/
theorem C2_compaction_conserves_weight_witness :
    IsStdSort BoneInf.lt sortBoneInf ∧
    WeightTotal (trimInfluences sortBoneInf scenarioA) = WeightTotal scenarioA :=
  ⟨sortBoneInf_isStdSort,
    C2_compaction_conserves_weight sortBoneInf sortBoneInf_isStdSort scenarioA⟩

/-- C3. An influence list of length `n` has length `min n 4` after the
compaction step; in particular no vertex keeps more than 4 influences. -/
theorem C3_compaction_length (sort : List BoneInf → List BoneInf)
    (hsort : IsStdSort BoneInf.lt sort) (BoneLink : List BoneInf) :
    (trimInfluences sort BoneLink).length = min BoneLink.length 4 ∧
    (trimInfluences sort BoneLink).length ≤ 4 := by
  by_cases h : 4 < BoneLink.length
  · have hlen := hsort.length_eq
    have hs : 4 < (sort BoneLink).length := by rw [hlen]; exact h
    rw [trimInfluences_gt sort hlen BoneLink h]
    simp; omega
  · simp [trimInfluences, h]; omega

/-- Witness for C3 on Scenario A. -/
theorem C3_compaction_length_witness :
    IsStdSort BoneInf.lt sortBoneInf ∧
    ((trimInfluences sortBoneInf scenarioA).length = min scenarioA.length 4 ∧
      (trimInfluences sortBoneInf scenarioA).length ≤ 4) :=
  ⟨sortBoneInf_isStdSort, C3_compaction_length sortBoneInf sortBoneInf_isStdSort scenarioA⟩

/-! ### Material partitioning -/

theorem tableLen_append (p : List Nat) (m : Nat) :
    tableLen (p ++ [m]) = max (tableLen p) (m + 1) := by
  simp [tableLen, List.foldl_append]

theorem lt_tableLen_of_mem {mats : List Nat} {m : Nat} (h : m ∈ mats) : m < tableLen mats := by
  induction mats using List.reverseRecOn with
  | nil => simp at h
  | append_singleton p x ih =>
    rw [tableLen_append]
    rcases List.mem_append.mp h with h | h
    · have := ih h; omega
    · simp at h; omega

theorem countPolygon_eq_modify (A : List (Option SubMesh)) (m : Nat) :
    countPolygon A m =
      (A ++ List.replicate (m + 1 - A.length) none).modify
        (fun e => some ⟨(e.getD SubMesh.new)._IndexOffset,
          (e.getD SubMesh.new)._TriangleCount + 1⟩) m := by
  have hres : (if A.length < m + 1 then A ++ List.replicate (m + 1 - A.length) none else A) =
      A ++ List.replicate (m + 1 - A.length) none := by
    split_ifs with h
    · rfl
    · have : m + 1 - A.length = 0 := by omega
      simp [this]
  simp only [countPolygon, hres]
  generalize hR : A ++ List.replicate (m + 1 - A.length) none = R
  have hlen : m < R.length := by
    rw [← hR]; simp; omega
  apply List.ext_getElem?
  intro i
  rw [List.getElem?_modify, List.getElem?_modify]
  by_cases him : m = i
  · subst him
    rw [List.getD_eq_getElem?_getD, List.getElem?_eq_getElem hlen]
    cases hv : R[m] with
    | none => simp [hlen, SubMesh.new]
    | some v => simp [hv, List.getElem?_eq_getElem hlen]
  · split_ifs with h
    · simp [him, List.getElem?_set_ne him]
    · simp [him]

theorem countPolygon_countedTable (p : List Nat) (m : Nat) :
    countPolygon (countedTable p) m = countedTable (p ++ [m]) := by
  rw [countPolygon_eq_modify]
  apply List.ext_getElem?
  intro i
  simp only [countedTable, tableLen_append, List.getElem?_modify, List.length_map,
    List.length_range]
  by_cases hi : i < tableLen p
  · have hi2 : i < max (tableLen p) (m + 1) := by omega
    rw [List.getElem?_append_left (by simpa using hi)]
    simp only [List.getElem?_map, List.getElem?_range hi, List.getElem?_range hi2, Option.map_some']
    by_cases him : m = i
    · subst him
      by_cases hc : List.count m p = 0 <;> simp [hc, SubMesh.new]
    · have him2 : ¬ i = m := fun h => him h.symm
      simp [him, him2, List.count_append]
  · rw [List.getElem?_append_right (by simpa using hi)]
    simp only [List.length_map, List.length_range, List.getElem?_replicate]
    have hc : List.count i p = 0 := by
      rw [List.count_eq_zero]
      intro hmem
      exact hi (lt_tableLen_of_mem hmem)
    by_cases hi2 : i < m + 1
    · have hi3 : i < max (tableLen p) (m + 1) := by omega
      have hi4 : i - tableLen p < m + 1 - tableLen p := by omega
      simp only [hi4, if_true, List.getElem?_map, List.getElem?_range hi3, Option.map_some']
      by_cases him : m = i
      · subst him
        simp [hc, SubMesh.new]
      · have him2 : ¬ i = m := fun h => him h.symm
        simp [him, him2, List.count_append, hc]
    · have hi3 : ¬ i < max (tableLen p) (m + 1) := by omega
      have hi4 : ¬ i - tableLen p < m + 1 - tableLen p := by omega
      have hnone : (List.range (max (tableLen p) (m + 1)))[i]? = none := by
        rw [List.getElem?_eq_none]; simpa using hi3
      simp [hi4, hnone]

theorem range_map_getD (l : List Nat) : (List.range l.length).map (fun i => l.getD i 0) = l := by
  apply List.ext_getElem?
  intro i
  by_cases hi : i < l.length
  · simp [List.getElem?_range hi, List.getElem?_eq_getElem hi, List.getD_eq_getElem?_getD]
  · have h1 : (List.range l.length)[i]? = none := by
      rw [List.getElem?_eq_none]; simpa using hi
    have h2 : l[i]? = none := by
      rw [List.getElem?_eq_none]; simpa using hi
    simp [h1, h2]

theorem foldl_countPolygon (mats : List Nat) :
    mats.foldl countPolygon [] = countedTable mats := by
  induction mats using List.reverseRecOn with
  | nil => rfl
  | append_singleton p m ih =>
    rw [List.foldl_append, ih]
    simp [countPolygon_countedTable]

theorem countPass_eq (mats : List Nat) :
    countPass mats.length mats [] = countedTable mats := by
  have h : countPass mats.length mats [] =
      ((List.range mats.length).map (fun i => mats.getD i 0)).foldl countPolygon [] := by
    rw [List.foldl_map]; rfl
  rw [h, range_map_getD, foldl_countPolygon]

theorem fixHoles_countedTable (mats : List Nat) :
    fixHoles (countedTable mats) =
      (List.range (tableLen mats)).map (fun i => some (⟨0, mats.count i⟩ : SubMesh)) := by
  simp only [fixHoles, countedTable, List.map_map]
  apply List.map_congr_left
  intro i _
  by_cases hc : List.count i mats = 0 <;> simp [hc, SubMesh.new]

theorem offsetOf_succ (mats : List Nat) (i : Nat) :
    offsetOf mats (i + 1) = offsetOf mats i + mats.count i * 3 := by
  simp [offsetOf, Finset.sum_range_succ]; ring

theorem offsetPass_range' (mats : List Nat) (k : Nat) :
    ∀ a, offsetPass (offsetOf mats a)
        ((List.range' a k).map (fun i => some (⟨0, mats.count i⟩ : SubMesh))) =
      (List.range' a k).map (fun i => some (⟨offsetOf mats i, 0⟩ : SubMesh)) := by
  induction k with
  | zero => intro a; simp [offsetPass]
  | succ k ih =>
    intro a
    simp only [List.range'_succ, List.map_cons, offsetPass]
    rw [← offsetOf_succ, ih]

theorem offsetPass_fixHoles_countPass (mats : List Nat) :
    offsetPass 0 (fixHoles (countPass mats.length mats [])) =
      cursorTable mats (tableLen mats) [] := by
  rw [countPass_eq, fixHoles_countedTable, cursorTable, List.range_eq_range']
  have h := offsetPass_range' mats (tableLen mats) 0
  simpa [offsetOf] using h

theorem tableLen_eq_zero {mats : List Nat} (h : tableLen mats = 0) : mats = [] := by
  cases mats with
  | nil => rfl
  | cons x t =>
    have := lt_tableLen_of_mem (List.mem_cons_self x t)
    omega

theorem buildSubMeshes_eq (Mesh : FbxMesh) (em : FbxGeometryElementMaterial)
    (hmat : Mesh.ElementMaterial = some em)
    (hmode : em.MappingMode = EMappingMode.eByPolygon)
    (hlen : em.IndexArray.length = Mesh.PolygonCount) :
    buildSubMeshes Mesh =
      cursorTable em.IndexArray (max (tableLen em.IndexArray) 1) [] := by
  simp only [buildSubMeshes, hmat, hmode, hlen, and_self, if_true, true_and]
  rw [← hlen, offsetPass_fixHoles_countPass]
  by_cases h0 : tableLen em.IndexArray = 0
  · have hnil := tableLen_eq_zero h0
    have ht : tableLen ([] : List Nat) = 0 := rfl
    simp [cursorTable, hnil, ht, offsetOf, SubMesh.new]
  · have h1 : max (tableLen em.IndexArray) 1 = tableLen em.IndexArray := by omega
    simp [cursorTable, h0, h1]

theorem sum_count_range (mats : List Nat) (i : Nat) :
    ∑ j in Finset.range i, mats.count j = (mats.filter (fun m => decide (m < i))).length := by
  induction mats with
  | nil => simp
  | cons x t ih =>
    have hstep : ∀ j, (x :: t).count j = t.count j + if j = x then 1 else 0 := by
      intro j
      rw [List.count_cons]
      by_cases h : j = x
      · subst h; simp
      · have h2 : ¬ x = j := fun e => h e.symm
        simp [h, h2]
    simp only [hstep, Finset.sum_add_distrib, ih, Finset.sum_ite_eq', Finset.mem_range]
    by_cases hx : x < i <;> simp [List.filter_cons, hx]

theorem offsetOf_le (mats : List Nat) (i : Nat) : offsetOf mats i ≤ 3 * mats.length := by
  rw [offsetOf, sum_count_range]
  exact Nat.mul_le_mul_left 3 (List.length_filter_le _ _)

theorem offsetOf_mono (mats : List Nat) {i j : Nat} (h : i ≤ j) :
    offsetOf mats i ≤ offsetOf mats j := by
  rw [offsetOf, offsetOf]
  apply Nat.mul_le_mul_left
  exact Finset.sum_le_sum_of_subset (Finset.range_mono h)

theorem offsetOf_total (mats : List Nat) (L : Nat) (h : ∀ m ∈ mats, m < L) :
    offsetOf mats L = 3 * mats.length := by
  rw [offsetOf, sum_count_range]
  congr 2
  rw [List.filter_eq_self]
  intro m hm
  simpa using h m hm

theorem count_take_succ_le (mats : List Nat) (P : Nat) (h : P < mats.length) :
    (mats.take P).count (mats.getD P 0) + 1 ≤ mats.count (mats.getD P 0) := by
  have hsplit : mats = mats.take P ++ mats.getD P 0 :: mats.drop (P + 1) := by
    have hd : mats.drop P = mats.getD P 0 :: mats.drop (P + 1) := by
      rw [List.getD_eq_getElem?_getD, List.getElem?_eq_getElem h]
      simp
    rw [← hd, List.take_append_drop]
  have hc := congrArg (List.count (mats.getD P 0)) hsplit
  rw [List.count_append, List.count_cons_self] at hc
  omega

theorem count_take_mono (mats : List Nat) (m : Nat) {P Q : Nat} (h : P ≤ Q) :
    (mats.take P).count m ≤ (mats.take Q).count m := by
  apply List.Sublist.count_le
  exact List.take_sublist_take_left mats h

theorem count_take_succ (mats : List Nat) (P : Nat) (h : P < mats.length) (m : Nat) :
    (mats.take (P + 1)).count m =
      (mats.take P).count m + if m = mats.getD P 0 then 1 else 0 := by
  rw [List.take_succ, List.count_append, List.getElem?_eq_getElem h,
    List.getD_eq_getElem?_getD, List.getElem?_eq_getElem h]
  by_cases hm : m = mats[P]
  · subst hm; simp
  · have h2 : ¬ mats[P] = m := fun e => hm e.symm
    simp [hm, h2, List.count_cons]

theorem polygonPos_bound (mats : List Nat) (P : Nat) (h : P < mats.length) :
    polygonPos mats P + 3 ≤ 3 * mats.length := by
  have h1 := count_take_succ_le mats P h
  have h2 := offsetOf_succ mats (mats.getD P 0)
  have h3 := offsetOf_le mats (mats.getD P 0 + 1)
  simp only [polygonPos]
  omega

theorem polygonPos_lt (mats : List Nat) {P Q : Nat} (hPQ : P < Q) (hQ : Q < mats.length) :
    polygonPos mats P + 3 ≤ polygonPos mats Q ∨ polygonPos mats Q + 3 ≤ polygonPos mats P := by
  have hP : P < mats.length := by omega
  simp only [polygonPos]
  rcases Nat.lt_trichotomy (mats.getD P 0) (mats.getD Q 0) with hlt | heq | hgt
  · left
    have h1 := count_take_succ_le mats P hP
    have h2 := offsetOf_succ mats (mats.getD P 0)
    have h3 : offsetOf mats (mats.getD P 0 + 1) ≤ offsetOf mats (mats.getD Q 0) :=
      offsetOf_mono mats hlt
    omega
  · left
    rw [← heq]
    have h1 := count_take_succ mats P hP (mats.getD P 0)
    have h2 : (mats.take (P + 1)).count (mats.getD P 0) ≤ (mats.take Q).count (mats.getD P 0) :=
      count_take_mono mats _ hPQ
    rw [if_pos rfl] at h1
    omega
  · right
    have h1 := count_take_succ_le mats Q hQ
    have h2 := offsetOf_succ mats (mats.getD Q 0)
    have h3 : offsetOf mats (mats.getD Q 0 + 1) ≤ offsetOf mats (mats.getD P 0) :=
      offsetOf_mono mats hgt
    omega

theorem polygonPos_disjoint (mats : List Nat) {P Q : Nat} (hne : P ≠ Q)
    (hP : P < mats.length) (hQ : Q < mats.length) :
    polygonPos mats P + 3 ≤ polygonPos mats Q ∨ polygonPos mats Q + 3 ≤ polygonPos mats P := by
  rcases Nat.lt_or_gt_of_ne hne with h | h
  · exact polygonPos_lt mats h hQ
  · exact (polygonPos_lt mats h hP).symm

/-! ### Index fill -/

theorem fillVertex_eq (Mesh : FbxMesh) (P pos : Nat) (st : FillState) (v : Nat)
    (h : pos + v < st._IndiceArray.length) :
    fillVertex Mesh P pos st v =
      some { _SubMeshArray := st._SubMeshArray,
             _IndiceArray := st._IndiceArray.set (pos + v) (Mesh.PolygonVertex P v),
             lVertexCount := st.lVertexCount + 1,
             written := st.written ++ [pos + v] } := by
  simp [fillVertex, mAllByControlPoint, writeIndex, h]

theorem fillVertex_three (Mesh : FbxMesh) (P pos : Nat) (st : FillState)
    (h : pos + 3 ≤ st._IndiceArray.length) :
    (List.range TRIANGLE_VERTEX_COUNT).foldlM (fillVertex Mesh P pos) st =
      some { _SubMeshArray := st._SubMeshArray,
             _IndiceArray :=
               ((st._IndiceArray.set pos (Mesh.PolygonVertex P 0)).set (pos + 1)
                 (Mesh.PolygonVertex P 1)).set (pos + 2) (Mesh.PolygonVertex P 2),
             lVertexCount := st.lVertexCount + 3,
             written := st.written ++ [pos, pos + 1, pos + 2] } := by
  have h3 : List.range TRIANGLE_VERTEX_COUNT = [0, 1, 2] := rfl
  rw [h3]
  simp only [List.foldlM_cons, List.foldlM_nil]
  rw [fillVertex_eq Mesh P pos st 0 (by omega)]
  simp only [Option.bind_eq_bind, Option.some_bind]
  rw [fillVertex_eq Mesh P pos _ 1 (by simp; omega)]
  simp only [Option.some_bind]
  rw [fillVertex_eq Mesh P pos _ 2 (by simp; omega)]
  simp

theorem getElem?_set_three (A : List Nat) (pos a b c i : Nat) (h : pos + 3 ≤ A.length) :
    (((A.set pos a).set (pos + 1) b).set (pos + 2) c)[i]? =
      if i = pos then some a else if i = pos + 1 then some b
      else if i = pos + 2 then some c else A[i]? := by
  simp only [List.getElem?_set, List.length_set]
  by_cases h0 : i = pos
  · subst h0
    have : i < A.length := by omega
    simp [this]
  · by_cases h1 : i = pos + 1
    · subst h1
      have : pos + 1 < A.length := by omega
      simp [this]
    · by_cases h2 : i = pos + 2
      · subst h2
        have : pos + 2 < A.length := by omega
        simp [this]
      · have e0 : ¬ pos = i := fun e => h0 e.symm
        have e1 : ¬ pos + 1 = i := fun e => h1 e.symm
        have e2 : ¬ pos + 2 = i := fun e => h2 e.symm
        simp [h0, h1, h2, e0, e1, e2]

theorem cursorTable_getElem? (mats : List Nat) (L : Nat) (p : List Nat) (i : Nat) (h : i < L) :
    (cursorTable mats L p)[i]? = some (some ⟨offsetOf mats i, p.count i⟩) := by
  simp [cursorTable, List.getElem?_range h]

theorem cursorTable_set (mats : List Nat) (L : Nat) (p : List Nat) (m : Nat) :
    (cursorTable mats L p).set m (some ⟨offsetOf mats m, p.count m + 1⟩) =
      cursorTable mats L (p ++ [m]) := by
  apply List.ext_getElem?
  intro i
  rw [List.getElem?_set]
  by_cases hi : i < L
  · rw [cursorTable_getElem? mats L _ i hi, cursorTable_getElem? mats L _ i hi]
    by_cases him : m = i
    · subst him
      simp [cursorTable, hi, List.count_append]
    · have him2 : ¬ i = m := fun e => him e.symm
      simp [him, him2, List.count_append]
  · have h1 : ∀ q, (cursorTable mats L q)[i]? = none := by
      intro q
      rw [List.getElem?_eq_none]; simpa [cursorTable] using hi
    rw [h1, h1]
    by_cases him : m = i
    · subst him
      simp [cursorTable, hi]
    · simp [him]

theorem fillPolygon_step (Mesh : FbxMesh) (em : FbxGeometryElementMaterial)
    (hmat : Mesh.ElementMaterial = some em)
    (hmode : em.MappingMode = EMappingMode.eByPolygon)
    (k : Nat) (hk : k < em.IndexArray.length) (st : FillState)
    (hinv : FillInv Mesh em.IndexArray k st) :
    ∃ st1, fillPolygon Mesh st k = some st1 ∧ FillInv Mesh em.IndexArray (k + 1) st1 := by
  obtain ⟨hsub, hlenA, hvc, hwr, hidx⟩ := hinv
  have hm : fillMaterialIndex Mesh k = some (em.IndexArray.getD k 0) := by
    simp [fillMaterialIndex, hmat, hmode, List.getD_eq_getElem?_getD, List.getElem?_eq_getElem hk]
  have hmem : em.IndexArray.getD k 0 ∈ em.IndexArray := by
    rw [List.getD_eq_getElem?_getD, List.getElem?_eq_getElem hk]
    exact List.getElem_mem hk
  have hmL : em.IndexArray.getD k 0 < max (tableLen em.IndexArray) 1 := by
    have := lt_tableLen_of_mem hmem
    omega
  have hbound := polygonPos_bound em.IndexArray k hk
  have hpos : offsetOf em.IndexArray (em.IndexArray.getD k 0) +
      (em.IndexArray.take k).count (em.IndexArray.getD k 0) * 3 = polygonPos em.IndexArray k := by
    simp [polygonPos]; ring
  have hthree := fillVertex_three Mesh k (polygonPos em.IndexArray k) st (by omega)
  refine ⟨{ _SubMeshArray := st._SubMeshArray.set (em.IndexArray.getD k 0)
                (some ⟨offsetOf em.IndexArray (em.IndexArray.getD k 0),
                  (em.IndexArray.take k).count (em.IndexArray.getD k 0) + 1⟩),
            _IndiceArray :=
              ((st._IndiceArray.set (polygonPos em.IndexArray k) (Mesh.PolygonVertex k 0)).set
                (polygonPos em.IndexArray k + 1) (Mesh.PolygonVertex k 1)).set
                  (polygonPos em.IndexArray k + 2) (Mesh.PolygonVertex k 2),
            lVertexCount := st.lVertexCount + 3,
            written := st.written ++ [polygonPos em.IndexArray k,
              polygonPos em.IndexArray k + 1, polygonPos em.IndexArray k + 2] }, ?_, ?_⟩
  · simp only [fillPolygon, hm, Option.bind_eq_bind, Option.some_bind, hsub,
      cursorTable_getElem? em.IndexArray _ _ _ hmL, Option.join, id, hpos]
    rw [hthree]
    simp only [Option.some_bind, hsub, cursorTable_getElem? em.IndexArray _ _ _ hmL, id]
    rfl
  · refine ⟨?_, ?_, ?_, ?_, ?_⟩
    · simp only [hsub]
      rw [cursorTable_set]
      congr 1
      rw [List.take_succ, List.getElem?_eq_getElem hk, List.getD_eq_getElem?_getD,
        List.getElem?_eq_getElem hk]
      rfl
    · simpa using hlenA
    · simp only [hvc]; ring
    · simp [hwr, List.range_succ, List.flatMap_append]
    · intro P hP v hv
      simp only []
      rw [getElem?_set_three _ _ _ _ _ _ (by omega)]
      by_cases hPk : P = k
      · subst hPk
        have hv3 : v = 0 ∨ v = 1 ∨ v = 2 := by omega
        rcases hv3 with h | h | h <;> subst h <;> simp
      · have hPlt : P < k := by omega
        have hdis := polygonPos_disjoint em.IndexArray hPk (by omega) hk
        have e0 : ¬ polygonPos em.IndexArray P + v = polygonPos em.IndexArray k := by omega
        have e1 : ¬ polygonPos em.IndexArray P + v = polygonPos em.IndexArray k + 1 := by omega
        have e2 : ¬ polygonPos em.IndexArray P + v = polygonPos em.IndexArray k + 2 := by omega
        rw [if_neg e0, if_neg e1, if_neg e2]
        exact hidx P hPlt v hv

theorem fillPass_upTo (Mesh : FbxMesh) (em : FbxGeometryElementMaterial)
    (hmat : Mesh.ElementMaterial = some em)
    (hmode : em.MappingMode = EMappingMode.eByPolygon)
    (hlen : em.IndexArray.length = Mesh.PolygonCount) :
    ∀ k, k ≤ em.IndexArray.length →
      ∃ st, (List.range k).foldlM (fillPolygon Mesh) (fillStart Mesh) = some st ∧
        FillInv Mesh em.IndexArray k st := by
  intro k
  induction k with
  | zero =>
    intro _
    refine ⟨fillStart Mesh, rfl, ?_, ?_, rfl, rfl, ?_⟩
    · simp [fillStart, buildSubMeshes_eq Mesh em hmat hmode hlen]
    · simp [fillStart, TRIANGLE_VERTEX_COUNT, hlen, Nat.mul_comm]
    · intro P hP; omega
  | succ k ih =>
    intro hk
    obtain ⟨st, hrun, hinv⟩ := ih (by omega)
    obtain ⟨st1, hstep, hinv1⟩ := fillPolygon_step Mesh em hmat hmode k (by omega) st hinv
    refine ⟨st1, ?_, hinv1⟩
    rw [List.range_succ, List.foldlM_append, hrun]
    simp [hstep]

theorem partitionAndFill_inv (Mesh : FbxMesh) (em : FbxGeometryElementMaterial)
    (hmat : Mesh.ElementMaterial = some em)
    (hmode : em.MappingMode = EMappingMode.eByPolygon)
    (hlen : em.IndexArray.length = Mesh.PolygonCount) :
    ∃ st, partitionAndFill Mesh = some st ∧
      FillInv Mesh em.IndexArray em.IndexArray.length st := by
  obtain ⟨st, hrun, hinv⟩ :=
    fillPass_upTo Mesh em hmat hmode hlen em.IndexArray.length (le_refl _)
  refine ⟨st, ?_, hinv⟩
  rw [← hrun, hlen]
  rfl

theorem triangleCountAt_cursorTable (mats : List Nat) (L : Nat) (p : List Nat) (j : Nat)
    (h : j < L) : triangleCountAt (cursorTable mats L p) j = p.count j := by
  simp [triangleCountAt, cursorTable_getElem? mats L p j h]

/-- C4. For a mesh whose material element is mapped by polygon with one
material index per polygon, the count, offset and fill passes succeed and
leave a submesh table without `NULL` entries in which the index offset of
submesh `i` is three times the sum of the triangle counts of the submeshes
before it, and the triangle counts sum to the polygon count. -/
theorem C4_submesh_offsets_prefix_sum (Mesh : FbxMesh) (em : FbxGeometryElementMaterial)
    (hmat : Mesh.ElementMaterial = some em)
    (hmode : em.MappingMode = EMappingMode.eByPolygon)
    (hlen : em.IndexArray.length = Mesh.PolygonCount) :
    ∃ st, partitionAndFill Mesh = some st ∧
      (∀ i, i < st._SubMeshArray.length → ∃ s, st._SubMeshArray[i]? = some (some s) ∧
        s._IndexOffset = 3 * ∑ j in Finset.range i, triangleCountAt st._SubMeshArray j) ∧
      ∑ j in Finset.range st._SubMeshArray.length, triangleCountAt st._SubMeshArray j =
        Mesh.PolygonCount := by
  obtain ⟨st, hrun, hsub, -, -, -, -⟩ := partitionAndFill_inv Mesh em hmat hmode hlen
  refine ⟨st, hrun, ?_, ?_⟩
  · intro i hi
    rw [hsub, List.take_length] at hi ⊢
    have hiL : i < max (tableLen em.IndexArray) 1 := by simpa [cursorTable] using hi
    refine ⟨_, cursorTable_getElem? _ _ _ i hiL, ?_⟩
    simp only [offsetOf]
    congr 1
    apply Finset.sum_congr rfl
    intro j hj
    rw [triangleCountAt_cursorTable]
    have := Finset.mem_range.mp hj
    omega
  · rw [hsub, List.take_length]
    have hL : (cursorTable em.IndexArray (max (tableLen em.IndexArray) 1) em.IndexArray).length =
        max (tableLen em.IndexArray) 1 := by simp [cursorTable]
    rw [hL]
    have hsum : ∑ j in Finset.range (max (tableLen em.IndexArray) 1),
        triangleCountAt (cursorTable em.IndexArray (max (tableLen em.IndexArray) 1)
          em.IndexArray) j =
        ∑ j in Finset.range (max (tableLen em.IndexArray) 1), em.IndexArray.count j := by
      apply Finset.sum_congr rfl
      intro j hj
      exact triangleCountAt_cursorTable _ _ _ j (Finset.mem_range.mp hj)
    have htot := offsetOf_total em.IndexArray (max (tableLen em.IndexArray) 1)
      (fun m hm => by have := lt_tableLen_of_mem hm; omega)
    rw [hsum, ← hlen]
    simp only [offsetOf] at htot
    omega

/-- Witness for C4: Scenario B, five polygons with materials `[0, 1, 0, 1, 1]`,
gives submesh 0 `{triangleCount 2, indexOffset 0}` and submesh 1
`{triangleCount 3, indexOffset 6}`. -/
theorem C4_submesh_offsets_prefix_sum_witness :
    (scenarioB.ElementMaterial =
        some { IndexArray := [0, 1, 0, 1, 1], MappingMode := EMappingMode.eByPolygon } ∧
      ([0, 1, 0, 1, 1] : List Nat).length = scenarioB.PolygonCount) ∧
    (∃ st, partitionAndFill scenarioB = some st ∧
      (∀ i, i < st._SubMeshArray.length → ∃ s, st._SubMeshArray[i]? = some (some s) ∧
        s._IndexOffset = 3 * ∑ j in Finset.range i, triangleCountAt st._SubMeshArray j) ∧
      ∑ j in Finset.range st._SubMeshArray.length, triangleCountAt st._SubMeshArray j =
        scenarioB.PolygonCount) ∧
    (partitionAndFill scenarioB).map (fun st => st._SubMeshArray) =
      some [some ⟨0, 2⟩, some ⟨6, 3⟩] :=
  ⟨⟨rfl, rfl⟩,
    C4_submesh_offsets_prefix_sum scenarioB
      { IndexArray := [0, 1, 0, 1, 1], MappingMode := EMappingMode.eByPolygon } rfl rfl rfl,
    by decide⟩

theorem written_perm_range (mats : List Nat) :
    ((List.range mats.length).flatMap
      (fun P => [polygonPos mats P, polygonPos mats P + 1, polygonPos mats P + 2])).Perm
      (List.range (3 * mats.length)) := by
  apply List.Subperm.perm_of_length_le
  · apply List.Nodup.subperm
    · rw [List.nodup_flatMap]
      constructor
      · intro P _
        simp
      · have hpw : List.Pairwise (fun a b => a < b) (List.range mats.length) :=
          List.pairwise_lt_range _
        have hmem : ∀ x ∈ List.range mats.length, x < mats.length := fun x hx =>
          List.mem_range.mp hx
        refine List.Pairwise.imp_of_mem ?_ hpw
        intro P Q hP hQ hPQ
        have hdis := polygonPos_lt mats hPQ (hmem Q hQ)
        simp only [Function.onFun, List.disjoint_left]
        intro x hx hx2
        simp at hx hx2
        omega
    · intro x hx
      simp only [List.mem_flatMap, List.mem_range] at hx
      obtain ⟨P, hP, hx⟩ := hx
      have hb := polygonPos_bound mats P hP
      simp at hx
      rw [List.mem_range]
      omega
  · have hl : ∀ k, ((List.range k).flatMap
        (fun P => [polygonPos mats P, polygonPos mats P + 1, polygonPos mats P + 2])).length =
        3 * k := by
      intro k
      induction k with
      | zero => simp
      | succ k ih => rw [List.range_succ, List.flatMap_append, List.length_append, ih]; simp; omega
    rw [hl, List.length_range]

/-- C5. For a mesh whose material element is mapped by polygon with one
material index per polygon, the fill pass succeeds; corner `v` of the polygon
`P` that is the `c`-th polygon of material `m` is stored at index-array
position `indexOffset[m] + 3 * c + v`; the positions written, in order, are a
rearrangement of `0, ..., 3 * PolygonCount - 1` (each position is written
exactly once), and the index array has `3 * PolygonCount` entries. -/
theorem C5_fill_pass_positions (Mesh : FbxMesh) (em : FbxGeometryElementMaterial)
    (hmat : Mesh.ElementMaterial = some em)
    (hmode : em.MappingMode = EMappingMode.eByPolygon)
    (hlen : em.IndexArray.length = Mesh.PolygonCount) :
    ∃ st, partitionAndFill Mesh = some st ∧
      (∀ P, P < Mesh.PolygonCount → ∀ v, v < 3 → ∃ s,
        st._SubMeshArray[em.IndexArray.getD P 0]? = some (some s) ∧
        st._IndiceArray[s._IndexOffset +
            3 * (em.IndexArray.take P).count (em.IndexArray.getD P 0) + v]? =
          some (Mesh.PolygonVertex P v)) ∧
      st.written.Perm (List.range (3 * Mesh.PolygonCount)) ∧
      st._IndiceArray.length = 3 * Mesh.PolygonCount := by
  obtain ⟨st, hrun, hsub, hlenA, -, hwr, hidx⟩ := partitionAndFill_inv Mesh em hmat hmode hlen
  refine ⟨st, hrun, ?_, ?_, ?_⟩
  · intro P hP v hv
    have hP2 : P < em.IndexArray.length := by omega
    have hmem : em.IndexArray.getD P 0 ∈ em.IndexArray := by
      rw [List.getD_eq_getElem?_getD, List.getElem?_eq_getElem hP2]
      exact List.getElem_mem hP2
    have hmL : em.IndexArray.getD P 0 < max (tableLen em.IndexArray) 1 := by
      have := lt_tableLen_of_mem hmem
      omega
    refine ⟨⟨offsetOf em.IndexArray (em.IndexArray.getD P 0),
      (em.IndexArray.take em.IndexArray.length).count (em.IndexArray.getD P 0)⟩, ?_, ?_⟩
    · rw [hsub]
      exact cursorTable_getElem? _ _ _ _ hmL
    · exact hidx P hP2 v hv
  · rw [hwr, ← hlen]
    exact written_perm_range em.IndexArray
  · rw [hlenA, hlen]

/-- Witness for C5: the index array of Scenario B. -/
theorem C5_fill_pass_positions_witness :
    (scenarioB.ElementMaterial =
        some { IndexArray := [0, 1, 0, 1, 1], MappingMode := EMappingMode.eByPolygon } ∧
      ([0, 1, 0, 1, 1] : List Nat).length = scenarioB.PolygonCount) ∧
    (∃ st, partitionAndFill scenarioB = some st ∧
      (∀ P, P < scenarioB.PolygonCount → ∀ v, v < 3 → ∃ s,
        st._SubMeshArray[([0, 1, 0, 1, 1] : List Nat).getD P 0]? = some (some s) ∧
        st._IndiceArray[s._IndexOffset +
            3 * (([0, 1, 0, 1, 1] : List Nat).take P).count
              (([0, 1, 0, 1, 1] : List Nat).getD P 0) + v]? =
          some (scenarioB.PolygonVertex P v)) ∧
      st.written.Perm (List.range (3 * scenarioB.PolygonCount)) ∧
      st._IndiceArray.length = 3 * scenarioB.PolygonCount) ∧
    (partitionAndFill scenarioB).map (fun st => st._IndiceArray) =
      some [0, 1, 2, 6, 7, 8, 3, 4, 5, 9, 10, 11, 12, 13, 14] :=
  ⟨⟨rfl, rfl⟩,
    C5_fill_pass_positions scenarioB
      { IndexArray := [0, 1, 0, 1, 1], MappingMode := EMappingMode.eByPolygon } rfl rfl rfl,
    by decide⟩

/-! ### Bone registry -/

theorem mapKeys_mapModify (f : BoneIndexInfo → BoneIndexInfo) (key : String)
    (m : List (String × BoneIndexInfo)) : mapKeys (mapModify f key m) = mapKeys m := by
  induction m with
  | nil => rfl
  | cons e rest ih =>
    simp only [mapModify]
    split_ifs with h
    · simp [mapKeys]
    · simp only [mapKeys, List.map_cons] at ih ⊢
      rw [ih]

theorem mapFind_mapModify (f : BoneIndexInfo → BoneIndexInfo) (key κ : String)
    (m : List (String × BoneIndexInfo)) :
    mapFind (mapModify f key m) κ =
      if κ = key then (mapFind m κ).map f else mapFind m κ := by
  induction m with
  | nil => simp [mapModify, mapFind]
  | cons e rest ih =>
    simp only [mapModify]
    by_cases h : e.1 = key
    · simp only [if_pos h, mapFind]
      by_cases h2 : e.1 = κ
      · have h3 : κ = key := by rw [← h2, h]
        simp [h2, h3]
      · have h3 : ¬ κ = key := fun e2 => h2 (by rw [h, e2])
        simp [h2, h3]
    · simp only [if_neg h, mapFind]
      by_cases h2 : e.1 = κ
      · have h3 : ¬ κ = key := fun e2 => h (by rw [h2, e2])
        simp [h2, h3]
      · simp [h2, ih]

theorem mapModify_eq_map (f : BoneIndexInfo → BoneIndexInfo) (key : String)
    (m : List (String × BoneIndexInfo)) (hnd : (mapKeys m).Nodup) :
    mapModify f key m = m.map (fun e => if e.1 = key then (e.1, f e.2) else e) := by
  induction m with
  | nil => rfl
  | cons e rest ih =>
    simp only [mapKeys, List.map_cons, List.nodup_cons] at hnd
    simp only [mapModify, List.map_cons]
    split_ifs with h
    · congr 1
      symm
      have hid : ∀ x ∈ rest, (fun e : String × BoneIndexInfo =>
          if e.1 = key then (e.1, f e.2) else e) x = id x := by
        intro x hx
        have : ¬ x.1 = key := by
          intro hxk
          apply hnd.1
          rw [h, ← hxk]
          exact List.mem_map_of_mem _ hx
        simp [this]
      rw [List.map_congr_left hid, List.map_id]
    · rw [ih hnd.2]

theorem mem_of_mapFind {m : List (String × BoneIndexInfo)} {κ : String} {b : BoneIndexInfo}
    (h : mapFind m κ = some b) : (κ, b) ∈ m := by
  induction m with
  | nil => simp [mapFind] at h
  | cons e rest ih =>
    simp only [mapFind] at h
    split_ifs at h with h1
    · simp only [Option.some.injEq] at h
      rw [← h, ← h1]
      exact List.mem_cons_self _ _
    · exact List.mem_cons_of_mem _ (ih h)

theorem mapFind_of_mem {m : List (String × BoneIndexInfo)} (hnd : (mapKeys m).Nodup)
    {e : String × BoneIndexInfo} (h : e ∈ m) : mapFind m e.1 = some e.2 := by
  induction m with
  | nil => simp at h
  | cons x rest ih =>
    simp only [mapKeys, List.map_cons, List.nodup_cons] at hnd
    simp only [mapFind]
    rcases List.mem_cons.mp h with h1 | h1
    · simp [h1]
    · have hne : ¬ x.1 = e.1 := by
        intro hx
        apply hnd.1
        rw [hx]
        exact List.mem_map_of_mem _ h1
      rw [if_neg hne]
      exact ih hnd.2 h1

theorem mapFind_isSome_iff (m : List (String × BoneIndexInfo)) (κ : String) :
    (mapFind m κ).isSome ↔ κ ∈ mapKeys m := by
  induction m with
  | nil => simp [mapFind, mapKeys]
  | cons e rest ih =>
    simp only [mapFind, mapKeys, List.map_cons, List.mem_cons]
    by_cases h : e.1 = κ
    · simp [h]
    · have h2 : ¬ κ = e.1 := fun e2 => h e2.symm
      simp only [if_neg h, h2, false_or]
      exact ih

theorem markPhase_eq_foldl (T : List VertexSkinInfo) (m : List (String × BoneIndexInfo)) :
    markPhase T m = (referencedNames T).foldl (fun m n => mapModify setUsed n m) m := by
  induction T generalizing m with
  | nil => rfl
  | cons V rest ih =>
    simp only [markPhase, referencedNames, List.foldl_cons, List.flatMap_cons,
      List.foldl_append, List.foldl_map] at ih ⊢
    rw [ih]

theorem foldl_mark_eq_map (ns : List String) (m : List (String × BoneIndexInfo))
    (hnd : (mapKeys m).Nodup) :
    ns.foldl (fun m n => mapModify setUsed n m) m =
      m.map (fun e => if e.1 ∈ ns then (e.1, setUsed e.2) else e) := by
  induction ns generalizing m with
  | nil => simp
  | cons n rest ih =>
    rw [List.foldl_cons, ih _ (by rw [mapKeys_mapModify]; exact hnd),
      mapModify_eq_map _ _ _ hnd, List.map_map]
    apply List.map_congr_left
    intro e _
    by_cases h1 : e.1 = n
    · by_cases h2 : e.1 ∈ rest <;> simp [h1, h2, setUsed]
    · by_cases h2 : e.1 ∈ rest <;> simp [h1, h2]

theorem markPhase_eq (T : List VertexSkinInfo) (m : List (String × BoneIndexInfo))
    (hnd : (mapKeys m).Nodup) :
    markPhase T m =
      m.map (fun e => if e.1 ∈ referencedNames T then (e.1, setUsed e.2) else e) := by
  rw [markPhase_eq_foldl, foldl_mark_eq_map _ _ hnd]

theorem assignIndexFrom_eq (arr : List BoneIndexInfo) :
    ∀ (s : Nat) (m : List (String × BoneIndexInfo)), (mapKeys m).Nodup →
      assignIndexFrom s arr m =
        m.map (fun e => (e.1, setIndex ((finalIndex s arr e.1).getD e.2.Index) e.2)) := by
  induction arr with
  | nil =>
    intro s m _
    simp only [assignIndexFrom, finalIndex, Option.getD_none]
    symm
    have hid : ∀ e ∈ m, (fun e : String × BoneIndexInfo => (e.1, setIndex e.2.Index e.2)) e =
        id e := by
      intro e _; rfl
    rw [List.map_congr_left hid, List.map_id]
  | cons x rest ih =>
    intro s m hnd
    have hstep : assignIndexFrom s (x :: rest) m =
        assignIndexFrom (s + 1) rest (mapModify (setIndex s) x.BoneName m) := rfl
    rw [hstep, ih _ _ (by rw [mapKeys_mapModify]; exact hnd), mapModify_eq_map _ _ _ hnd,
      List.map_map]
    apply List.map_congr_left
    intro e _
    simp only [Function.comp, finalIndex]
    by_cases h1 : e.1 = x.BoneName
    · have h2 : x.BoneName = e.1 := h1.symm
      cases hf : finalIndex (s + 1) rest e.1 <;> simp [h2, hf, setIndex]
    · have h2 : ¬ x.BoneName = e.1 := fun e2 => h1 e2.symm
      cases hf : finalIndex (s + 1) rest e.1 <;> simp [h1, h2, hf, setIndex]

theorem finalIndex_some {arr : List BoneIndexInfo} :
    ∀ {s : Nat} {key : String} {j : Nat}, finalIndex s arr key = some j →
      ∃ i, j = s + i ∧ ∃ h : i < arr.length, arr[i].BoneName = key := by
  induction arr with
  | nil => intro s key j h; simp [finalIndex] at h
  | cons x rest ih =>
    intro s key j h
    simp only [finalIndex] at h
    cases hf : finalIndex (s + 1) rest key with
    | some i0 =>
      rw [hf] at h
      simp only [Option.some.injEq] at h
      obtain ⟨i, hi, hlt, hname⟩ := ih hf
      refine ⟨i + 1, by omega, by simp; omega, ?_⟩
      simpa using hname
    | none =>
      rw [hf] at h
      simp only at h
      split_ifs at h with hx
      simp only [Option.some.injEq] at h
      exact ⟨0, by omega, by simp, by simpa using hx⟩

theorem finalIndex_isSome {arr : List BoneIndexInfo} {key : String}
    (h : ∃ x ∈ arr, x.BoneName = key) : ∀ s, (finalIndex s arr key).isSome := by
  induction arr with
  | nil => simp at h
  | cons x rest ih =>
    intro s
    simp only [finalIndex]
    cases hf : finalIndex (s + 1) rest key with
    | some i0 => simp
    | none =>
      by_cases hx : x.BoneName = key
      · simp [hx]
      · exfalso
        obtain ⟨y, hy, hyn⟩ := h
        rcases List.mem_cons.mp hy with h1 | h1
        · exact hx (h1 ▸ hyn)
        · have := ih ⟨y, h1, hyn⟩ (s + 1)
          rw [hf] at this
          simp at this

theorem eq_of_key_eq {m : List (String × BoneIndexInfo)} (hnd : (mapKeys m).Nodup)
    {e1 e2 : String × BoneIndexInfo} (h1 : e1 ∈ m) (h2 : e2 ∈ m) (hk : e1.1 = e2.1) :
    e1 = e2 := by
  have f1 := mapFind_of_mem hnd h1
  have f2 := mapFind_of_mem hnd h2
  rw [hk, f2] at f1
  simp only [Option.some.injEq] at f1
  exact Prod.ext hk f1.symm

theorem mapKeys_markPhase (T : List VertexSkinInfo) (m : List (String × BoneIndexInfo))
    (hnd : (mapKeys m).Nodup) : mapKeys (markPhase T m) = mapKeys m := by
  rw [markPhase_eq T m hnd]
  simp only [mapKeys, List.map_map]
  apply List.map_congr_left
  intro e _
  by_cases h : e.1 ∈ referencedNames T <;> simp [h]

theorem mem_marked {T : List VertexSkinInfo} {m : List (String × BoneIndexInfo)}
    (hnd : (mapKeys m).Nodup) {e : String × BoneIndexInfo}
    (h : e ∈ eraseUnused (markPhase T m)) :
    e.2.IsUsedLink = true ∧ ∃ e0 ∈ m, e.1 = e0.1 ∧ e.2.BoneName = e0.2.BoneName ∧
      e.2.SkeletonIndex = e0.2.SkeletonIndex ∧ e.2.Index = e0.2.Index := by
  rw [eraseUnused, List.mem_filter, markPhase_eq T m hnd, List.mem_map] at h
  obtain ⟨⟨e0, he0, heq⟩, hused⟩ := h
  refine ⟨hused, e0, he0, ?_⟩
  by_cases hr : e0.1 ∈ referencedNames T
  · rw [if_pos hr] at heq
    rw [← heq]
    simp [setUsed]
  · rw [if_neg hr] at heq
    rw [← heq]
    simp

theorem marked_wf {T : List VertexSkinInfo} {m : List (String × BoneIndexInfo)}
    (hwf : RegistryWF m) : RegistryWF (eraseUnused (markPhase T m)) := by
  constructor
  · have hsub : (mapKeys (eraseUnused (markPhase T m))).Sublist (mapKeys (markPhase T m)) :=
      List.Sublist.map _ (List.filter_sublist _)
    rw [mapKeys_markPhase T m hwf.1] at hsub
    exact hsub.nodup hwf.1
  · intro e he
    obtain ⟨-, e0, he0, hk, hn, -, -⟩ := mem_marked hwf.1 he
    rw [hn, hk]
    exact hwf.2 e0 he0

theorem mem_marked_of_referenced {T : List VertexSkinInfo} {m : List (String × BoneIndexInfo)}
    (hnd : (mapKeys m).Nodup) {e0 : String × BoneIndexInfo} (he0 : e0 ∈ m)
    (href : e0.1 ∈ referencedNames T) :
    (e0.1, setUsed e0.2) ∈ eraseUnused (markPhase T m) := by
  rw [eraseUnused, List.mem_filter, markPhase_eq T m hnd, List.mem_map]
  refine ⟨⟨e0, he0, ?_⟩, ?_⟩
  · rw [if_pos href]
  · simp [setUsed]

theorem mem_assigned {arr : List BoneIndexInfo} {s : Nat} {m : List (String × BoneIndexInfo)}
    (hnd : (mapKeys m).Nodup) {e : String × BoneIndexInfo} :
    e ∈ assignIndexFrom s arr m ↔
      ∃ e0 ∈ m, e = (e0.1, setIndex ((finalIndex s arr e0.1).getD e0.2.Index) e0.2) := by
  rw [assignIndexFrom_eq arr s m hnd, List.mem_map]
  constructor
  · rintro ⟨e0, he0, heq⟩
    exact ⟨e0, he0, heq.symm⟩
  · rintro ⟨e0, he0, heq⟩
    exact ⟨e0, he0, heq.symm⟩

theorem mapKeys_assigned (arr : List BoneIndexInfo) (s : Nat)
    (m : List (String × BoneIndexInfo)) (hnd : (mapKeys m).Nodup) :
    mapKeys (assignIndexFrom s arr m) = mapKeys m := by
  rw [assignIndexFrom_eq arr s m hnd]
  simp [mapKeys, List.map_map, Function.comp]

theorem assigned_wf {arr : List BoneIndexInfo} {s : Nat} {m : List (String × BoneIndexInfo)}
    (hwf : RegistryWF m) : RegistryWF (assignIndexFrom s arr m) := by
  constructor
  · rw [mapKeys_assigned arr s m hwf.1]
    exact hwf.1
  · intro e he
    obtain ⟨e0, he0, heq⟩ := (mem_assigned hwf.1).mp he
    rw [heq]
    exact hwf.2 e0 he0

/-- The importer invariant holds at the start of a session: a well-formed
registry and an empty `BoneArray`. -/
theorem importerInv_of_empty (Importer : FbxFileImporter)
    (hwf : RegistryWF Importer.BoneIndexMap) (hempty : Importer.BoneArray = []) :
    ImporterInv Importer := by
  refine ⟨hwf, ?_⟩
  intro x hx
  rw [hempty] at hx
  cases hx

/-- The importer invariant is re-established by the bone registry phase. -/
theorem resolveBones_inv (sortBones : List BoneIndexInfo → List BoneIndexInfo)
    (hsort : IsStdSort BoneIndexInfo.lt sortBones) (T : List VertexSkinInfo)
    (Importer : FbxFileImporter) (hinv : ImporterInv Importer) :
    ImporterInv (resolveBones sortBones T Importer) := by
  obtain ⟨hwf, hcons⟩ := hinv
  have hF := marked_wf (T := T) hwf
  refine ⟨assigned_wf hF, ?_⟩
  intro x hx e he hkey
  simp only [resolveBones] at hx he
  obtain ⟨e1, he1, heq⟩ := (mem_assigned hF.1).mp he
  obtain ⟨-, e0, he0, hk0, -, hs0, -⟩ := mem_marked hwf.1 he1
  have hx2 : x ∈ pushAll Importer.BoneArray (eraseUnused (markPhase T Importer.BoneIndexMap)) :=
    (hsort _).1.mem_iff.mp hx
  have hes : e.2.SkeletonIndex = e1.2.SkeletonIndex := by rw [heq]; rfl
  have hek : e.1 = e1.1 := by rw [heq]
  rw [hes]
  rcases List.mem_append.mp hx2 with hold | hnew
  · rw [hs0]
    exact hcons x hold e0 he0 (by rw [← hk0, ← hek, hkey])
  · obtain ⟨e2, he2, hx3⟩ := List.mem_map.mp hnew
    have h21 : e2 = e1 := by
      apply eq_of_key_eq hF.1 he2 he1
      rw [← hF.2 e2 he2, hx3, ← hkey, hek]
    rw [← hx3, h21]

theorem importSkin_importer (sortInf : List BoneInf → List BoneInf)
    (sortBones : List BoneIndexInfo → List BoneIndexInfo) (T : List VertexSkinInfo)
    (Importer : FbxFileImporter) :
    (importSkin sortInf sortBones T Importer).Importer =
      resolveBones sortBones (trimAll sortInf T) Importer := rfl

theorem importSkin_required (sortInf : List BoneInf → List BoneInf)
    (sortBones : List BoneIndexInfo → List BoneIndexInfo) (T : List VertexSkinInfo)
    (Importer : FbxFileImporter) :
    (importSkin sortInf sortBones T Importer)._RequiredBoneArray =
      (resolveBones sortBones (trimAll sortInf T) Importer).BoneArray.map
        (fun b => b.SkeletonIndex) := rfl

/-- Every entry that the bone registry phase leaves in the registry is used,
and its `Index` is a position of `BoneArray` that holds its name. -/
theorem resolveBones_index (sortBones : List BoneIndexInfo → List BoneIndexInfo)
    (hsort : IsStdSort BoneIndexInfo.lt sortBones) (T : List VertexSkinInfo)
    (Importer : FbxFileImporter) (hwf : RegistryWF Importer.BoneIndexMap)
    (e : String × BoneIndexInfo) (he : e ∈ (resolveBones sortBones T Importer).BoneIndexMap) :
    e.2.IsUsedLink = true ∧
    ∃ h : e.2.Index < (resolveBones sortBones T Importer).BoneArray.length,
      ((resolveBones sortBones T Importer).BoneArray[e.2.Index]).BoneName = e.1 := by
  have hF := marked_wf (T := T) hwf
  simp only [resolveBones] at he ⊢
  obtain ⟨e1, he1, heq⟩ := (mem_assigned hF.1).mp he
  obtain ⟨hused, -⟩ := mem_marked hwf.1 he1
  have hmem : ∃ x ∈ sortBones (pushAll Importer.BoneArray
      (eraseUnused (markPhase T Importer.BoneIndexMap))), x.BoneName = e1.1 := by
    refine ⟨e1.2, ?_, hF.2 e1 he1⟩
    apply (hsort _).1.mem_iff.mpr
    exact List.mem_append_right _ (List.mem_map_of_mem _ he1)
  have hsome := finalIndex_isSome hmem 0
  obtain ⟨j, hj⟩ := Option.isSome_iff_exists.mp hsome
  obtain ⟨i, hji, hlt, hname⟩ := finalIndex_some hj
  have hidx : e.2.Index = i := by
    rw [heq]
    simp [setIndex, hj, hji]
  refine ⟨by rw [heq]; exact hused, ?_⟩
  rw [hidx]
  exact ⟨hlt, by rw [hname, heq]⟩

/-- C9. After an import on a skinned mesh the dense-to-skeleton array maps the
dense index of every used registry entry to the skeleton index of that entry:
`_RequiredBoneArray[b.Index] = b.SkeletonIndex`. This holds in every state of
an import session (`ImporterInv`), and the import re-establishes that state
for the next one. -/
theorem C9_required_bone_array (sortInf : List BoneInf → List BoneInf)
    (sortBones : List BoneIndexInfo → List BoneIndexInfo)
    (hsort : IsStdSort BoneIndexInfo.lt sortBones) (SkinInfoArray : List VertexSkinInfo)
    (Importer : FbxFileImporter) (hinv : ImporterInv Importer) :
    (∀ e ∈ (importSkin sortInf sortBones SkinInfoArray Importer).Importer.BoneIndexMap,
      e.2.IsUsedLink = true →
      (importSkin sortInf sortBones SkinInfoArray Importer)._RequiredBoneArray[e.2.Index]? =
        some e.2.SkeletonIndex) ∧
    ImporterInv (importSkin sortInf sortBones SkinInfoArray Importer).Importer := by
  rw [importSkin_importer, importSkin_required]
  have hinv1 := resolveBones_inv sortBones hsort (trimAll sortInf SkinInfoArray) Importer hinv
  refine ⟨?_, hinv1⟩
  intro e he _
  obtain ⟨-, hlt, hname⟩ :=
    resolveBones_index sortBones hsort (trimAll sortInf SkinInfoArray) Importer hinv.1 e he
  rw [List.getElem?_map, List.getElem?_eq_getElem hlt]
  simp only [Option.map_some', Option.some.injEq]
  exact hinv1.2 _ (List.getElem_mem hlt) e he hname.symm

theorem sortBoneIndexInfo_isStdSort : IsStdSort BoneIndexInfo.lt sortBoneIndexInfo := by
  intro l
  refine ⟨List.perm_insertionSort _ l, ?_⟩
  have hsorted : List.Sorted (fun a b : BoneIndexInfo => a.SkeletonIndex ≤ b.SkeletonIndex)
      (sortBoneIndexInfo l) := by
    haveI : IsTotal BoneIndexInfo (fun a b : BoneIndexInfo => a.SkeletonIndex ≤ b.SkeletonIndex) :=
      ⟨fun a b => le_total a.SkeletonIndex b.SkeletonIndex⟩
    haveI : IsTrans BoneIndexInfo (fun a b : BoneIndexInfo => a.SkeletonIndex ≤ b.SkeletonIndex) :=
      ⟨fun a b c hab hbc => le_trans hab hbc⟩
    exact List.sorted_insertionSort _ l
  refine List.Pairwise.imp ?_ hsorted
  intro a b hab
  simp only [BoneIndexInfo.lt, decide_eq_false_iff_not, not_lt]
  exact hab

theorem scenarioCImporter_inv : ImporterInv scenarioCImporter := by
  refine ⟨⟨by decide, by decide⟩, ?_⟩
  intro x hx
  simp [scenarioCImporter] at hx

/-- Witness for C9: the second import of Scenario C through the importer that
its first import left behind; the dense indices are then 1, 3 and 5 and the
dense-to-skeleton array is `[2, 2, 5, 5, 7, 7]`. -/
theorem C9_required_bone_array_witness :
    (IsStdSort BoneIndexInfo.lt sortBoneIndexInfo ∧
      ImporterInv
        (importSkin sortBoneInf sortBoneIndexInfo scenarioCTable scenarioCImporter).Importer) ∧
    ((∀ e ∈ (importSkin sortBoneInf sortBoneIndexInfo scenarioCTable
          (importSkin sortBoneInf sortBoneIndexInfo scenarioCTable
            scenarioCImporter).Importer).Importer.BoneIndexMap,
        e.2.IsUsedLink = true →
        (importSkin sortBoneInf sortBoneIndexInfo scenarioCTable
          (importSkin sortBoneInf sortBoneIndexInfo scenarioCTable
            scenarioCImporter).Importer)._RequiredBoneArray[e.2.Index]? =
          some e.2.SkeletonIndex) ∧
      ImporterInv (importSkin sortBoneInf sortBoneIndexInfo scenarioCTable
        (importSkin sortBoneInf sortBoneIndexInfo scenarioCTable
          scenarioCImporter).Importer).Importer) ∧
    (importSkin sortBoneInf sortBoneIndexInfo scenarioCTable
      (importSkin sortBoneInf sortBoneIndexInfo scenarioCTable
        scenarioCImporter).Importer)._RequiredBoneArray = [2, 2, 5, 5, 7, 7] :=
  ⟨⟨sortBoneIndexInfo_isStdSort,
      (C9_required_bone_array sortBoneInf sortBoneIndexInfo sortBoneIndexInfo_isStdSort
        scenarioCTable scenarioCImporter scenarioCImporter_inv).2⟩,
    C9_required_bone_array sortBoneInf sortBoneIndexInfo sortBoneIndexInfo_isStdSort
      scenarioCTable _
      (C9_required_bone_array sortBoneInf sortBoneIndexInfo sortBoneIndexInfo_isStdSort
        scenarioCTable scenarioCImporter scenarioCImporter_inv).2,
    by decide⟩

theorem filter_lt_length_of_sorted (l : List Int) (h : l.Pairwise (fun a b => a < b)) :
    ∀ i (hi : i < l.length), (l.filter (fun x => decide (x < l[i]))).length = i := by
  induction l with
  | nil => intro i hi; simp at hi
  | cons a t ih =>
    intro i hi
    rw [List.pairwise_cons] at h
    cases i with
    | zero =>
      simp only [List.getElem_cons_zero, List.length_eq_zero, List.filter_eq_nil_iff,
        decide_eq_true_eq, List.mem_cons]
      intro x hx
      rcases hx with hx | hx
      · omega
      · have := h.1 x hx; omega
    | succ j =>
      have hj : j < t.length := by simpa using hi
      have hlt : a < t[j] := h.1 _ (List.getElem_mem hj)
      simp only [List.getElem_cons_succ, List.filter_cons, hlt, decide_True, if_true,
        List.length_cons, ih h.2 j hj]

/-- In the first import of a session (`BoneArray` empty) the registry entries
left by the bone registry phase are the used entries `F` with new `Index`
fields, `BoneArray` is a rearrangement of them, and `BoneArray[e.Index]` is
the used entry from which `e` comes. -/
theorem first_import_index (sortBones : List BoneIndexInfo → List BoneIndexInfo)
    (hsort : IsStdSort BoneIndexInfo.lt sortBones) (T : List VertexSkinInfo)
    (Importer : FbxFileImporter) (hwf : RegistryWF Importer.BoneIndexMap)
    (hempty : Importer.BoneArray = [])
    (e : String × BoneIndexInfo) (he : e ∈ (resolveBones sortBones T Importer).BoneIndexMap) :
    ∃ e0 ∈ eraseUnused (markPhase T Importer.BoneIndexMap),
      e.1 = e0.1 ∧ e.2.SkeletonIndex = e0.2.SkeletonIndex ∧
      ∃ h : e.2.Index < (resolveBones sortBones T Importer).BoneArray.length,
        (resolveBones sortBones T Importer).BoneArray[e.2.Index] = e0.2 := by
  have hF := marked_wf (T := T) hwf
  obtain ⟨-, hlt, hname⟩ := resolveBones_index sortBones hsort T Importer hwf e he
  have he' := he
  simp only [resolveBones] at he'
  obtain ⟨e0, he0, heq⟩ := (mem_assigned hF.1).mp he'
  refine ⟨e0, he0, by rw [heq], by rw [heq]; rfl, hlt, ?_⟩
  have hmem := List.getElem_mem hlt
  have hmem2 : (resolveBones sortBones T Importer).BoneArray[e.2.Index] ∈
      pushAll Importer.BoneArray (eraseUnused (markPhase T Importer.BoneIndexMap)) :=
    (hsort _).1.mem_iff.mp hmem
  rw [hempty] at hmem2
  simp only [pushAll, List.nil_append] at hmem2
  obtain ⟨e2, he2, hx⟩ := List.mem_map.mp hmem2
  have h20 : e2 = e0 := by
    apply eq_of_key_eq hF.1 he2 he0
    rw [← hF.2 e2 he2, hx, hname, heq]
  rw [← hx, h20]

theorem resolveBones_length_first (sortBones : List BoneIndexInfo → List BoneIndexInfo)
    (hsort : IsStdSort BoneIndexInfo.lt sortBones) (T : List VertexSkinInfo)
    (Importer : FbxFileImporter) (hwf : RegistryWF Importer.BoneIndexMap)
    (hempty : Importer.BoneArray = []) :
    (resolveBones sortBones T Importer).BoneArray.length =
      (resolveBones sortBones T Importer).BoneIndexMap.length := by
  have hF := marked_wf (T := T) hwf
  simp only [resolveBones, hsort.length_eq, hempty, pushAll, List.nil_append, List.length_map,
    assignIndexFrom_eq _ _ _ hF.1]

theorem resolveBones_all_used (sortBones : List BoneIndexInfo → List BoneIndexInfo)
    (hsort : IsStdSort BoneIndexInfo.lt sortBones) (T : List VertexSkinInfo)
    (Importer : FbxFileImporter) (hwf : RegistryWF Importer.BoneIndexMap) :
    (resolveBones sortBones T Importer).BoneIndexMap.filter (fun e => e.2.IsUsedLink) =
      (resolveBones sortBones T Importer).BoneIndexMap := by
  rw [List.filter_eq_self]
  intro e he
  exact (resolveBones_index sortBones hsort T Importer hwf e he).1

/-- C7 (as amended). After the first import of a session (`BoneArray` empty on
entry, registry well formed) the dense indices of the used registry entries
are a rearrangement of `0, ..., usedBoneCount - 1`. -/
theorem C7_first_import_dense_permutation (sortInf : List BoneInf → List BoneInf)
    (sortBones : List BoneIndexInfo → List BoneIndexInfo)
    (hsort : IsStdSort BoneIndexInfo.lt sortBones) (SkinInfoArray : List VertexSkinInfo)
    (Importer : FbxFileImporter) (hwf : RegistryWF Importer.BoneIndexMap)
    (hempty : Importer.BoneArray = []) :
    (usedDenseIndices
        (importSkin sortInf sortBones SkinInfoArray Importer).Importer.BoneIndexMap).Perm
      (List.range (usedBoneCount
        (importSkin sortInf sortBones SkinInfoArray Importer).Importer.BoneIndexMap)) := by
  rw [importSkin_importer]
  generalize trimAll sortInf SkinInfoArray = T
  have hF := marked_wf (T := T) hwf
  have hR : RegistryWF (resolveBones sortBones T Importer).BoneIndexMap := assigned_wf hF
  have hlen := resolveBones_length_first sortBones hsort T Importer hwf hempty
  rw [usedDenseIndices, usedBoneCount, resolveBones_all_used sortBones hsort T Importer hwf]
  apply List.Subperm.perm_of_length_le
  · apply List.Nodup.subperm
    · apply List.Nodup.map_on
      · intro e he e' he' hidx
        obtain ⟨e0, he0, hk, -, hlt, harr⟩ :=
          first_import_index sortBones hsort T Importer hwf hempty e he
        obtain ⟨e0', he0', hk', -, hlt', harr'⟩ :=
          first_import_index sortBones hsort T Importer hwf hempty e' he'
        apply eq_of_key_eq hR.1 he he'
        have h2 : e0.2 = e0'.2 := by
          rw [← harr, ← harr']
          simp only [hidx]
        rw [hk, hk', ← hF.2 e0 he0, ← hF.2 e0' he0', h2]
      · exact List.Nodup.of_map _ hR.1
    · intro i hi
      obtain ⟨e, he, hie⟩ := List.mem_map.mp hi
      obtain ⟨_, _, _, _, hlt, _⟩ :=
        first_import_index sortBones hsort T Importer hwf hempty e he
      rw [List.mem_range, ← hie, ← hlen]
      exact hlt
  · simp

/-- Witness for C7 (as amended): the first import of Scenario C. -/
theorem C7_first_import_dense_permutation_witness :
    (IsStdSort BoneIndexInfo.lt sortBoneIndexInfo ∧
      RegistryWF scenarioCImporter.BoneIndexMap ∧ scenarioCImporter.BoneArray = []) ∧
    (usedDenseIndices
        (importSkin sortBoneInf sortBoneIndexInfo scenarioCTable
          scenarioCImporter).Importer.BoneIndexMap).Perm
      (List.range (usedBoneCount
        (importSkin sortBoneInf sortBoneIndexInfo scenarioCTable
          scenarioCImporter).Importer.BoneIndexMap)) :=
  ⟨⟨sortBoneIndexInfo_isStdSort, scenarioCImporter_inv.1, rfl⟩,
    C7_first_import_dense_permutation sortBoneInf sortBoneIndexInfo sortBoneIndexInfo_isStdSort
      scenarioCTable scenarioCImporter scenarioCImporter_inv.1 rfl⟩

/-- Counterexample to C7 as stated: when the mesh of Scenario C is imported a
second time through the same importer, the three used registry entries get
the dense indices 1, 3 and 5, which are not a rearrangement of 0, 1, 2. -/
theorem C7_later_import_counterexample :
    usedDenseIndices scenarioCSecond.Importer.BoneIndexMap = [1, 3, 5] ∧
    usedBoneCount scenarioCSecond.Importer.BoneIndexMap = 3 ∧
    ¬ (usedDenseIndices scenarioCSecond.Importer.BoneIndexMap).Perm
        (List.range (usedBoneCount scenarioCSecond.Importer.BoneIndexMap)) := by
  decide

theorem marked_map_skeletonIndex_sublist (T : List VertexSkinInfo)
    (m : List (String × BoneIndexInfo)) (hnd : (mapKeys m).Nodup) :
    ((eraseUnused (markPhase T m)).map (fun e => e.2.SkeletonIndex)).Sublist
      (m.map (fun e => e.2.SkeletonIndex)) := by
  have h1 : ((eraseUnused (markPhase T m)).map (fun e => e.2.SkeletonIndex)).Sublist
      ((markPhase T m).map (fun e => e.2.SkeletonIndex)) :=
    List.Sublist.map _ (List.filter_sublist _)
  have h2 : (markPhase T m).map (fun e => e.2.SkeletonIndex) =
      m.map (fun e => e.2.SkeletonIndex) := by
    rw [markPhase_eq T m hnd, List.map_map]
    apply List.map_congr_left
    intro e _
    by_cases h : e.1 ∈ referencedNames T <;> simp [h, setUsed]
  rw [h2] at h1
  exact h1

theorem mapKeys_marked (T : List VertexSkinInfo) (m : List (String × BoneIndexInfo))
    (hnd : (mapKeys m).Nodup) :
    mapKeys (eraseUnused (markPhase T m)) =
      mapKeys (m.filter (fun e => e.2.IsUsedLink || decide (e.1 ∈ referencedNames T))) := by
  rw [eraseUnused, markPhase_eq T m hnd, List.filter_map]
  simp only [mapKeys, List.map_map]
  have hp : ∀ e ∈ m, ((fun e : String × BoneIndexInfo => e.2.IsUsedLink) ∘
      (fun e => if e.1 ∈ referencedNames T then (e.1, setUsed e.2) else e)) e =
      (e.2.IsUsedLink || decide (e.1 ∈ referencedNames T)) := by
    intro e _
    by_cases h : e.1 ∈ referencedNames T <;> simp [h, setUsed]
  rw [List.filter_congr hp]
  apply List.map_congr_left
  intro e _
  by_cases h : e.1 ∈ referencedNames T <;> simp [h]

/-- In the first import of a session with pairwise distinct skeleton indices,
`BoneArray` is strictly ascending in `SkeletonIndex` after the sort. -/
theorem first_import_sorted (sortBones : List BoneIndexInfo → List BoneIndexInfo)
    (hsort : IsStdSort BoneIndexInfo.lt sortBones) (T : List VertexSkinInfo)
    (Importer : FbxFileImporter) (hwf : RegistryWF Importer.BoneIndexMap)
    (hempty : Importer.BoneArray = [])
    (hdistinct : (Importer.BoneIndexMap.map (fun e => e.2.SkeletonIndex)).Nodup) :
    ((resolveBones sortBones T Importer).BoneArray.map (fun b => b.SkeletonIndex)).Pairwise
      (fun a b => a < b) := by
  simp only [resolveBones, hempty, pushAll, List.nil_append]
  have hperm := (hsort ((eraseUnused (markPhase T Importer.BoneIndexMap)).map (fun e => e.2))).1
  have hsorted := (hsort ((eraseUnused (markPhase T Importer.BoneIndexMap)).map (fun e => e.2))).2
  have hnd : ((sortBones ((eraseUnused (markPhase T Importer.BoneIndexMap)).map
      (fun e => e.2))).map (fun b => b.SkeletonIndex)).Nodup := by
    rw [(hperm.map _).nodup_iff, List.map_map]
    exact (marked_map_skeletonIndex_sublist T _ hwf.1).nodup hdistinct
  rw [List.pairwise_map]
  rw [List.Nodup, List.pairwise_map] at hnd
  refine List.Pairwise.imp ?_ (hsorted.and hnd)
  intro a b hab
  have h1 : ¬ b.SkeletonIndex < a.SkeletonIndex := by
    simpa [BoneIndexInfo.lt] using hab.1
  have h2 := hab.2
  omega

/-- C6. In the first import of a session (`BoneArray` empty, registry well
formed, skeleton indices pairwise distinct) the registry keeps exactly the
entries that are used (flagged, or referenced by a kept influence); the dense
index of each of them is its position among the used entries in ascending
order of `SkeletonIndex` (the number of used entries with a smaller skeleton
index), so that a smaller skeleton index gives a smaller dense index; and the
bone count of the mesh is the number of used entries. -/
theorem C6_first_import_dense_index_order (sortInf : List BoneInf → List BoneInf)
    (sortBones : List BoneIndexInfo → List BoneIndexInfo)
    (hsort : IsStdSort BoneIndexInfo.lt sortBones) (SkinInfoArray : List VertexSkinInfo)
    (Importer : FbxFileImporter) (hwf : RegistryWF Importer.BoneIndexMap)
    (hempty : Importer.BoneArray = [])
    (hdistinct : (Importer.BoneIndexMap.map (fun e => e.2.SkeletonIndex)).Nodup) :
    (∀ e ∈ (importSkin sortInf sortBones SkinInfoArray Importer).Importer.BoneIndexMap,
      e.2.IsUsedLink = true ∧
      e.2.Index =
        ((importSkin sortInf sortBones SkinInfoArray Importer).Importer.BoneIndexMap.filter
          (fun e' => decide (e'.2.SkeletonIndex < e.2.SkeletonIndex))).length) ∧
    (∀ a ∈ (importSkin sortInf sortBones SkinInfoArray Importer).Importer.BoneIndexMap,
      ∀ b ∈ (importSkin sortInf sortBones SkinInfoArray Importer).Importer.BoneIndexMap,
        a.2.SkeletonIndex < b.2.SkeletonIndex → a.2.Index < b.2.Index) ∧
    (importSkin sortInf sortBones SkinInfoArray Importer)._NumBone =
      usedBoneCount (importSkin sortInf sortBones SkinInfoArray Importer).Importer.BoneIndexMap ∧
    mapKeys (importSkin sortInf sortBones SkinInfoArray Importer).Importer.BoneIndexMap =
      mapKeys (Importer.BoneIndexMap.filter (fun e =>
        e.2.IsUsedLink || decide (e.1 ∈ referencedNames (trimAll sortInf SkinInfoArray)))) := by
  have hnum : (importSkin sortInf sortBones SkinInfoArray Importer)._NumBone =
      (resolveBones sortBones (trimAll sortInf SkinInfoArray) Importer).BoneArray.length := rfl
  rw [hnum, importSkin_importer]
  generalize trimAll sortInf SkinInfoArray = T
  have hF := marked_wf (T := T) hwf
  have hlen := resolveBones_length_first sortBones hsort T Importer hwf hempty
  have hsorted := first_import_sorted sortBones hsort T Importer hwf hempty hdistinct
  have hpos : ∀ e ∈ (resolveBones sortBones T Importer).BoneIndexMap,
      e.2.Index = ((resolveBones sortBones T Importer).BoneIndexMap.filter
        (fun e' => decide (e'.2.SkeletonIndex < e.2.SkeletonIndex))).length := by
    intro e he
    obtain ⟨e0, he0, hk, hs, hlt, harr⟩ :=
      first_import_index sortBones hsort T Importer hwf hempty e he
    have hlt2 : e.2.Index <
        ((resolveBones sortBones T Importer).BoneArray.map (fun b => b.SkeletonIndex)).length := by
      simpa using hlt
    have hcount := filter_lt_length_of_sorted _ hsorted e.2.Index hlt2
    have hget : ((resolveBones sortBones T Importer).BoneArray.map
        (fun b => b.SkeletonIndex))[e.2.Index] = e.2.SkeletonIndex := by
      rw [List.getElem_map, harr, hs]
    rw [hget] at hcount
    have hperm : ((resolveBones sortBones T Importer).BoneArray.map
        (fun b => b.SkeletonIndex)).Perm
        ((resolveBones sortBones T Importer).BoneIndexMap.map
          (fun e' => e'.2.SkeletonIndex)) := by
      simp only [resolveBones, hempty, pushAll, List.nil_append,
        assignIndexFrom_eq _ _ _ hF.1, List.map_map]
      have h1 := ((hsort ((eraseUnused (markPhase T Importer.BoneIndexMap)).map
        (fun e => e.2))).1).map (fun b => b.SkeletonIndex)
      rw [List.map_map] at h1
      exact h1
    have hfl := (hperm.filter (fun x => decide (x < e.2.SkeletonIndex))).length_eq
    rw [hcount, List.filter_map, List.length_map] at hfl
    rw [hfl]
    rfl
  refine ⟨?_, ?_, ?_, ?_⟩
  · intro e he
    exact ⟨(resolveBones_index sortBones hsort T Importer hwf e he).1, hpos e he⟩
  · intro a ha b hb hab
    obtain ⟨a0, -, -, hsa, hlta, harra⟩ :=
      first_import_index sortBones hsort T Importer hwf hempty a ha
    obtain ⟨b0, -, -, hsb, hltb, harrb⟩ :=
      first_import_index sortBones hsort T Importer hwf hempty b hb
    by_contra hcon
    have hle : b.2.Index ≤ a.2.Index := by omega
    rcases Nat.eq_or_lt_of_le hle with heq | hlt
    · have : a0.2 = b0.2 := by
        rw [← harra, ← harrb]
        simp only [heq]
      rw [hsa, hsb, this] at hab
      omega
    · have hp := List.pairwise_iff_getElem.mp hsorted b.2.Index a.2.Index
        (by simpa using hltb) (by simpa using hlta) hlt
      simp only [List.getElem_map, harra, harrb] at hp
      rw [hsa, hsb] at hab
      omega
  · rw [hlen, usedBoneCount, resolveBones_all_used sortBones hsort T Importer hwf]
  · simp only [resolveBones]
    rw [mapKeys_assigned _ _ _ hF.1, mapKeys_marked T _ hwf.1]

/-- Witness for C6: Scenario C, 10 skeleton bones of which `bone7`, `bone2` and
`bone5` are referenced, gives the dense indices 0, 1, 2 in ascending order of
skeleton index and the bone count 3. -/
theorem C6_first_import_dense_index_order_witness :
    (IsStdSort BoneIndexInfo.lt sortBoneIndexInfo ∧
      RegistryWF scenarioCImporter.BoneIndexMap ∧ scenarioCImporter.BoneArray = [] ∧
      (scenarioCImporter.BoneIndexMap.map (fun e => e.2.SkeletonIndex)).Nodup) ∧
    ((∀ e ∈ (importSkin sortBoneInf sortBoneIndexInfo scenarioCTable
          scenarioCImporter).Importer.BoneIndexMap,
        e.2.IsUsedLink = true ∧
        e.2.Index =
          ((importSkin sortBoneInf sortBoneIndexInfo scenarioCTable
              scenarioCImporter).Importer.BoneIndexMap.filter
            (fun e' => decide (e'.2.SkeletonIndex < e.2.SkeletonIndex))).length) ∧
      (∀ a ∈ (importSkin sortBoneInf sortBoneIndexInfo scenarioCTable
          scenarioCImporter).Importer.BoneIndexMap,
        ∀ b ∈ (importSkin sortBoneInf sortBoneIndexInfo scenarioCTable
            scenarioCImporter).Importer.BoneIndexMap,
          a.2.SkeletonIndex < b.2.SkeletonIndex → a.2.Index < b.2.Index) ∧
      (importSkin sortBoneInf sortBoneIndexInfo scenarioCTable scenarioCImporter)._NumBone =
        usedBoneCount (importSkin sortBoneInf sortBoneIndexInfo scenarioCTable
          scenarioCImporter).Importer.BoneIndexMap ∧
      mapKeys (importSkin sortBoneInf sortBoneIndexInfo scenarioCTable
          scenarioCImporter).Importer.BoneIndexMap =
        mapKeys (scenarioCImporter.BoneIndexMap.filter (fun e =>
          e.2.IsUsedLink ||
            decide (e.1 ∈ referencedNames (trimAll sortBoneInf scenarioCTable))))) ∧
    ((importSkin sortBoneInf sortBoneIndexInfo scenarioCTable
        scenarioCImporter).Importer.BoneIndexMap =
        [("bone2", ⟨"bone2", true, 2, 0⟩), ("bone5", ⟨"bone5", true, 5, 1⟩),
         ("bone7", ⟨"bone7", true, 7, 2⟩)] ∧
      (importSkin sortBoneInf sortBoneIndexInfo scenarioCTable scenarioCImporter)._NumBone = 3) :=
  ⟨⟨sortBoneIndexInfo_isStdSort, scenarioCImporter_inv.1, rfl, by decide⟩,
    C6_first_import_dense_index_order sortBoneInf sortBoneIndexInfo sortBoneIndexInfo_isStdSort
      scenarioCTable scenarioCImporter scenarioCImporter_inv.1 rfl (by decide),
    by decide⟩

/-! ### Remap -/

theorem remapSlot_weights (m : List (String × BoneIndexInfo)) (skin : SkinInfo) (s : Nat)
    (inf : BoneInf) : (remapSlot m skin s inf).Weights = skin.Weights.set s inf.Weight := by
  simp only [remapSlot]
  cases mapFind m inf.BoneName <;> rfl

theorem remapSlot_bones (m : List (String × BoneIndexInfo)) (skin : SkinInfo) (s : Nat)
    (inf : BoneInf) :
    (remapSlot m skin s inf).Bones =
      match mapFind m inf.BoneName with
      | some LinkInfoMap => skin.Bones.set s LinkInfoMap.Index
      | none => skin.Bones := by
  simp only [remapSlot]
  cases mapFind m inf.BoneName <;> rfl

theorem remapSlot_bones_length (m : List (String × BoneIndexInfo)) (skin : SkinInfo) (s : Nat)
    (inf : BoneInf) : (remapSlot m skin s inf).Bones.length = skin.Bones.length := by
  rw [remapSlot_bones]
  cases mapFind m inf.BoneName <;> simp

theorem remapSlotsFrom_weights_low (m : List (String × BoneIndexInfo)) (BL : List BoneInf) :
    ∀ (s : Nat) (skin : SkinInfo) (j : Nat), j < s →
      (remapSlotsFrom m s BL skin).Weights[j]? = skin.Weights[j]? := by
  induction BL with
  | nil => intro s skin j _; rfl
  | cons inf rest ih =>
    intro s skin j hj
    simp only [remapSlotsFrom]
    rw [ih (s + 1) _ j (by omega), remapSlot_weights, List.getElem?_set_ne (by omega)]

theorem remapSlotsFrom_bones_low (m : List (String × BoneIndexInfo)) (BL : List BoneInf) :
    ∀ (s : Nat) (skin : SkinInfo) (j : Nat), j < s →
      (remapSlotsFrom m s BL skin).Bones[j]? = skin.Bones[j]? := by
  induction BL with
  | nil => intro s skin j _; rfl
  | cons inf rest ih =>
    intro s skin j hj
    simp only [remapSlotsFrom]
    rw [ih (s + 1) _ j (by omega), remapSlot_bones]
    cases mapFind m inf.BoneName with
    | none => rfl
    | some L => simp only []; rw [List.getElem?_set_ne (by omega)]

theorem remapSlotsFrom_weights_at (m : List (String × BoneIndexInfo)) (BL : List BoneInf) :
    ∀ (s : Nat) (skin : SkinInfo) (k : Nat) (inf : BoneInf), BL[k]? = some inf →
      s + k < skin.Weights.length →
      (remapSlotsFrom m s BL skin).Weights[s + k]? = some inf.Weight := by
  induction BL with
  | nil => intro s skin k inf h; simp at h
  | cons x rest ih =>
    intro s skin k inf h hlen
    simp only [remapSlotsFrom]
    cases k with
    | zero =>
      simp only [List.getElem?_cons_zero, Option.some.injEq] at h
      subst h
      change (remapSlotsFrom m (s + 1) rest (remapSlot m skin s x)).Weights[s]? = _
      change s < skin.Weights.length at hlen
      rw [remapSlotsFrom_weights_low m rest (s + 1) _ s (by omega), remapSlot_weights]
      simp [List.getElem?_set, hlen]
    | succ k =>
      simp only [List.getElem?_cons_succ] at h
      have := ih (s + 1) (remapSlot m skin s x) k inf h
        (by rw [remapSlot_weights, List.length_set]; omega)
      rw [show s + (k + 1) = s + 1 + k by omega]
      exact this

theorem remapSlotsFrom_bones_at (m : List (String × BoneIndexInfo)) (BL : List BoneInf) :
    ∀ (s : Nat) (skin : SkinInfo) (k : Nat) (inf : BoneInf) (L : BoneIndexInfo),
      BL[k]? = some inf → mapFind m inf.BoneName = some L → s + k < skin.Bones.length →
      (remapSlotsFrom m s BL skin).Bones[s + k]? = some L.Index := by
  induction BL with
  | nil => intro s skin k inf L h; simp at h
  | cons x rest ih =>
    intro s skin k inf L h hfind hlen
    simp only [remapSlotsFrom]
    cases k with
    | zero =>
      simp only [List.getElem?_cons_zero, Option.some.injEq] at h
      subst h
      change (remapSlotsFrom m (s + 1) rest (remapSlot m skin s x)).Bones[s]? = _
      change s < skin.Bones.length at hlen
      rw [remapSlotsFrom_bones_low m rest (s + 1) _ s (by omega), remapSlot_bones, hfind]
      simp [List.getElem?_set, hlen]
    | succ k =>
      simp only [List.getElem?_cons_succ] at h
      have := ih (s + 1) (remapSlot m skin s x) k inf L h hfind
        (by rw [remapSlot_bones_length]; omega)
      rw [show s + (k + 1) = s + 1 + k by omega]
      exact this

theorem padSlots_low (skin : SkinInfo) (j : Nat) :
    ∀ r, j + r < 4 →
      (padSlots r skin).Weights[j]? = skin.Weights[j]? ∧
      (padSlots r skin).Bones[j]? = skin.Bones[j]? := by
  intro r
  induction r with
  | zero => intro _; exact ⟨rfl, rfl⟩
  | succ r ih =>
    intro h
    obtain ⟨hw, hb⟩ := ih (by omega)
    simp only [padSlots, List.range_succ, List.foldl_append, List.foldl_cons, List.foldl_nil]
    simp only [padSlots] at hw hb
    constructor
    · rw [List.getElem?_set_ne (by omega), hw]
    · rw [List.getElem?_set_ne (by omega), hb]

theorem trimInfluences_length_le (sort : List BoneInf → List BoneInf)
    (hlen : ∀ l, (sort l).length = l.length) (BoneLink : List BoneInf) :
    (trimInfluences sort BoneLink).length ≤ 4 := by
  by_cases h : 4 < BoneLink.length
  · rw [trimInfluences_gt sort hlen BoneLink h]
    simp
  · simp [trimInfluences, h]; omega

theorem mem_referencedNames {T : List VertexSkinInfo} {Vert k : Nat} {Vertex : VertexSkinInfo}
    {inf : BoneInf} (hV : T[Vert]? = some Vertex) (hk : Vertex.BoneLink[k]? = some inf) :
    inf.BoneName ∈ referencedNames T := by
  simp only [referencedNames, List.mem_flatMap, List.mem_map]
  exact ⟨Vertex, List.getElem?_mem hV, inf, List.getElem?_mem hk, rfl⟩

/-- C8. For every vertex and every kept influence in slot `k` of that vertex
whose bone name is a key of the registry, the remap step stores in slot `k`
of the vertex's `SkinInfo` the (post-compaction) weight of the influence and
the `Index` that the compact phase has given the registry entry of that bone
name: the entry is used, and its `Index` is a position of the sorted
`BoneArray` that holds this bone. -/
theorem C8_remap_slot (sortInf : List BoneInf → List BoneInf)
    (sortBones : List BoneIndexInfo → List BoneIndexInfo)
    (hsortInf : IsStdSort BoneInf.lt sortInf) (hsortBones : IsStdSort BoneIndexInfo.lt sortBones)
    (SkinInfoArray : List VertexSkinInfo)
    (Importer : FbxFileImporter) (hwf : RegistryWF Importer.BoneIndexMap)
    (Vert k : Nat) (Vertex : VertexSkinInfo) (inf : BoneInf)
    (hV : (trimAll sortInf SkinInfoArray)[Vert]? = some Vertex)
    (hk : Vertex.BoneLink[k]? = some inf)
    (hpresent : inf.BoneName ∈ mapKeys Importer.BoneIndexMap) :
    ∃ skin LinkInfoMap,
      (importSkin sortInf sortBones SkinInfoArray Importer)._SkinInfoArray[Vert]? = some skin ∧
      mapFind (importSkin sortInf sortBones SkinInfoArray Importer).Importer.BoneIndexMap
        inf.BoneName = some LinkInfoMap ∧
      skin.Weights[k]? = some inf.Weight ∧
      skin.Bones[k]? = some LinkInfoMap.Index ∧
      LinkInfoMap.IsUsedLink = true ∧
      ∃ h : LinkInfoMap.Index <
          (importSkin sortInf sortBones SkinInfoArray Importer).Importer.BoneArray.length,
        ((importSkin sortInf sortBones SkinInfoArray Importer).Importer.BoneArray[
          LinkInfoMap.Index]).BoneName = inf.BoneName := by
  have hnd := hwf.1
  have hskin : (importSkin sortInf sortBones SkinInfoArray Importer)._SkinInfoArray =
      (trimAll sortInf SkinInfoArray).map (fun Vertex =>
        remapVertex (resolveBones sortBones (trimAll sortInf SkinInfoArray)
          Importer).BoneIndexMap Vertex SkinInfo.zero) := rfl
  rw [hskin, importSkin_importer]
  -- the vertex has at most 4 kept influences
  have hle : Vertex.BoneLink.length ≤ 4 := by
    have hmem := List.getElem?_mem hV
    simp only [trimAll, List.mem_map] at hmem
    obtain ⟨V0, -, hV0⟩ := hmem
    rw [← hV0]
    exact trimInfluences_length_le sortInf hsortInf.length_eq _
  have hklt : k < Vertex.BoneLink.length := by
    by_contra hcon
    have : Vertex.BoneLink[k]? = none := List.getElem?_eq_none (by omega)
    rw [this] at hk
    exact Option.noConfusion hk
  -- the bone is marked, so it is still a key after the erase and the assign loops
  have href := mem_referencedNames hV hk
  have hF := (marked_wf (T := trimAll sortInf SkinInfoArray) hwf).1
  have hkey : inf.BoneName ∈ mapKeys (resolveBones sortBones (trimAll sortInf SkinInfoArray)
      Importer).BoneIndexMap := by
    simp only [resolveBones]
    rw [mapKeys_assigned _ _ _ hF]
    simp only [mapKeys, List.mem_map] at hpresent
    obtain ⟨e0, he0, hname⟩ := hpresent
    have := mem_marked_of_referenced (T := trimAll sortInf SkinInfoArray) hnd he0
      (by rw [hname]; exact href)
    simp only [mapKeys, List.mem_map]
    exact ⟨_, this, hname⟩
  obtain ⟨L, hL⟩ := Option.isSome_iff_exists.mp ((mapFind_isSome_iff _ _).mpr hkey)
  obtain ⟨hused, hlt, hname⟩ := resolveBones_index sortBones hsortBones
    (trimAll sortInf SkinInfoArray) Importer hwf (inf.BoneName, L) (mem_of_mapFind hL)
  refine ⟨remapVertex (resolveBones sortBones (trimAll sortInf SkinInfoArray)
    Importer).BoneIndexMap Vertex SkinInfo.zero, L, ?_, hL, ?_, ?_, hused, hlt, hname⟩
  · rw [List.getElem?_map, hV]
    rfl
  · simp only [remapVertex]
    rw [(padSlots_low _ k _ (by omega)).1]
    have := remapSlotsFrom_weights_at (resolveBones sortBones (trimAll sortInf SkinInfoArray)
      Importer).BoneIndexMap Vertex.BoneLink 0 SkinInfo.zero k inf hk
      (by simp [SkinInfo.zero]; omega)
    simpa using this
  · simp only [remapVertex]
    rw [(padSlots_low _ k _ (by omega)).2]
    have := remapSlotsFrom_bones_at _ Vertex.BoneLink 0 SkinInfo.zero k inf L hk hL
      (by simp [SkinInfo.zero]; omega)
    simpa using this

/-- Witness for C8: slot 1 of vertex 1 of Scenario C (`bone7`, weight 1/2). -/
theorem C8_remap_slot_witness :
    (IsStdSort BoneInf.lt sortBoneInf ∧ IsStdSort BoneIndexInfo.lt sortBoneIndexInfo ∧
      RegistryWF scenarioCImporter.BoneIndexMap ∧
      (trimAll sortBoneInf scenarioCTable)[1]? =
        some ⟨[⟨"bone5", 1 / 2⟩, ⟨"bone7", 1 / 2⟩]⟩ ∧
      ([⟨"bone5", 1 / 2⟩, ⟨"bone7", 1 / 2⟩] : List BoneInf)[1]? = some ⟨"bone7", 1 / 2⟩ ∧
      "bone7" ∈ mapKeys scenarioCImporter.BoneIndexMap) ∧
    (∃ skin LinkInfoMap,
      (importSkin sortBoneInf sortBoneIndexInfo scenarioCTable
        scenarioCImporter)._SkinInfoArray[1]? = some skin ∧
      mapFind (importSkin sortBoneInf sortBoneIndexInfo scenarioCTable
        scenarioCImporter).Importer.BoneIndexMap "bone7" = some LinkInfoMap ∧
      skin.Weights[1]? = some (1 / 2) ∧
      skin.Bones[1]? = some LinkInfoMap.Index ∧
      LinkInfoMap.IsUsedLink = true ∧
      ∃ h : LinkInfoMap.Index <
          (importSkin sortBoneInf sortBoneIndexInfo scenarioCTable
            scenarioCImporter).Importer.BoneArray.length,
        ((importSkin sortBoneInf sortBoneIndexInfo scenarioCTable
          scenarioCImporter).Importer.BoneArray[LinkInfoMap.Index]).BoneName = "bone7") ∧
    (importSkin sortBoneInf sortBoneIndexInfo scenarioCTable
      scenarioCImporter)._SkinInfoArray.map (fun s => s.Bones) =
      [[2, 0, 0, 0], [1, 2, 0, 0]] :=
  ⟨⟨sortBoneInf_isStdSort, sortBoneIndexInfo_isStdSort, scenarioCImporter_inv.1, rfl, rfl,
      by decide⟩,
    C8_remap_slot sortBoneInf sortBoneIndexInfo sortBoneInf_isStdSort
      sortBoneIndexInfo_isStdSort scenarioCTable
      scenarioCImporter scenarioCImporter_inv.1 1 1
      ⟨[⟨"bone5", 1 / 2⟩, ⟨"bone7", 1 / 2⟩]⟩ ⟨"bone7", 1 / 2⟩ rfl rfl (by decide),
    by decide⟩

/-! ### Vertex packing -/

theorem toUnsignedInt_of_range (x : ℚ) (h0 : 0 ≤ x) (h1 : x < 256) :
    ∃ q : Nat, toUnsignedInt x = some q ∧ (q : Int) = ⌊x⌋ ∧ q < 256 := by
  have hfloor0 : 0 ≤ ⌊x⌋ := Int.floor_nonneg.mpr h0
  have hfloor1 : ⌊x⌋ < 256 := by
    rw [Int.floor_lt]
    exact_mod_cast h1
  refine ⟨Int.toNat ⌊x⌋, ?_, Int.toNat_of_nonneg hfloor0, by omega⟩
  have hr : -1 < x ∧ x < 2 ^ 32 := by
    constructor
    · linarith
    · have : (256 : ℚ) < 2 ^ 32 := by norm_num
      linarith
  simp [toUnsignedInt, hr]

/-- Four bytes OR-ed into a 32-bit word at the bit offsets 0, 8, 16 and 24 make
the word `q0 + 2^8 q1 + 2^16 q2 + 2^24 q3`. -/
theorem or_four_bytes (q0 q1 q2 q3 : Nat) (h0 : q0 < 256) (h1 : q1 < 256) (h2 : q2 < 256)
    (h3 : q3 < 256) :
    (((0 ||| ((q0 <<< (0 * 8)) % 2 ^ 32)) ||| ((q1 <<< (1 * 8)) % 2 ^ 32)) |||
        ((q2 <<< (2 * 8)) % 2 ^ 32)) ||| ((q3 <<< (3 * 8)) % 2 ^ 32) =
      q0 + 2 ^ 8 * q1 + 2 ^ 16 * q2 + 2 ^ 24 * q3 := by
  have e0 : (q0 <<< (0 * 8)) % 2 ^ 32 = q0 := by
    simp only [Nat.zero_mul, Nat.shiftLeft_zero]; omega
  have e1 : (q1 <<< (1 * 8)) % 2 ^ 32 = 2 ^ 8 * q1 := by
    rw [Nat.shiftLeft_eq]; omega
  have e2 : (q2 <<< (2 * 8)) % 2 ^ 32 = 2 ^ 16 * q2 := by
    rw [Nat.shiftLeft_eq]; omega
  have e3 : (q3 <<< (3 * 8)) % 2 ^ 32 = 2 ^ 24 * q3 := by
    rw [Nat.shiftLeft_eq]; omega
  rw [e0, e1, e2, e3, Nat.zero_or]
  have a1 : q0 ||| 2 ^ 8 * q1 = 2 ^ 8 * q1 + q0 := by
    rw [Nat.or_comm]
    exact (Nat.mul_add_lt_is_or (by omega) q1).symm
  have a2 : (2 ^ 8 * q1 + q0) ||| 2 ^ 16 * q2 = 2 ^ 16 * q2 + (2 ^ 8 * q1 + q0) := by
    rw [Nat.or_comm]
    exact (Nat.mul_add_lt_is_or (by omega) q2).symm
  have a3 : (2 ^ 16 * q2 + (2 ^ 8 * q1 + q0)) ||| 2 ^ 24 * q3 =
      2 ^ 24 * q3 + (2 ^ 16 * q2 + (2 ^ 8 * q1 + q0)) := by
    rw [Nat.or_comm]
    exact (Nat.mul_add_lt_is_or (by omega) q3).symm
  rw [a1, a2, a3]
  omega

theorem byteOf_four_bytes (q0 q1 q2 q3 : Nat) (h0 : q0 < 256) (h1 : q1 < 256) (h2 : q2 < 256)
    (h3 : q3 < 256) :
    byteOf (q0 + 2 ^ 8 * q1 + 2 ^ 16 * q2 + 2 ^ 24 * q3) 0 = q0 ∧
    byteOf (q0 + 2 ^ 8 * q1 + 2 ^ 16 * q2 + 2 ^ 24 * q3) 1 = q1 ∧
    byteOf (q0 + 2 ^ 8 * q1 + 2 ^ 16 * q2 + 2 ^ 24 * q3) 2 = q2 ∧
    byteOf (q0 + 2 ^ 8 * q1 + 2 ^ 16 * q2 + 2 ^ 24 * q3) 3 = q3 := by
  simp only [byteOf, Nat.shiftRight_eq_div_pow]
  refine ⟨by omega, by omega, by omega, by omega⟩

theorem packWeights_of_range (w0 w1 w2 w3 : ℚ) (Bones : List Nat)
    (h0 : 0 ≤ w0 ∧ w0 * 255 < 256) (h1 : 0 ≤ w1 ∧ w1 * 255 < 256)
    (h2 : 0 ≤ w2 ∧ w2 * 255 < 256) (h3 : 0 ≤ w3 ∧ w3 * 255 < 256) :
    ∃ q0 q1 q2 q3 : Nat,
      packWeights ⟨[w0, w1, w2, w3], Bones⟩ =
        some (q0 + 2 ^ 8 * q1 + 2 ^ 16 * q2 + 2 ^ 24 * q3) ∧
      ((q0 : Int) = ⌊w0 * 255⌋ ∧ q0 < 256) ∧ ((q1 : Int) = ⌊w1 * 255⌋ ∧ q1 < 256) ∧
      ((q2 : Int) = ⌊w2 * 255⌋ ∧ q2 < 256) ∧ ((q3 : Int) = ⌊w3 * 255⌋ ∧ q3 < 256) := by
  obtain ⟨q0, e0, f0, b0⟩ := toUnsignedInt_of_range (w0 * 255) (by nlinarith [h0.1]) h0.2
  obtain ⟨q1, e1, f1, b1⟩ := toUnsignedInt_of_range (w1 * 255) (by nlinarith [h1.1]) h1.2
  obtain ⟨q2, e2, f2, b2⟩ := toUnsignedInt_of_range (w2 * 255) (by nlinarith [h2.1]) h2.2
  obtain ⟨q3, e3, f3, b3⟩ := toUnsignedInt_of_range (w3 * 255) (by nlinarith [h3.1]) h3.2
  refine ⟨q0, q1, q2, q3, ?_, ⟨f0, b0⟩, ⟨f1, b1⟩, ⟨f2, b2⟩, ⟨f3, b3⟩⟩
  have hr : List.range MAX_BONELINK = [0, 1, 2, 3] := rfl
  rw [packWeights, hr]
  simp only [List.foldlM_cons, List.foldlM_nil, packWeightStep, List.getElem?_cons_zero,
    List.getElem?_cons_succ, Option.bind_eq_bind, Option.some_bind, e0, e1, e2, e3,
    Option.pure_def]
  rw [or_four_bytes q0 q1 q2 q3 b0 b1 b2 b3]

/-- C10 (as amended). When the four weights of a `SkinInfo` satisfy
`0 ≤ w` and `w * 255 < 256` (in particular when they lie in `[0, 1]`), the
packer succeeds and byte `k` of the packed `Weights` word is the integer part
`⌊w_k * 255⌋`: the product is truncated, not rounded, and nothing is
clamped. -/
theorem C10_weight_byte_truncates (w0 w1 w2 w3 : ℚ) (Bones : List Nat)
    (h0 : 0 ≤ w0 ∧ w0 * 255 < 256) (h1 : 0 ≤ w1 ∧ w1 * 255 < 256)
    (h2 : 0 ≤ w2 ∧ w2 * 255 < 256) (h3 : 0 ≤ w3 ∧ w3 * 255 < 256) :
    ∃ word, packWeights ⟨[w0, w1, w2, w3], Bones⟩ = some word ∧
      (byteOf word 0 : Int) = ⌊w0 * 255⌋ ∧ (byteOf word 1 : Int) = ⌊w1 * 255⌋ ∧
      (byteOf word 2 : Int) = ⌊w2 * 255⌋ ∧ (byteOf word 3 : Int) = ⌊w3 * 255⌋ := by
  obtain ⟨q0, q1, q2, q3, hpack, ⟨f0, b0⟩, ⟨f1, b1⟩, ⟨f2, b2⟩, ⟨f3, b3⟩⟩ :=
    packWeights_of_range w0 w1 w2 w3 Bones h0 h1 h2 h3
  obtain ⟨y0, y1, y2, y3⟩ := byteOf_four_bytes q0 q1 q2 q3 b0 b1 b2 b3
  refine ⟨_, hpack, ?_, ?_, ?_, ?_⟩
  · rw [y0, f0]
  · rw [y1, f1]
  · rw [y2, f2]
  · rw [y3, f3]

/-- Witness for C10 (as amended): the weights `[0.5, 0.25, 0.25, 0]` are stored
as the bytes 127, 63, 63 and 0. -/
theorem C10_weight_byte_truncates_witness :
    (((0 : ℚ) ≤ 1 / 2 ∧ (1 / 2 : ℚ) * 255 < 256) ∧ ((0 : ℚ) ≤ 1 / 4 ∧ (1 / 4 : ℚ) * 255 < 256) ∧
      ((0 : ℚ) ≤ 1 / 4 ∧ (1 / 4 : ℚ) * 255 < 256) ∧ ((0 : ℚ) ≤ 0 ∧ (0 : ℚ) * 255 < 256)) ∧
    (∃ word, packWeights ⟨[1 / 2, 1 / 4, 1 / 4, 0], [0, 0, 0, 0]⟩ = some word ∧
      (byteOf word 0 : Int) = ⌊(1 / 2 : ℚ) * 255⌋ ∧ (byteOf word 1 : Int) = ⌊(1 / 4 : ℚ) * 255⌋ ∧
      (byteOf word 2 : Int) = ⌊(1 / 4 : ℚ) * 255⌋ ∧ (byteOf word 3 : Int) = ⌊(0 : ℚ) * 255⌋) ∧
    (⌊(1 / 2 : ℚ) * 255⌋ = 127 ∧ ⌊(1 / 4 : ℚ) * 255⌋ = 63) :=
  ⟨⟨by norm_num, by norm_num, by norm_num, by norm_num⟩,
    C10_weight_byte_truncates (1 / 2) (1 / 4) (1 / 4) 0 [0, 0, 0, 0] (by norm_num) (by norm_num)
      (by norm_num) (by norm_num),
    by rw [Int.floor_eq_iff]; norm_num, by rw [Int.floor_eq_iff]; norm_num⟩

/-- Counterexample to C10 as stated: the weight 0.5 in slot 0 is stored as the
byte 127, while `round(0.5 * 255)` clamped to `[0, 255]` is 128. -/
theorem C10_round_counterexample :
    ∃ word, packWeights ⟨[1 / 2, 0, 0, 0], [0, 0, 0, 0]⟩ = some word ∧
      byteOf word 0 = 127 ∧ quantizeSpec (1 / 2) = 128 ∧
      (byteOf word 0 : Int) ≠ quantizeSpec (1 / 2) := by
  have hq : quantizeSpec (1 / 2) = 128 := by
    have hr : round ((1 / 2 : ℚ) * 255) = 128 := by
      rw [round_eq, Int.floor_eq_iff]; norm_num
    rw [quantizeSpec, hr]
    decide
  obtain ⟨q0, q1, q2, q3, hpack, ⟨f0, b0⟩, ⟨-, b1⟩, ⟨-, b2⟩, ⟨-, b3⟩⟩ :=
    packWeights_of_range (1 / 2) 0 0 0 [0, 0, 0, 0] (by norm_num) (by norm_num)
      (by norm_num) (by norm_num)
  have hf : ⌊(1 / 2 : ℚ) * 255⌋ = 127 := by rw [Int.floor_eq_iff]; norm_num
  rw [hf] at f0
  have hq0 : q0 = 127 := by exact_mod_cast f0
  have hb : byteOf (q0 + 2 ^ 8 * q1 + 2 ^ 16 * q2 + 2 ^ 24 * q3) 0 = 127 := by
    rw [(byteOf_four_bytes q0 q1 q2 q3 b0 b1 b2 b3).1, hq0]
  refine ⟨_, hpack, hb, hq, ?_⟩
  rw [hb, hq]
  decide

theorem packWeights_of_quantized (w0 w1 w2 w3 : ℚ) (Bones : List Nat) (q0 q1 q2 q3 : Nat)
    (e0 : toUnsignedInt (w0 * 255) = some q0) (e1 : toUnsignedInt (w1 * 255) = some q1)
    (e2 : toUnsignedInt (w2 * 255) = some q2) (e3 : toUnsignedInt (w3 * 255) = some q3)
    (h0 : q0 ≤ 255) (h1 : q1 ≤ 255) (h2 : q2 ≤ 255) (h3 : q3 ≤ 255) :
    packWeights ⟨[w0, w1, w2, w3], Bones⟩ =
      some (q0 + 2 ^ 8 * q1 + 2 ^ 16 * q2 + 2 ^ 24 * q3) := by
  have hr : List.range MAX_BONELINK = [0, 1, 2, 3] := rfl
  rw [packWeights, hr]
  simp only [List.foldlM_cons, List.foldlM_nil, packWeightStep, List.getElem?_cons_zero,
    List.getElem?_cons_succ, Option.bind_eq_bind, Option.some_bind, e0, e1, e2, e3,
    Option.pure_def]
  rw [or_four_bytes q0 q1 q2 q3 (by omega) (by omega) (by omega) (by omega)]

theorem packBones_of_bytes (Weights : List ℚ) (b0 b1 b2 b3 : Nat)
    (h0 : b0 ≤ 255) (h1 : b1 ≤ 255) (h2 : b2 ≤ 255) (h3 : b3 ≤ 255) :
    packBones ⟨Weights, [b0, b1, b2, b3]⟩ =
      some (b0 + 2 ^ 8 * b1 + 2 ^ 16 * b2 + 2 ^ 24 * b3) := by
  have hr : List.range MAX_BONELINK = [0, 1, 2, 3] := rfl
  have m0 : b0 % 2 ^ 32 = b0 := Nat.mod_eq_of_lt (by omega)
  have m1 : b1 % 2 ^ 32 = b1 := Nat.mod_eq_of_lt (by omega)
  have m2 : b2 % 2 ^ 32 = b2 := Nat.mod_eq_of_lt (by omega)
  have m3 : b3 % 2 ^ 32 = b3 := Nat.mod_eq_of_lt (by omega)
  rw [packBones, hr]
  simp only [List.foldlM_cons, List.foldlM_nil, packBoneStep, List.getElem?_cons_zero,
    List.getElem?_cons_succ, Option.bind_eq_bind, Option.some_bind, Option.pure_def,
    m0, m1, m2, m3]
  rw [or_four_bytes b0 b1 b2 b3 (by omega) (by omega) (by omega) (by omega)]

/-- C12. For a vertex whose four quantised weights `q_k = (unsigned int)(w_k *
255.f)` and four bone indices `b_k` are at most 255, both vertex layouts pack
the `Weights` word `q0 + 2^8 q1 + 2^16 q2 + 2^24 q3` and the `Bones` word
`b0 + 2^8 b1 + 2^16 b2 + 2^24 b3`: byte `k` of each word is the value of slot
`k`. -/
theorem C12_packed_words (w0 w1 w2 w3 : ℚ) (b0 b1 b2 b3 q0 q1 q2 q3 : Nat)
    (e0 : toUnsignedInt (w0 * 255) = some q0) (e1 : toUnsignedInt (w1 * 255) = some q1)
    (e2 : toUnsignedInt (w2 * 255) = some q2) (e3 : toUnsignedInt (w3 * 255) = some q3)
    (hq : q0 ≤ 255 ∧ q1 ≤ 255 ∧ q2 ≤ 255 ∧ q3 ≤ 255)
    (hb : b0 ≤ 255 ∧ b1 ≤ 255 ∧ b2 ≤ 255 ∧ b3 ≤ 255) :
    ∃ words,
      packNormalVertexGpuSkin ⟨[w0, w1, w2, w3], [b0, b1, b2, b3]⟩ = some words ∧
      packNormalTexVertexGpuSkin ⟨[w0, w1, w2, w3], [b0, b1, b2, b3]⟩ = some words ∧
      words.Weights = q0 * 2 ^ (8 * 0) + q1 * 2 ^ (8 * 1) + q2 * 2 ^ (8 * 2) + q3 * 2 ^ (8 * 3) ∧
      words.Bones = b0 * 2 ^ (8 * 0) + b1 * 2 ^ (8 * 1) + b2 * 2 ^ (8 * 2) + b3 * 2 ^ (8 * 3) ∧
      (byteOf words.Weights 0 = q0 ∧ byteOf words.Weights 1 = q1 ∧
        byteOf words.Weights 2 = q2 ∧ byteOf words.Weights 3 = q3) ∧
      (byteOf words.Bones 0 = b0 ∧ byteOf words.Bones 1 = b1 ∧
        byteOf words.Bones 2 = b2 ∧ byteOf words.Bones 3 = b3) := by
  obtain ⟨hq0, hq1, hq2, hq3⟩ := hq
  obtain ⟨hb0, hb1, hb2, hb3⟩ := hb
  have hW := packWeights_of_quantized w0 w1 w2 w3 [b0, b1, b2, b3] q0 q1 q2 q3 e0 e1 e2 e3
    hq0 hq1 hq2 hq3
  have hB := packBones_of_bytes [w0, w1, w2, w3] b0 b1 b2 b3 hb0 hb1 hb2 hb3
  refine ⟨⟨q0 + 2 ^ 8 * q1 + 2 ^ 16 * q2 + 2 ^ 24 * q3,
    b0 + 2 ^ 8 * b1 + 2 ^ 16 * b2 + 2 ^ 24 * b3⟩, ?_, ?_, ?_, ?_, ?_, ?_⟩
  · simp [packNormalVertexGpuSkin, hW, hB]
  · simp [packNormalTexVertexGpuSkin, hW, hB]
  · simp only []; omega
  · simp only []; omega
  · exact byteOf_four_bytes q0 q1 q2 q3 (by omega) (by omega) (by omega) (by omega)
  · exact byteOf_four_bytes b0 b1 b2 b3 (by omega) (by omega) (by omega) (by omega)

theorem toUnsignedInt_eq (x : ℚ) (q : Nat) (h0 : (q : ℚ) ≤ x) (h1 : x < (q : ℚ) + 1)
    (hq : q < 2 ^ 32 - 1) : toUnsignedInt x = some q := by
  have hfloor : ⌊x⌋ = (q : Int) := by
    rw [Int.floor_eq_iff]
    exact ⟨by exact_mod_cast h0, by exact_mod_cast h1⟩
  have hq0 : (0 : ℚ) ≤ (q : ℚ) := Nat.cast_nonneg q
  have hq2 : (q : ℚ) + 1 < 2 ^ 32 := by
    have : (q : ℚ) + 1 < ((2 ^ 32 : Nat) : ℚ) := by
      have h3 : q + 1 < 2 ^ 32 := by omega
      exact_mod_cast h3
    simpa using this
  have hr : -1 < x ∧ x < 2 ^ 32 := ⟨by linarith, by linarith⟩
  simp [toUnsignedInt, hr, hfloor]

/-- Witness for C12: weights `[0.5, 0.25, 0.25, 0]` (quantised to 127, 63, 63,
0) and bones `[1, 2, 0, 0]`. -/
theorem C12_packed_words_witness :
    (toUnsignedInt ((1 / 2 : ℚ) * 255) = some 127 ∧ toUnsignedInt ((1 / 4 : ℚ) * 255) = some 63 ∧
      toUnsignedInt ((0 : ℚ) * 255) = some 0 ∧
      ((127 ≤ 255 ∧ 63 ≤ 255 ∧ 63 ≤ 255 ∧ 0 ≤ 255) ∧ (1 ≤ 255 ∧ 2 ≤ 255 ∧ 0 ≤ 255 ∧ 0 ≤ 255))) ∧
    (∃ words,
      packNormalVertexGpuSkin ⟨[1 / 2, 1 / 4, 1 / 4, 0], [1, 2, 0, 0]⟩ = some words ∧
      packNormalTexVertexGpuSkin ⟨[1 / 2, 1 / 4, 1 / 4, 0], [1, 2, 0, 0]⟩ = some words ∧
      words.Weights =
        127 * 2 ^ (8 * 0) + 63 * 2 ^ (8 * 1) + 63 * 2 ^ (8 * 2) + 0 * 2 ^ (8 * 3) ∧
      words.Bones = 1 * 2 ^ (8 * 0) + 2 * 2 ^ (8 * 1) + 0 * 2 ^ (8 * 2) + 0 * 2 ^ (8 * 3) ∧
      (byteOf words.Weights 0 = 127 ∧ byteOf words.Weights 1 = 63 ∧
        byteOf words.Weights 2 = 63 ∧ byteOf words.Weights 3 = 0) ∧
      (byteOf words.Bones 0 = 1 ∧ byteOf words.Bones 1 = 2 ∧
        byteOf words.Bones 2 = 0 ∧ byteOf words.Bones 3 = 0)) :=
  ⟨⟨toUnsignedInt_eq _ 127 (by norm_num) (by norm_num) (by norm_num),
      toUnsignedInt_eq _ 63 (by norm_num) (by norm_num) (by norm_num),
      toUnsignedInt_eq _ 0 (by norm_num) (by norm_num) (by norm_num),
      ⟨by decide, by decide⟩⟩,
    C12_packed_words (1 / 2) (1 / 4) (1 / 4) 0 1 2 0 0 127 63 63 0
      (toUnsignedInt_eq _ 127 (by norm_num) (by norm_num) (by norm_num))
      (toUnsignedInt_eq _ 63 (by norm_num) (by norm_num) (by norm_num))
      (toUnsignedInt_eq _ 63 (by norm_num) (by norm_num) (by norm_num))
      (toUnsignedInt_eq _ 0 (by norm_num) (by norm_num) (by norm_num))
      (by decide) (by decide)⟩

/-! ### Slots of a vertex after the remap and the padding -/

theorem remapSlotsFrom_lengths (m : List (String × BoneIndexInfo)) (BL : List BoneInf) :
    ∀ (s : Nat) (skin : SkinInfo),
      (remapSlotsFrom m s BL skin).Weights.length = skin.Weights.length ∧
      (remapSlotsFrom m s BL skin).Bones.length = skin.Bones.length := by
  induction BL with
  | nil => intro s skin; exact ⟨rfl, rfl⟩
  | cons inf rest ih =>
    intro s skin
    simp only [remapSlotsFrom]
    obtain ⟨hw, hb⟩ := ih (s + 1) (remapSlot m skin s inf)
    rw [hw, hb, remapSlot_weights, remapSlot_bones_length, List.length_set]
    exact ⟨rfl, rfl⟩

theorem padSlots_succ (r : Nat) (skin : SkinInfo) :
    padSlots (r + 1) skin =
      { Weights := (padSlots r skin).Weights.set (3 - r) 0,
        Bones := (padSlots r skin).Bones.set (3 - r) 0 } := by
  simp only [padSlots, List.range_succ, List.foldl_append, List.foldl_cons, List.foldl_nil]

theorem padSlots_lengths (skin : SkinInfo) :
    ∀ r, (padSlots r skin).Weights.length = skin.Weights.length ∧
      (padSlots r skin).Bones.length = skin.Bones.length := by
  intro r
  induction r with
  | zero => exact ⟨rfl, rfl⟩
  | succ r ih =>
    rw [padSlots_succ]
    simp only [List.length_set]
    exact ih

theorem padSlots_high (skin : SkinInfo) (hw : skin.Weights.length = 4)
    (hb : skin.Bones.length = 4) (j : Nat) (hj : j < 4) :
    ∀ r, r ≤ 4 → 4 ≤ j + r →
      (padSlots r skin).Weights[j]? = some 0 ∧ (padSlots r skin).Bones[j]? = some 0 := by
  intro r
  induction r with
  | zero => intro _ h; omega
  | succ r ih =>
    intro hr h
    rw [padSlots_succ]
    obtain ⟨lw, lb⟩ := padSlots_lengths skin r
    by_cases hjr : j = 3 - r
    · subst hjr
      simp only [List.getElem?_set, lw, lb, hw, hb]
      have : 3 - r < 4 := by omega
      simp [this]
    · obtain ⟨iw, ib⟩ := ih (by omega) (by omega)
      have hne : 3 - r ≠ j := fun e => hjr e.symm
      simp only []
      rw [List.getElem?_set_ne hne, List.getElem?_set_ne hne]
      exact ⟨iw, ib⟩

theorem remapSlotsFrom_bones_at_slot (m : List (String × BoneIndexInfo)) (BL : List BoneInf) :
    ∀ (s : Nat) (skin : SkinInfo) (k : Nat) (inf : BoneInf),
      BL[k]? = some inf → s + k < skin.Bones.length → skin.Bones[s + k]? = some 0 →
      (remapSlotsFrom m s BL skin).Bones[s + k]? = some (slotBone m inf) := by
  intro s skin k inf hk hlen hzero
  cases hf : mapFind m inf.BoneName with
  | some L =>
    rw [remapSlotsFrom_bones_at m BL s skin k inf L hk hf hlen]
    simp [slotBone, hf]
  | none =>
    have hgen : ∀ (BL : List BoneInf) (s : Nat) (skin : SkinInfo) (k : Nat),
        BL[k]? = some inf →
        (remapSlotsFrom m s BL skin).Bones[s + k]? = skin.Bones[s + k]? := by
      intro BL
      induction BL with
      | nil => intro s skin k h; simp at h
      | cons x rest ih =>
        intro s skin k h
        simp only [remapSlotsFrom]
        cases k with
        | zero =>
          simp only [List.getElem?_cons_zero, Option.some.injEq] at h
          subst h
          change (remapSlotsFrom m (s + 1) rest (remapSlot m skin s x)).Bones[s]? = skin.Bones[s]?
          rw [remapSlotsFrom_bones_low m rest (s + 1) _ s (by omega), remapSlot_bones, hf]
        | succ k =>
          simp only [List.getElem?_cons_succ] at h
          have := ih (s + 1) (remapSlot m skin s x) k h
          rw [show s + (k + 1) = s + 1 + k by omega, this, remapSlot_bones]
          cases mapFind m x.BoneName with
          | none => rfl
          | some L => simp only []; rw [List.getElem?_set_ne (by omega)]
    rw [hgen BL s skin k hk, hzero]
    simp [slotBone, hf]

/-- The slots of a vertex with at most 4 kept influences, on a new mesh: slot
`k` below the number of influences holds the weight of influence `k` and its
bone index; the slots from there to 3 hold weight 0 and bone 0. -/
theorem remapVertex_slots (m : List (String × BoneIndexInfo)) (V : VertexSkinInfo)
    (hle : V.BoneLink.length ≤ 4) :
    (remapVertex m V SkinInfo.zero).Weights.length = 4 ∧
    (remapVertex m V SkinInfo.zero).Bones.length = 4 ∧
    (∀ (k : Nat) (inf : BoneInf), V.BoneLink[k]? = some inf →
      (remapVertex m V SkinInfo.zero).Weights[k]? = some inf.Weight ∧
      (remapVertex m V SkinInfo.zero).Bones[k]? = some (slotBone m inf)) ∧
    (∀ k : Nat, V.BoneLink.length ≤ k → k < 4 →
      (remapVertex m V SkinInfo.zero).Weights[k]? = some 0 ∧
      (remapVertex m V SkinInfo.zero).Bones[k]? = some 0) := by
  obtain ⟨lw, lb⟩ := remapSlotsFrom_lengths m V.BoneLink 0 SkinInfo.zero
  have lw4 : (remapSlotsFrom m 0 V.BoneLink SkinInfo.zero).Weights.length = 4 := by
    rw [lw]; rfl
  have lb4 : (remapSlotsFrom m 0 V.BoneLink SkinInfo.zero).Bones.length = 4 := by
    rw [lb]; rfl
  obtain ⟨pw, pb⟩ := padSlots_lengths (remapSlotsFrom m 0 V.BoneLink SkinInfo.zero)
    (4 - V.BoneLink.length)
  refine ⟨by rw [remapVertex, pw, lw4], by rw [remapVertex, pb, lb4], ?_, ?_⟩
  · intro k inf hk
    have hklt : k < V.BoneLink.length := by
      by_contra hcon
      have : V.BoneLink[k]? = none := List.getElem?_eq_none (by omega)
      rw [this] at hk
      exact Option.noConfusion hk
    simp only [remapVertex]
    obtain ⟨h1, h2⟩ := padSlots_low (remapSlotsFrom m 0 V.BoneLink SkinInfo.zero) k
      (4 - V.BoneLink.length) (by omega)
    rw [h1, h2]
    have hz : SkinInfo.zero.Bones[0 + k]? = some 0 := by
      have hk4 : k < 4 := by omega
      have : k = 0 ∨ k = 1 ∨ k = 2 ∨ k = 3 := by omega
      rcases this with h | h | h | h <;> subst h <;> rfl
    have a1 := remapSlotsFrom_weights_at m V.BoneLink 0 SkinInfo.zero k inf hk
      (by simp [SkinInfo.zero]; omega)
    have a2 := remapSlotsFrom_bones_at_slot m V.BoneLink 0 SkinInfo.zero k inf hk
      (by simp [SkinInfo.zero]; omega) hz
    simp only [Nat.zero_add] at a1 a2
    exact ⟨a1, a2⟩
  · intro k hk hk4
    simp only [remapVertex]
    exact padSlots_high _ lw4 lb4 k hk4 (4 - V.BoneLink.length) (by omega) (by omega)

theorem trimAll_length_le (sortInf : List BoneInf → List BoneInf)
    (hsortInf : IsStdSort BoneInf.lt sortInf) (T : List VertexSkinInfo) (Vert : Nat)
    (Vertex : VertexSkinInfo) (hV : (trimAll sortInf T)[Vert]? = some Vertex) :
    Vertex.BoneLink.length ≤ 4 := by
  have hmem := List.getElem?_mem hV
  simp only [trimAll, List.mem_map] at hmem
  obtain ⟨V0, -, hV0⟩ := hmem
  rw [← hV0]
  exact trimInfluences_length_le sortInf hsortInf.length_eq _

theorem importSkin_skinInfo (sortInf : List BoneInf → List BoneInf)
    (sortBones : List BoneIndexInfo → List BoneIndexInfo) (T : List VertexSkinInfo)
    (Importer : FbxFileImporter) (Vert : Nat) (Vertex : VertexSkinInfo)
    (hV : (trimAll sortInf T)[Vert]? = some Vertex) :
    (importSkin sortInf sortBones T Importer)._SkinInfoArray[Vert]? =
      some (remapVertex (resolveBones sortBones (trimAll sortInf T) Importer).BoneIndexMap
        Vertex SkinInfo.zero) := by
  have hskin : (importSkin sortInf sortBones T Importer)._SkinInfoArray =
      (trimAll sortInf T).map (fun Vertex =>
        remapVertex (resolveBones sortBones (trimAll sortInf T)
          Importer).BoneIndexMap Vertex SkinInfo.zero) := rfl
  rw [hskin, List.getElem?_map, hV]
  rfl

/-- C20. After the import of a skinned mesh (on a new `SkeletalMesh`), a vertex
with `m` kept influences has `m ≤ 4`; the slots `m..3` of its `SkinInfo` hold
weight 0 and bone index 0, and each slot `k < m` holds what the remap loop
wrote from kept influence `k`: its weight, and the `Index` of the registry
entry of its bone (0 when the bone is not in the registry). -/
theorem C20_slot_padding (sortInf : List BoneInf → List BoneInf)
    (sortBones : List BoneIndexInfo → List BoneIndexInfo)
    (hsortInf : IsStdSort BoneInf.lt sortInf) (SkinInfoArray : List VertexSkinInfo)
    (Importer : FbxFileImporter) (Vert : Nat) (Vertex : VertexSkinInfo)
    (hV : (trimAll sortInf SkinInfoArray)[Vert]? = some Vertex) :
    Vertex.BoneLink.length ≤ 4 ∧
    ∃ skin, (importSkin sortInf sortBones SkinInfoArray Importer)._SkinInfoArray[Vert]? =
        some skin ∧
      skin.Weights.length = 4 ∧ skin.Bones.length = 4 ∧
      (∀ k : Nat, Vertex.BoneLink.length ≤ k → k < 4 →
        skin.Weights[k]? = some 0 ∧ skin.Bones[k]? = some 0) ∧
      (∀ (k : Nat) (inf : BoneInf), Vertex.BoneLink[k]? = some inf →
        skin.Weights[k]? = some inf.Weight ∧
        skin.Bones[k]? = some (slotBone
          (importSkin sortInf sortBones SkinInfoArray Importer).Importer.BoneIndexMap inf)) := by
  have hle := trimAll_length_le sortInf hsortInf SkinInfoArray Vert Vertex hV
  obtain ⟨lw, lb, hat, hpad⟩ := remapVertex_slots
    (resolveBones sortBones (trimAll sortInf SkinInfoArray) Importer).BoneIndexMap Vertex hle
  refine ⟨hle, _, importSkin_skinInfo sortInf sortBones SkinInfoArray Importer Vert Vertex hV,
    lw, lb, hpad, ?_⟩
  intro k inf hk
  rw [importSkin_importer]
  exact hat k inf hk

/-- Witness for C20: vertex 0 of Scenario C has two kept influences; its
weights are `[1/2, 1/2, 0, 0]` and its bones `[2, 0, 0, 0]`. -/
theorem C20_slot_padding_witness :
    (IsStdSort BoneInf.lt sortBoneInf ∧
      (trimAll sortBoneInf scenarioCTable)[0]? =
        some ⟨[⟨"bone7", 1 / 2⟩, ⟨"bone2", 1 / 2⟩]⟩) ∧
    (([⟨"bone7", 1 / 2⟩, ⟨"bone2", 1 / 2⟩] : List BoneInf).length ≤ 4 ∧
      ∃ skin, (importSkin sortBoneInf sortBoneIndexInfo scenarioCTable
          scenarioCImporter)._SkinInfoArray[0]? = some skin ∧
        skin.Weights.length = 4 ∧ skin.Bones.length = 4 ∧
        (∀ k : Nat, ([⟨"bone7", 1 / 2⟩, ⟨"bone2", 1 / 2⟩] : List BoneInf).length ≤ k → k < 4 →
          skin.Weights[k]? = some 0 ∧ skin.Bones[k]? = some 0) ∧
        (∀ (k : Nat) (inf : BoneInf),
          ([⟨"bone7", 1 / 2⟩, ⟨"bone2", 1 / 2⟩] : List BoneInf)[k]? = some inf →
          skin.Weights[k]? = some inf.Weight ∧
          skin.Bones[k]? = some (slotBone
            (importSkin sortBoneInf sortBoneIndexInfo scenarioCTable
              scenarioCImporter).Importer.BoneIndexMap inf))) ∧
    (importSkin sortBoneInf sortBoneIndexInfo scenarioCTable
        scenarioCImporter)._SkinInfoArray[0]? = some ⟨[1 / 2, 1 / 2, 0, 0], [2, 0, 0, 0]⟩ :=
  ⟨⟨sortBoneInf_isStdSort, rfl⟩,
    C20_slot_padding sortBoneInf sortBoneIndexInfo sortBoneInf_isStdSort scenarioCTable
      scenarioCImporter 0 ⟨[⟨"bone7", 1 / 2⟩, ⟨"bone2", 1 / 2⟩]⟩ rfl,
    by rfl⟩

/-! ### Control flow -/

theorem WeightTotal_trimInfluences (sort : List BoneInf → List BoneInf)
    (hsort : IsStdSort BoneInf.lt sort) (BoneLink : List BoneInf) :
    WeightTotal (trimInfluences sort BoneLink) = WeightTotal BoneLink := by
  by_cases h : 4 < BoneLink.length
  · have hlen := hsort.length_eq
    have hs : 4 < (sort BoneLink).length := by rw [hlen]; exact h
    rw [trimInfluences_gt sort hlen BoneLink h, WeightTotal_eq_weightSum,
      WeightTotal_eq_weightSum, weightSum_map_bump, ← weightSum_perm (hsort BoneLink).1,
      ← weightSum_take_add_drop 4 (sort BoneLink)]
    have h4 : ((sort BoneLink).take 4).length = 4 := by simp; omega
    rw [h4]; push_cast; ring
  · simp [trimInfluences, h]

theorem roundHalfEven_intCast (n : ℤ) : roundHalfEven (n : ℚ) = n := by
  simp [roundHalfEven]

theorem roundHalfEven_eq (y : ℚ) (n : ℤ) (h1 : (n : ℚ) - 1 / 2 < y)
    (h2 : y < (n : ℚ) + 1 / 2) : roundHalfEven y = n := by
  simp only [roundHalfEven]
  by_cases hy : (n : ℚ) ≤ y
  · have hf : ⌊y⌋ = n := Int.floor_eq_iff.mpr ⟨hy, by linarith⟩
    rw [hf, if_pos (by linarith)]
  · have hf : ⌊y⌋ = n - 1 :=
      Int.floor_eq_iff.mpr ⟨by push_cast; linarith, by push_cast; linarith⟩
    rw [hf]
    push_cast
    rw [if_neg (by linarith), if_pos (by linarith)]
    ring

theorem roundHalfEven_tie (y : ℚ) (n : ℤ) (hy : y = (n : ℚ) + 1 / 2) (heven : n % 2 = 0) :
    roundHalfEven y = n := by
  have hf : ⌊y⌋ = n := Int.floor_eq_iff.mpr ⟨by linarith, by linarith⟩
  simp only [roundHalfEven, hf]
  rw [if_neg (by linarith), if_neg (by linarith), if_pos heven]

theorem log_two_eq (x : ℚ) (E : ℤ) (h1 : (2 : ℚ) ^ E ≤ |x|) (h2 : |x| < (2 : ℚ) ^ (E + 1)) :
    Int.log 2 |x| = E := by
  have hpos : 0 < |x| := lt_of_lt_of_le (zpow_pos (by norm_num) E) h1
  have a : E ≤ Int.log 2 |x| := (Int.zpow_le_iff_le_log (by norm_num) hpos).mp h1
  have b : Int.log 2 |x| < E + 1 := (Int.lt_zpow_iff_log_lt (by norm_num) hpos).mp h2
  omega

/-- The `float` nearest to a value with binary exponent `E` is `n` units of the
last place, `n` the integer nearest to the value in these units. -/
theorem Float32.ofRat_eq (x : ℚ) (E n : ℤ) (h1 : (2 : ℚ) ^ E ≤ |x|)
    (h2 : |x| < (2 : ℚ) ^ (E + 1))
    (hn : roundHalfEven (x / 2 ^ (max (E - 23) (-149))) = n)
    (hfin : |(n : ℚ) * 2 ^ (max (E - 23) (-149))| < 2 ^ (128 : ℕ)) :
    Float32.ofRat x = Float32.finite ((n : ℚ) * 2 ^ (max (E - 23) (-149))) := by
  have hpos : 0 < |x| := lt_of_lt_of_le (zpow_pos (by norm_num) E) h1
  have hx0 : x ≠ 0 := abs_pos.mp hpos
  simp only [Float32.ofRat, if_neg hx0, log_two_eq x E h1 h2, hn, if_neg (not_le.mpr hfin)]

/-- A value `m * 2 ^ e` with a significand of at most 24 bits and an exponent
in range is a `float`: rounding returns it. -/
theorem Float32.ofRat_exact (m e : ℤ) (hm : |m| < 2 ^ 24) (he : -149 ≤ e)
    (hfin : |(m : ℚ) * 2 ^ e| < 2 ^ (128 : ℕ)) :
    Float32.ofRat ((m : ℚ) * 2 ^ e) = Float32.finite ((m : ℚ) * 2 ^ e) := by
  by_cases h0 : (m : ℚ) * 2 ^ e = 0
  · simp [Float32.ofRat, h0]
  · have hpos : 0 < |(m : ℚ) * 2 ^ e| := abs_pos.mpr h0
    have h2pos : (0 : ℚ) < 2 ^ e := zpow_pos (by norm_num) e
    have hlog : Int.log 2 |(m : ℚ) * 2 ^ e| < e + 24 := by
      rw [← Int.lt_zpow_iff_log_lt (by norm_num) hpos]
      rw [abs_mul, abs_of_pos h2pos, add_comm, zpow_add₀ (by norm_num)]
      have hmq : |(m : ℚ)| < 2 ^ (24 : ℤ) := by
        have : ((|m| : ℤ) : ℚ) < ((2 ^ 24 : ℤ) : ℚ) := by exact_mod_cast hm
        rw [Int.cast_abs] at this
        norm_num at this ⊢
        exact this
      push_cast
      exact mul_lt_mul_of_pos_right hmq h2pos
    have hqe : max (Int.log 2 |(m : ℚ) * 2 ^ e| - 23) (-149) ≤ e := max_le (by omega) he
    obtain ⟨k, hk⟩ := Int.eq_ofNat_of_zero_le (sub_nonneg.mpr hqe)
    have he2 : e = max (Int.log 2 |(m : ℚ) * 2 ^ e| - 23) (-149) + k := by omega
    have hqpos : (0 : ℚ) < 2 ^ (max (Int.log 2 |(m : ℚ) * 2 ^ e| - 23) (-149)) :=
      zpow_pos (by norm_num) _
    have hdiv : (m : ℚ) * 2 ^ e / 2 ^ (max (Int.log 2 |(m : ℚ) * 2 ^ e| - 23) (-149)) =
        ((m * 2 ^ k : ℤ) : ℚ) := by
      rw [div_eq_iff hqpos.ne.symm]
      nth_rewrite 1 [he2]
      rw [zpow_add₀ (by norm_num), zpow_natCast]
      push_cast
      ring
    have hr : ((m * 2 ^ k : ℤ) : ℚ) * 2 ^ (max (Int.log 2 |(m : ℚ) * 2 ^ e| - 23) (-149)) =
        (m : ℚ) * 2 ^ e := by
      rw [← hdiv]
      field_simp
    simp only [Float32.ofRat, if_neg h0, hdiv, roundHalfEven_intCast, hr,
      if_neg (not_le.mpr hfin)]

theorem Float32.ofRat_one : Float32.ofRat 1 = Float32.finite 1 := by
  have := Float32.ofRat_exact 1 0 (by norm_num) (by norm_num) (by norm_num)
  simpa using this

theorem Float32.ofRat_half : Float32.ofRat (1 / 2) = Float32.finite (1 / 2) := by
  have := Float32.ofRat_exact 1 (-1) (by norm_num) (by norm_num) (by norm_num [abs_of_pos])
  norm_num at this
  simpa using this

/-- The constant `0.999f` is the `float` nearest to 0.999. -/
theorem Float32.ofRat_0999 : Float32.ofRat (999 / 1000) = Float32.finite float0999 := by
  have := Float32.ofRat_eq (999 / 1000) (-1) 16760439 (by norm_num [abs_of_pos])
    (by norm_num [abs_of_pos]) (roundHalfEven_eq _ _ (by norm_num) (by norm_num))
    (by norm_num [abs_of_pos])
  rw [this, float0999]
  norm_num

theorem Float32.add_finite (a b : ℚ) :
    Float32.add (Float32.finite a) (Float32.finite b) = Float32.ofRat (a + b) := rfl

/-- For a vertex with at most 4 influences nothing is compacted: the assertion
is evaluated on the raw weights. -/
theorem weightCheck_of_le_four (sort : List BoneInf → List BoneInf) (BoneLink : List BoneInf)
    (h : BoneLink.length ≤ 4) : weightCheck sort BoneLink = weightAssert BoneLink := by
  have hn : ¬ BoneLink.length > 4 := by omega
  simp only [weightCheck, weightAssert, compactedWeights, if_neg hn]

theorem weightAssert_nil : weightAssert [] = false := by
  simp [weightAssert, weightTotalF32, Float32.ge, float0999]

theorem Float32.ge_finite (a c : ℚ) : Float32.ge (Float32.finite a) c = decide (c ≤ a) := rfl

theorem weightAssert_one_entry (n0 : String) (w0 : ℚ) :
    weightAssert [⟨n0, w0⟩] =
      Float32.ge (Float32.add (Float32.finite 0) (Float32.ofRat w0)) float0999 := rfl

theorem weightAssert_two_entries (n0 n1 : String) (w0 w1 : ℚ) :
    weightAssert [⟨n0, w0⟩, ⟨n1, w1⟩] =
      Float32.ge (Float32.add (Float32.add (Float32.finite 0) (Float32.ofRat w0))
        (Float32.ofRat w1)) float0999 := rfl

theorem weightAssert_three_entries (n0 n1 n2 : String) (w0 w1 w2 : ℚ) :
    weightAssert [⟨n0, w0⟩, ⟨n1, w1⟩, ⟨n2, w2⟩] =
      Float32.ge (Float32.add (Float32.add (Float32.add (Float32.finite 0) (Float32.ofRat w0))
        (Float32.ofRat w1)) (Float32.ofRat w2)) float0999 := rfl

theorem weightAssert_one (nm : String) : weightAssert [⟨nm, 1⟩] = true := by
  rw [weightAssert_one_entry, Float32.ofRat_one, Float32.add_finite, zero_add,
    Float32.ofRat_one, Float32.ge_finite, decide_eq_true_eq, float0999]
  norm_num

theorem weightAssert_half (nm : String) : weightAssert [⟨nm, 1 / 2⟩] = false := by
  rw [weightAssert_one_entry, Float32.ofRat_half, Float32.add_finite, zero_add,
    Float32.ofRat_half, Float32.ge_finite, decide_eq_false_iff_not, float0999]
  norm_num

theorem ofRat_16760438 :
    Float32.ofRat (16760438 / 16777216) = Float32.finite (16760438 / 16777216) := by
  have := Float32.ofRat_exact 16760438 (-24) (by norm_num) (by norm_num)
    (by norm_num [abs_of_pos])
  norm_num at this ⊢
  exact this

/-- Two `float` weights whose exact sum is below 0.999 while their `float` sum is
`0.999f`: the assertion holds. -/
theorem weightAssert_roundedUp :
    weightAssert [⟨"bone2", 16760438 / 16777216⟩, ⟨"bone5", 32769 / 1099511627776⟩] = true := by
  have h2 : Float32.ofRat (32769 / 1099511627776) =
      Float32.finite (32769 / 1099511627776) := by
    have := Float32.ofRat_exact 32769 (-40) (by norm_num) (by norm_num)
      (by norm_num [abs_of_pos])
    norm_num at this ⊢
    exact this
  have h3 : Float32.ofRat (16760438 / 16777216 + 32769 / 1099511627776) =
      Float32.finite float0999 := by
    have := Float32.ofRat_eq (16760438 / 16777216 + 32769 / 1099511627776) (-1) 16760439
      (by norm_num [abs_of_pos]) (by norm_num [abs_of_pos])
      (roundHalfEven_eq _ _ (by norm_num) (by norm_num)) (by norm_num [abs_of_pos])
    rw [this, float0999]
    norm_num
  rw [weightAssert_two_entries, ofRat_16760438, h2, Float32.add_finite, zero_add,
    ofRat_16760438, Float32.add_finite, h3, Float32.ge_finite, decide_eq_true_eq]

/-- Three `float` weights whose exact sum is above 0.999 while their `float` sum,
rounded twice, is one place below `0.999f`: the assertion fails. -/
theorem weightAssert_roundedDown :
    weightAssert [⟨"bone2", 1 / 2⟩, ⟨"bone5", 8388609 / 33554432⟩,
      ⟨"bone7", 16710106 / 67108864⟩] = false := by
  have h2 : Float32.ofRat (8388609 / 33554432) = Float32.finite (8388609 / 33554432) := by
    have := Float32.ofRat_exact 8388609 (-25) (by norm_num) (by norm_num)
      (by norm_num [abs_of_pos])
    norm_num at this ⊢
    exact this
  have h3 : Float32.ofRat (16710106 / 67108864) = Float32.finite (16710106 / 67108864) := by
    have := Float32.ofRat_exact 16710106 (-26) (by norm_num) (by norm_num)
      (by norm_num [abs_of_pos])
    norm_num at this ⊢
    exact this
  have h4 : Float32.ofRat (1 / 2 + 8388609 / 33554432) = Float32.finite (3 / 4) := by
    have := Float32.ofRat_eq (1 / 2 + 8388609 / 33554432) (-1) 12582912
      (by norm_num [abs_of_pos]) (by norm_num [abs_of_pos])
      (roundHalfEven_tie _ _ (by norm_num) (by norm_num)) (by norm_num [abs_of_pos])
    rw [this]
    norm_num
  have h5 : Float32.ofRat (3 / 4 + 16710106 / 67108864) =
      Float32.finite (16760438 / 16777216) := by
    have := Float32.ofRat_eq (3 / 4 + 16710106 / 67108864) (-1) 16760438
      (by norm_num [abs_of_pos]) (by norm_num [abs_of_pos])
      (roundHalfEven_tie _ _ (by norm_num) (by norm_num)) (by norm_num [abs_of_pos])
    rw [this]
    norm_num
  rw [weightAssert_three_entries, Float32.ofRat_half, h2, h3, Float32.add_finite, zero_add,
    Float32.ofRat_half, Float32.add_finite, h4, Float32.add_finite, h5, Float32.ge_finite,
    decide_eq_false_iff_not, float0999]
  norm_num

theorem importMesh_skinnedRun (NDEBUG : Bool) (sortInf : List BoneInf → List BoneInf)
    (sortBones : List BoneIndexInfo → List BoneIndexInfo) (T : List VertexSkinInfo)
    (Importer : FbxFileImporter) :
    importMesh NDEBUG sortInf sortBones (skinnedRun T) Importer =
      match skinBlock NDEBUG sortInf sortBones T Importer with
      | none => ImportOutcome.aborted
      | some skin => ImportOutcome.returned true (some skin) := by
  simp only [importMesh, skinnedRun]
  cases skinBlock NDEBUG sortInf sortBones T Importer <;> simp

theorem skinBlock_debug (sortInf : List BoneInf → List BoneInf)
    (sortBones : List BoneIndexInfo → List BoneIndexInfo) (T : List VertexSkinInfo)
    (Importer : FbxFileImporter) :
    (skinBlock false sortInf sortBones T Importer = none ↔
      ∃ V ∈ T, weightCheck sortInf V.BoneLink = false) ∧
    ((∀ V ∈ T, weightCheck sortInf V.BoneLink = true) →
      skinBlock false sortInf sortBones T Importer =
        some (importSkin sortInf sortBones T Importer)) := by
  have hiff : T.all (fun Vertex => weightCheck sortInf Vertex.BoneLink) = true ↔
      ∀ V ∈ T, weightCheck sortInf V.BoneLink = true := List.all_eq_true
  constructor
  · constructor
    · intro h
      by_contra hcon
      have hall : ∀ V ∈ T, weightCheck sortInf V.BoneLink = true := by
        intro V hV
        by_contra hne
        exact hcon ⟨V, hV, Bool.eq_false_iff.mpr hne⟩
      rw [skinBlock, Bool.false_or, if_pos (hiff.mpr hall)] at h
      exact Option.noConfusion h
    · rintro ⟨V, hV, hfalse⟩
      have hnot : ¬ T.all (fun Vertex => weightCheck sortInf Vertex.BoneLink) = true := by
        intro hall
        have := hiff.mp hall V hV
        rw [hfalse] at this
        exact Bool.noConfusion this
      rw [skinBlock, Bool.false_or, if_neg hnot]
  · intro hall
    rw [skinBlock, Bool.false_or, if_pos (hiff.mpr hall)]

theorem skinBlock_release (sortInf : List BoneInf → List BoneInf)
    (sortBones : List BoneIndexInfo → List BoneIndexInfo) (T : List VertexSkinInfo)
    (Importer : FbxFileImporter) :
    skinBlock true sortInf sortBones T Importer =
      some (importSkin sortInf sortBones T Importer) := by
  rw [skinBlock, Bool.true_or, if_pos rfl]

/-- C13 (as amended). The weight-sum check is the `assert` of line 467, made
for every vertex of a skinned mesh on the `float` sum of its compacted
weights. For a call whose node exists and whose buffers are created: in a
build with assertions the program is aborted if and only if the comparison
`WeightTotal >= 0.999f` fails for some vertex, and otherwise the function
returns `true`; in a build with `NDEBUG` nothing is checked and the function
returns `true`. A failure is never returned to the caller. For a vertex with
at most 4 influences the comparison is made on the raw weights. -/
theorem C13_weight_check_is_assert (sortInf : List BoneInf → List BoneInf)
    (sortBones : List BoneIndexInfo → List BoneIndexInfo) (run : ImportRun)
    (Importer : FbxFileImporter) (table : List VertexSkinInfo) (hnode : run.hasNode = true)
    (hskin : run.SkinInfoArray = some table)
    (hvb : (run.mHasNormal && run.vertexBufferFailed) = false)
    (hib : run.indexBufferFailed = false) :
    (importMesh false sortInf sortBones run Importer = ImportOutcome.aborted ↔
      ∃ V ∈ table, weightCheck sortInf V.BoneLink = false) ∧
    ((∀ V ∈ table, weightCheck sortInf V.BoneLink = true) →
      (importMesh false sortInf sortBones run Importer).result = some true) ∧
    (importMesh true sortInf sortBones run Importer).result = some true ∧
    (∀ NDEBUG, (importMesh NDEBUG sortInf sortBones run Importer).result ≠ some false) ∧
    ∀ V ∈ table, V.BoneLink.length ≤ 4 →
      weightCheck sortInf V.BoneLink = weightAssert V.BoneLink := by
  obtain ⟨hnone, hsome⟩ := skinBlock_debug sortInf sortBones table Importer
  have hmesh : ∀ NDEBUG, importMesh NDEBUG sortInf sortBones run Importer =
      match skinBlock NDEBUG sortInf sortBones table Importer with
      | none => ImportOutcome.aborted
      | some skin => ImportOutcome.returned true (some skin) := by
    intro NDEBUG
    simp only [importMesh, hnode, hskin, hvb, hib]
    cases skinBlock NDEBUG sortInf sortBones table Importer <;> simp
  have hrel : importMesh true sortInf sortBones run Importer =
      ImportOutcome.returned true (some (importSkin sortInf sortBones table Importer)) := by
    rw [hmesh, skinBlock_release]
  refine ⟨?_, ?_, ?_, ?_, ?_⟩
  · rw [hmesh, ← hnone]
    cases skinBlock false sortInf sortBones table Importer <;> simp
  · intro hall
    rw [hmesh, hsome hall]
    rfl
  · rw [hrel]
    rfl
  · intro NDEBUG
    cases NDEBUG with
    | true => rw [hrel]; simp [ImportOutcome.result]
    | false =>
      rw [hmesh]
      cases skinBlock false sortInf sortBones table Importer <;> simp [ImportOutcome.result]
  · intro V _ hle
    exact weightCheck_of_le_four sortInf V.BoneLink hle

/-- Witness for C13 (as amended): the mesh of Scenario C. -/
theorem C13_weight_check_is_assert_witness :
    ((skinnedRun scenarioCTable).hasNode = true ∧
      (skinnedRun scenarioCTable).SkinInfoArray = some scenarioCTable ∧
      ((skinnedRun scenarioCTable).mHasNormal &&
        (skinnedRun scenarioCTable).vertexBufferFailed) = false ∧
      (skinnedRun scenarioCTable).indexBufferFailed = false) ∧
    ((importMesh false sortBoneInf sortBoneIndexInfo (skinnedRun scenarioCTable)
        scenarioCImporter = ImportOutcome.aborted ↔
        ∃ V ∈ scenarioCTable, weightCheck sortBoneInf V.BoneLink = false) ∧
      ((∀ V ∈ scenarioCTable, weightCheck sortBoneInf V.BoneLink = true) →
        (importMesh false sortBoneInf sortBoneIndexInfo (skinnedRun scenarioCTable)
          scenarioCImporter).result = some true) ∧
      (importMesh true sortBoneInf sortBoneIndexInfo (skinnedRun scenarioCTable)
        scenarioCImporter).result = some true ∧
      (∀ NDEBUG, (importMesh NDEBUG sortBoneInf sortBoneIndexInfo (skinnedRun scenarioCTable)
        scenarioCImporter).result ≠ some false) ∧
      ∀ V ∈ scenarioCTable, V.BoneLink.length ≤ 4 →
        weightCheck sortBoneInf V.BoneLink = weightAssert V.BoneLink) :=
  ⟨⟨rfl, rfl, rfl, rfl⟩,
    C13_weight_check_is_assert sortBoneInf sortBoneIndexInfo
      (skinnedRun scenarioCTable) scenarioCImporter scenarioCTable rfl rfl rfl rfl⟩

theorem WeightTotal_halfWeightTable :
    ∀ V ∈ halfWeightTable, WeightTotal V.BoneLink < 999 / 1000 := by
  intro V hV
  simp only [halfWeightTable, List.mem_singleton] at hV
  subst hV
  norm_num [WeightTotal]

theorem importMesh_debug_aborted (sortInf : List BoneInf → List BoneInf)
    (sortBones : List BoneIndexInfo → List BoneIndexInfo) (T : List VertexSkinInfo)
    (Importer : FbxFileImporter) (V : VertexSkinInfo) (hV : V ∈ T)
    (hle : V.BoneLink.length ≤ 4) (hfalse : weightAssert V.BoneLink = false) :
    importMesh false sortInf sortBones (skinnedRun T) Importer = ImportOutcome.aborted := by
  have hblock := (skinBlock_debug sortInf sortBones T Importer).1.mpr
    ⟨V, hV, by rw [weightCheck_of_le_four sortInf V.BoneLink hle]; exact hfalse⟩
  rw [importMesh_skinnedRun, hblock]

theorem importMesh_debug_returned (sortInf : List BoneInf → List BoneInf)
    (sortBones : List BoneIndexInfo → List BoneIndexInfo) (T : List VertexSkinInfo)
    (Importer : FbxFileImporter)
    (hall : ∀ V ∈ T, V.BoneLink.length ≤ 4 ∧ weightAssert V.BoneLink = true) :
    importMesh false sortInf sortBones (skinnedRun T) Importer =
      ImportOutcome.returned true (some (importSkin sortInf sortBones T Importer)) := by
  have hblock := (skinBlock_debug sortInf sortBones T Importer).2
    (fun V hV => by
      rw [weightCheck_of_le_four sortInf V.BoneLink (hall V hV).1]; exact (hall V hV).2)
  rw [importMesh_skinnedRun, hblock]

theorem importMesh_release_returned (sortInf : List BoneInf → List BoneInf)
    (sortBones : List BoneIndexInfo → List BoneIndexInfo) (T : List VertexSkinInfo)
    (Importer : FbxFileImporter) :
    importMesh true sortInf sortBones (skinnedRun T) Importer =
      ImportOutcome.returned true (some (importSkin sortInf sortBones T Importer)) := by
  rw [importMesh_skinnedRun, skinBlock_release]

/-- Counterexample to C13 as stated. A vertex with one influence of weight 0.5
(sum below 0.999): with assertions the call is aborted by the `assert`, so
nothing is returned to the caller; with `NDEBUG` the call returns `true`; in
neither build is a failure returned. And the assertion does not test the
exact sum of the original weights: two `float` weights with an exact sum
below 0.999 pass it (their `float` sum is `0.999f`) and the call returns
`true`, and three `float` weights with an exact sum above 0.999 fail it
(their `float` sum is one place below `0.999f`) and the call is aborted. -/
theorem C13_no_failure_returned_counterexample :
    (∃ V ∈ halfWeightTable, V.BoneLink.length ≥ 1 ∧ WeightTotal V.BoneLink < 999 / 1000) ∧
    importMesh false sortBoneInf sortBoneIndexInfo (skinnedRun halfWeightTable)
      scenarioCImporter = ImportOutcome.aborted ∧
    importMesh true sortBoneInf sortBoneIndexInfo (skinnedRun halfWeightTable)
      scenarioCImporter =
      ImportOutcome.returned true
        (some (importSkin sortBoneInf sortBoneIndexInfo halfWeightTable scenarioCImporter)) ∧
    (∀ NDEBUG, (importMesh NDEBUG sortBoneInf sortBoneIndexInfo (skinnedRun halfWeightTable)
      scenarioCImporter).result ≠ some false) ∧
    ((∀ V ∈ roundedUpTable, WeightTotal V.BoneLink < 999 / 1000) ∧
      (importMesh false sortBoneInf sortBoneIndexInfo (skinnedRun roundedUpTable)
        scenarioCImporter).result = some true) ∧
    ((∀ V ∈ roundedDownTable, (999 / 1000 : ℚ) ≤ WeightTotal V.BoneLink) ∧
      importMesh false sortBoneInf sortBoneIndexInfo (skinnedRun roundedDownTable)
        scenarioCImporter = ImportOutcome.aborted) := by
  have hV : (⟨[⟨"bone2", 1 / 2⟩]⟩ : VertexSkinInfo) ∈ halfWeightTable := by
    simp [halfWeightTable]
  have h1 : importMesh false sortBoneInf sortBoneIndexInfo (skinnedRun halfWeightTable)
      scenarioCImporter = ImportOutcome.aborted :=
    importMesh_debug_aborted sortBoneInf sortBoneIndexInfo halfWeightTable scenarioCImporter
      _ hV (by simp) (weightAssert_half "bone2")
  have h2 := importMesh_release_returned sortBoneInf sortBoneIndexInfo halfWeightTable
    scenarioCImporter
  refine ⟨⟨_, hV, by simp, WeightTotal_halfWeightTable _ hV⟩, h1, h2, ?_, ⟨?_, ?_⟩, ⟨?_, ?_⟩⟩
  · intro NDEBUG
    cases NDEBUG with
    | true => rw [h2]; simp [ImportOutcome.result]
    | false => rw [h1]; simp [ImportOutcome.result]
  · intro V hV
    simp only [roundedUpTable, List.mem_singleton] at hV
    subst hV
    norm_num [WeightTotal]
  · rw [importMesh_debug_returned sortBoneInf sortBoneIndexInfo roundedUpTable
      scenarioCImporter (fun V hV => by
        simp only [roundedUpTable, List.mem_singleton] at hV
        subst hV
        exact ⟨by simp, weightAssert_roundedUp⟩)]
    rfl
  · intro V hV
    simp only [roundedDownTable, List.mem_singleton] at hV
    subst hV
    norm_num [WeightTotal]
  · exact importMesh_debug_aborted sortBoneInf sortBoneIndexInfo roundedDownTable
      scenarioCImporter ⟨[⟨"bone2", 1 / 2⟩, ⟨"bone5", 8388609 / 33554432⟩,
        ⟨"bone7", 16710106 / 67108864⟩]⟩ (by simp [roundedDownTable]) (by simp)
      weightAssert_roundedDown

theorem skinBlock_zero_influence (sortInf : List BoneInf → List BoneInf)
    (sortBones : List BoneIndexInfo → List BoneIndexInfo) (T : List VertexSkinInfo)
    (Importer : FbxFileImporter) (Vert : Nat) (hV : T[Vert]? = some ⟨[]⟩) :
    skinBlock false sortInf sortBones T Importer = none :=
  (skinBlock_debug sortInf sortBones T Importer).1.mpr
    ⟨⟨[]⟩, List.getElem?_mem hV, by
      rw [weightCheck_of_le_four sortInf [] (by simp)]; exact weightAssert_nil⟩

/-- C14 (as amended). For a vertex of a skinned mesh that has no raw influence
the assertion of line 467 is not skipped: its weight sum is 0, so in a build
with assertions the call is aborted. In a build with `NDEBUG` (no check at
all) the call proceeds and returns `true`, and the `SkinInfo` of the vertex
has weight 0 and bone index 0 in all four slots. -/
theorem C14_zero_influence_vertex (sortInf : List BoneInf → List BoneInf)
    (sortBones : List BoneIndexInfo → List BoneIndexInfo) (run : ImportRun)
    (Importer : FbxFileImporter) (table : List VertexSkinInfo) (Vert : Nat)
    (hnode : run.hasNode = true) (hskin : run.SkinInfoArray = some table)
    (hvb : (run.mHasNormal && run.vertexBufferFailed) = false)
    (hib : run.indexBufferFailed = false)
    (hV : table[Vert]? = some ⟨[]⟩) :
    importMesh false sortInf sortBones run Importer = ImportOutcome.aborted ∧
    ∃ skin, importMesh true sortInf sortBones run Importer =
        ImportOutcome.returned true (some skin) ∧
      skin._SkinInfoArray[Vert]? = some ⟨[0, 0, 0, 0], [0, 0, 0, 0]⟩ := by
  constructor
  · simp [importMesh, hnode, hskin, skinBlock_zero_influence sortInf sortBones table Importer
      Vert hV]
  · refine ⟨importSkin sortInf sortBones table Importer, ?_, ?_⟩
    · simp [importMesh, hnode, hskin, hvb, hib, skinBlock]
    · have htrim : (trimAll sortInf table)[Vert]? = some ⟨[]⟩ := by
        simp only [trimAll, List.getElem?_map, hV]
        rfl
      rw [importSkin_skinInfo sortInf sortBones table Importer Vert ⟨[]⟩ htrim]
      rfl

/-- Witness for C14 (as amended): vertex 1 of a two-vertex mesh has no
influence. -/
theorem C14_zero_influence_vertex_witness :
    ((skinnedRun unskinnedVertexTable).hasNode = true ∧
      (skinnedRun unskinnedVertexTable).SkinInfoArray = some unskinnedVertexTable ∧
      ((skinnedRun unskinnedVertexTable).mHasNormal &&
        (skinnedRun unskinnedVertexTable).vertexBufferFailed) = false ∧
      (skinnedRun unskinnedVertexTable).indexBufferFailed = false ∧
      unskinnedVertexTable[1]? = some ⟨[]⟩) ∧
    (importMesh false sortBoneInf sortBoneIndexInfo (skinnedRun unskinnedVertexTable)
        scenarioCImporter = ImportOutcome.aborted ∧
      ∃ skin, importMesh true sortBoneInf sortBoneIndexInfo (skinnedRun unskinnedVertexTable)
          scenarioCImporter = ImportOutcome.returned true (some skin) ∧
        skin._SkinInfoArray[1]? = some ⟨[0, 0, 0, 0], [0, 0, 0, 0]⟩) :=
  ⟨⟨rfl, rfl, rfl, rfl, rfl⟩,
    C14_zero_influence_vertex sortBoneInf sortBoneIndexInfo (skinnedRun unskinnedVertexTable)
      scenarioCImporter unskinnedVertexTable 1 rfl rfl rfl rfl rfl⟩

/-- Counterexample to C14 as stated: a skinned mesh whose second vertex has no
influence. The weight-sum assertion is evaluated for that vertex too, with
`WeightTotal = 0`, and the call is aborted instead of proceeding. -/
theorem C14_check_not_skipped_counterexample :
    unskinnedVertexTable[1]? = some ⟨[]⟩ ∧
    weightAssert ([] : List BoneInf) = false ∧
    importMesh false sortBoneInf sortBoneIndexInfo (skinnedRun unskinnedVertexTable)
      scenarioCImporter = ImportOutcome.aborted := by
  refine ⟨rfl, weightAssert_nil, ?_⟩
  · rw [importMesh_skinnedRun,
      skinBlock_zero_influence sortBoneInf sortBoneIndexInfo unskinnedVertexTable
        scenarioCImporter 1 rfl]

theorem mapFind_none_of_not_mem {m : List (String × BoneIndexInfo)} {name : String}
    (h : name ∉ mapKeys m) : mapFind m name = none := by
  cases hf : mapFind m name with
  | none => rfl
  | some L =>
    exfalso
    apply h
    exact (mapFind_isSome_iff m name).mp (by simp [hf])

/-- The value that `ImportFromFbxMesh` returns does not depend on the importer:
no lookup in the registry changes the control flow. -/
theorem importMesh_result_importer (NDEBUG : Bool) (sortInf : List BoneInf → List BoneInf)
    (sortBones : List BoneIndexInfo → List BoneIndexInfo) (run : ImportRun)
    (Importer Importer' : FbxFileImporter) :
    (importMesh NDEBUG sortInf sortBones run Importer).result =
      (importMesh NDEBUG sortInf sortBones run Importer').result := by
  simp only [importMesh, skinBlock]
  cases run.hasNode <;> cases run.SkinInfoArray <;> cases NDEBUG <;>
    cases run.mHasNormal <;> cases run.vertexBufferFailed <;>
    cases run.indexBufferFailed <;>
    simp [ImportOutcome.result, failedBuffer] <;>
    split_ifs <;> simp [ImportOutcome.result]

/-- C15 (as amended). The mark phase never fails. On a registry with distinct
keys it sets `used = true` on exactly the entries whose bone name a kept
influence references and changes nothing else; an influence whose bone name
is absent from the registry is skipped (the name stays absent), and the value
returned by the import does not depend on the registry. -/
theorem C15_mark_phase (NDEBUG : Bool) (sortInf : List BoneInf → List BoneInf)
    (sortBones : List BoneIndexInfo → List BoneIndexInfo) (run : ImportRun)
    (T : List VertexSkinInfo) (Importer : FbxFileImporter)
    (hnd : (mapKeys Importer.BoneIndexMap).Nodup) :
    markPhase T Importer.BoneIndexMap =
      Importer.BoneIndexMap.map
        (fun e => if e.1 ∈ referencedNames T then (e.1, setUsed e.2) else e) ∧
    (∀ name, name ∉ mapKeys Importer.BoneIndexMap →
      mapFind (markPhase T Importer.BoneIndexMap) name = none) ∧
    ∀ Importer' : FbxFileImporter,
      (importMesh NDEBUG sortInf sortBones run Importer).result =
        (importMesh NDEBUG sortInf sortBones run Importer').result := by
  refine ⟨markPhase_eq T _ hnd, ?_, ?_⟩
  · intro name hname
    apply mapFind_none_of_not_mem
    rw [mapKeys_markPhase T _ hnd]
    exact hname
  · intro Importer'
    exact importMesh_result_importer NDEBUG sortInf sortBones run Importer Importer'

/-- Witness for C15 (as amended): the mark phase of Scenario C. -/
theorem C15_mark_phase_witness :
    (mapKeys scenarioCImporter.BoneIndexMap).Nodup ∧
    (markPhase scenarioCTable scenarioCImporter.BoneIndexMap =
      scenarioCImporter.BoneIndexMap.map
        (fun e => if e.1 ∈ referencedNames scenarioCTable then (e.1, setUsed e.2) else e) ∧
    (∀ name, name ∉ mapKeys scenarioCImporter.BoneIndexMap →
      mapFind (markPhase scenarioCTable scenarioCImporter.BoneIndexMap) name = none) ∧
    ∀ Importer' : FbxFileImporter,
      (importMesh false sortBoneInf sortBoneIndexInfo (skinnedRun scenarioCTable)
        scenarioCImporter).result =
        (importMesh false sortBoneInf sortBoneIndexInfo (skinnedRun scenarioCTable)
          Importer').result) :=
  ⟨scenarioCImporter_inv.1.1,
    C15_mark_phase false sortBoneInf sortBoneIndexInfo (skinnedRun scenarioCTable)
      scenarioCTable scenarioCImporter scenarioCImporter_inv.1.1⟩

/-- Counterexample to C15 as stated: a vertex bound with weight 1 to the bone
`ghost`, which the registry of Scenario C does not contain. The import does
not fail: it returns `true`, and the slot of the influence keeps bone index
0. -/
theorem C15_missing_bone_counterexample :
    "ghost" ∉ mapKeys scenarioCImporter.BoneIndexMap ∧
    importMesh false sortBoneInf sortBoneIndexInfo (skinnedRun ghostBoneTable)
      scenarioCImporter =
      ImportOutcome.returned true
        (some (importSkin sortBoneInf sortBoneIndexInfo ghostBoneTable scenarioCImporter)) ∧
    (importSkin sortBoneInf sortBoneIndexInfo ghostBoneTable scenarioCImporter)._SkinInfoArray =
      [⟨[1, 0, 0, 0], [0, 0, 0, 0]⟩] := by
  refine ⟨by decide, ?_, by rfl⟩
  exact importMesh_debug_returned sortBoneInf sortBoneIndexInfo ghostBoneTable
    scenarioCImporter (fun V hV => by
      simp only [ghostBoneTable, List.mem_singleton] at hV
      subst hV
      exact ⟨by simp, weightAssert_one "ghost"⟩)

/-! ### No bone limit -/

theorem manyBoneName_injective : Function.Injective manyBoneName := by
  intro i j h
  have h2 : List.replicate (i + 1) 'b' = List.replicate (j + 1) 'b' :=
    congrArg String.data h
  have h3 := congrArg List.length h2
  simpa using h3

theorem manyBonesRegistry_wf : RegistryWF manyBonesRegistry := by
  constructor
  · simp only [mapKeys, manyBonesRegistry, List.map_map]
    exact (List.nodup_range 257).map manyBoneName_injective
  · intro e he
    simp only [manyBonesRegistry, List.mem_map] at he
    obtain ⟨i, -, rfl⟩ := he
    rfl

theorem trimAll_manyBonesTable (sortInf : List BoneInf → List BoneInf) :
    trimAll sortInf manyBonesTable = manyBonesTable := by
  simp only [trimAll, manyBonesTable, List.map_map]
  apply List.map_congr_left
  intro i _
  simp [trimInfluences]

theorem referencedNames_singletons (l : List Nat) :
    referencedNames (l.map (fun i => (⟨[⟨manyBoneName i, 1⟩]⟩ : VertexSkinInfo))) =
      l.map manyBoneName := by
  induction l with
  | nil => rfl
  | cons x t ih =>
    simp only [referencedNames, List.map_cons, List.flatMap_cons] at ih ⊢
    rw [ih]
    rfl

theorem manyBones_all_referenced :
    manyBonesRegistry.filter (fun e =>
      e.2.IsUsedLink || decide (e.1 ∈ referencedNames manyBonesTable)) = manyBonesRegistry := by
  rw [List.filter_eq_self]
  intro e he
  simp only [manyBonesRegistry, List.mem_map] at he
  obtain ⟨i, hi, rfl⟩ := he
  have : manyBoneName i ∈ referencedNames manyBonesTable := by
    rw [manyBonesTable, referencedNames_singletons]
    exact List.mem_map_of_mem _ hi
  simp [this]

theorem manyBones_weights :
    ∀ V ∈ manyBonesTable, V.BoneLink.length ≤ 4 ∧ weightAssert V.BoneLink = true := by
  intro V hV
  simp only [manyBonesTable, List.mem_map] at hV
  obtain ⟨i, -, rfl⟩ := hV
  exact ⟨by simp, weightAssert_one (manyBoneName i)⟩

/-- After a first import the dense indices of the registry entries are a
rearrangement of `0, ..., n - 1`, `n` the number of entries. -/
theorem first_import_indices_perm (sortBones : List BoneIndexInfo → List BoneIndexInfo)
    (hsort : IsStdSort BoneIndexInfo.lt sortBones) (T : List VertexSkinInfo)
    (Importer : FbxFileImporter) (hwf : RegistryWF Importer.BoneIndexMap)
    (hempty : Importer.BoneArray = []) :
    ((resolveBones sortBones T Importer).BoneIndexMap.map (fun e => e.2.Index)).Perm
      (List.range (resolveBones sortBones T Importer).BoneIndexMap.length) := by
  have hF := marked_wf (T := T) hwf
  have hR : RegistryWF (resolveBones sortBones T Importer).BoneIndexMap := assigned_wf hF
  have hlen := resolveBones_length_first sortBones hsort T Importer hwf hempty
  apply List.Subperm.perm_of_length_le
  · apply List.Nodup.subperm
    · apply List.Nodup.map_on
      · intro e he e' he' hidx
        obtain ⟨e0, he0, hk, -, hlt, harr⟩ :=
          first_import_index sortBones hsort T Importer hwf hempty e he
        obtain ⟨e0', he0', hk', -, hlt', harr'⟩ :=
          first_import_index sortBones hsort T Importer hwf hempty e' he'
        apply eq_of_key_eq hR.1 he he'
        have h2 : e0.2 = e0'.2 := by
          rw [← harr, ← harr']
          simp only [hidx]
        rw [hk, hk', ← hF.2 e0 he0, ← hF.2 e0' he0', h2]
      · exact List.Nodup.of_map _ hR.1
    · intro i hi
      obtain ⟨e, he, hie⟩ := List.mem_map.mp hi
      obtain ⟨_, _, _, _, hlt, _⟩ :=
        first_import_index sortBones hsort T Importer hwf hempty e he
      rw [List.mem_range, ← hie, ← hlen]
      exact hlt
  · simp

theorem resolveBones_map_length (sortBones : List BoneIndexInfo → List BoneIndexInfo)
    (T : List VertexSkinInfo) (Importer : FbxFileImporter)
    (hwf : RegistryWF Importer.BoneIndexMap) :
    (resolveBones sortBones T Importer).BoneIndexMap.length =
      (Importer.BoneIndexMap.filter (fun e =>
        e.2.IsUsedLink || decide (e.1 ∈ referencedNames T))).length := by
  have hF := marked_wf (T := T) hwf
  have h1 : mapKeys (resolveBones sortBones T Importer).BoneIndexMap =
      mapKeys (Importer.BoneIndexMap.filter (fun e =>
        e.2.IsUsedLink || decide (e.1 ∈ referencedNames T))) := by
    simp only [resolveBones]
    rw [mapKeys_assigned _ _ _ hF.1, mapKeys_marked T _ hwf.1]
  have h2 := congrArg List.length h1
  simpa [mapKeys] using h2

/-- C16 (as amended). `ImportFromFbxMesh` has no bone-limit check: the value
it returns does not depend on the registry, whatever the number of used
entries. On a well-formed registry every dense index is smaller than the
bone count `_NumBone`, so each dense index fits in one byte whenever
`_NumBone ≤ 256`. -/
theorem C16_dense_index_below_bone_count (NDEBUG : Bool)
    (sortInf : List BoneInf → List BoneInf)
    (sortBones : List BoneIndexInfo → List BoneIndexInfo)
    (hsortBones : IsStdSort BoneIndexInfo.lt sortBones) (run : ImportRun)
    (SkinInfoArray : List VertexSkinInfo) (Importer : FbxFileImporter)
    (hwf : RegistryWF Importer.BoneIndexMap) :
    (∀ e ∈ (importSkin sortInf sortBones SkinInfoArray Importer).Importer.BoneIndexMap,
      e.2.Index < (importSkin sortInf sortBones SkinInfoArray Importer)._NumBone) ∧
    ((importSkin sortInf sortBones SkinInfoArray Importer)._NumBone ≤ 256 →
      ∀ e ∈ (importSkin sortInf sortBones SkinInfoArray Importer).Importer.BoneIndexMap,
        e.2.Index ≤ 255) ∧
    ∀ Importer' : FbxFileImporter,
      (importMesh NDEBUG sortInf sortBones run Importer).result =
        (importMesh NDEBUG sortInf sortBones run Importer').result := by
  have hnum : (importSkin sortInf sortBones SkinInfoArray Importer)._NumBone =
      (resolveBones sortBones (trimAll sortInf SkinInfoArray) Importer).BoneArray.length := rfl
  have hlt : ∀ e ∈ (importSkin sortInf sortBones SkinInfoArray Importer).Importer.BoneIndexMap,
      e.2.Index < (importSkin sortInf sortBones SkinInfoArray Importer)._NumBone := by
    intro e he
    rw [importSkin_importer] at he
    rw [hnum]
    exact (resolveBones_index sortBones hsortBones (trimAll sortInf SkinInfoArray) Importer
      hwf e he).2.1
  refine ⟨hlt, ?_, ?_⟩
  · intro hle e he
    have := hlt e he
    omega
  · intro Importer'
    exact importMesh_result_importer NDEBUG sortInf sortBones run Importer Importer'

/-- Witness for C16 (as amended): Scenario C. -/
theorem C16_dense_index_below_bone_count_witness :
    (IsStdSort BoneIndexInfo.lt sortBoneIndexInfo ∧ RegistryWF scenarioCImporter.BoneIndexMap) ∧
    ((∀ e ∈ (importSkin sortBoneInf sortBoneIndexInfo scenarioCTable
          scenarioCImporter).Importer.BoneIndexMap,
        e.2.Index <
          (importSkin sortBoneInf sortBoneIndexInfo scenarioCTable scenarioCImporter)._NumBone) ∧
      ((importSkin sortBoneInf sortBoneIndexInfo scenarioCTable scenarioCImporter)._NumBone ≤
          256 →
        ∀ e ∈ (importSkin sortBoneInf sortBoneIndexInfo scenarioCTable
            scenarioCImporter).Importer.BoneIndexMap,
          e.2.Index ≤ 255) ∧
      ∀ Importer' : FbxFileImporter,
        (importMesh false sortBoneInf sortBoneIndexInfo (skinnedRun scenarioCTable)
          scenarioCImporter).result =
          (importMesh false sortBoneInf sortBoneIndexInfo (skinnedRun scenarioCTable)
            Importer').result) :=
  ⟨⟨sortBoneIndexInfo_isStdSort, scenarioCImporter_inv.1⟩,
    C16_dense_index_below_bone_count false sortBoneInf sortBoneIndexInfo
      sortBoneIndexInfo_isStdSort (skinnedRun scenarioCTable) scenarioCTable scenarioCImporter
      scenarioCImporter_inv.1⟩

/-- Counterexample to C16 as stated: a mesh that uses all 257 bones of a
registry. 257 entries are used after the mark phase, the import does not
fail (it returns `true`), and one bone gets the dense index 256, which does
not fit in one byte. -/
theorem C16_no_bone_limit_counterexample :
    usedBoneCount (markPhase (trimAll sortBoneInf manyBonesTable)
      manyBonesImporter.BoneIndexMap) = 257 ∧
    importMesh false sortBoneInf sortBoneIndexInfo (skinnedRun manyBonesTable)
      manyBonesImporter =
      ImportOutcome.returned true
        (some (importSkin sortBoneInf sortBoneIndexInfo manyBonesTable manyBonesImporter)) ∧
    256 ∈ usedDenseIndices
      (importSkin sortBoneInf sortBoneIndexInfo manyBonesTable
        manyBonesImporter).Importer.BoneIndexMap := by
  have hlen : (resolveBones sortBoneIndexInfo manyBonesTable
      manyBonesImporter).BoneIndexMap.length = 257 := by
    rw [resolveBones_map_length sortBoneIndexInfo manyBonesTable manyBonesImporter
      manyBonesRegistry_wf]
    have : manyBonesImporter.BoneIndexMap = manyBonesRegistry := rfl
    rw [this, manyBones_all_referenced]
    simp [manyBonesRegistry]
  refine ⟨?_, ?_, ?_⟩
  · rw [trimAll_manyBonesTable]
    have h1 : usedBoneCount (markPhase manyBonesTable manyBonesImporter.BoneIndexMap) =
        (eraseUnused (markPhase manyBonesTable manyBonesImporter.BoneIndexMap)).length := rfl
    have h2 := congrArg List.length
      (mapKeys_marked manyBonesTable manyBonesImporter.BoneIndexMap manyBonesRegistry_wf.1)
    have h3 : manyBonesImporter.BoneIndexMap = manyBonesRegistry := rfl
    rw [h3, manyBones_all_referenced] at h2
    rw [h1, h3]
    simpa [mapKeys, manyBonesRegistry] using h2
  · exact importMesh_debug_returned sortBoneInf sortBoneIndexInfo manyBonesTable
      manyBonesImporter manyBones_weights
  · rw [importSkin_importer, trimAll_manyBonesTable, usedDenseIndices,
      resolveBones_all_used sortBoneIndexInfo sortBoneIndexInfo_isStdSort manyBonesTable
        manyBonesImporter manyBonesRegistry_wf]
    have hperm := first_import_indices_perm sortBoneIndexInfo sortBoneIndexInfo_isStdSort
      manyBonesTable manyBonesImporter manyBonesRegistry_wf rfl
    rw [hperm.mem_iff, hlen, List.mem_range]
    decide

/-! ### Dequantised weight sum -/

theorem remapVertex_weights_eq (m : List (String × BoneIndexInfo)) (V : VertexSkinInfo)
    (hle : V.BoneLink.length ≤ 4) :
    (remapVertex m V SkinInfo.zero).Weights =
      V.BoneLink.map (fun b => b.Weight) ++ List.replicate (4 - V.BoneLink.length) 0 := by
  obtain ⟨lw, -, hat, hpad⟩ := remapVertex_slots m V hle
  apply List.ext_getElem?
  intro i
  by_cases hi : i < V.BoneLink.length
  · have hget : V.BoneLink[i]? = some V.BoneLink[i] := List.getElem?_eq_getElem hi
    rw [(hat i _ hget).1, List.getElem?_append_left (by simpa using hi), List.getElem?_map, hget]
    rfl
  · rw [List.getElem?_append_right (by simpa using hi)]
    by_cases hi4 : i < 4
    · rw [(hpad i (by omega) hi4).1, List.getElem?_replicate, List.length_map]
      have : i - V.BoneLink.length < 4 - V.BoneLink.length := by omega
      simp [this]
    · have h1 : (remapVertex m V SkinInfo.zero).Weights[i]? = none :=
        List.getElem?_eq_none (by omega)
      rw [h1, List.getElem?_replicate, List.length_map]
      have : ¬ i - V.BoneLink.length < 4 - V.BoneLink.length := by omega
      simp [this]

theorem weightSum_nonneg {l : List BoneInf} (h : ∀ b ∈ l, 0 ≤ b.Weight) : 0 ≤ weightSum l := by
  induction l with
  | nil => simp [weightSum]
  | cons x t ih =>
    simp only [weightSum, List.map_cons, List.sum_cons]
    have h1 := h x (List.mem_cons_self _ _)
    have h2 := ih (fun b hb => h b (List.mem_cons_of_mem _ hb))
    simp only [weightSum] at h2
    linarith

theorem trimInfluences_nonneg (sort : List BoneInf → List BoneInf)
    (hsort : IsStdSort BoneInf.lt sort) (BoneLink : List BoneInf)
    (h : ∀ b ∈ BoneLink, 0 ≤ b.Weight) :
    ∀ b ∈ trimInfluences sort BoneLink, 0 ≤ b.Weight := by
  by_cases h4 : 4 < BoneLink.length
  · rw [trimInfluences_gt sort hsort.length_eq BoneLink h4]
    intro b hb
    obtain ⟨b0, hb0, rfl⟩ := List.mem_map.mp hb
    have hs : ∀ x ∈ sort BoneLink, 0 ≤ x.Weight := fun x hx =>
      h x ((hsort BoneLink).1.mem_iff.mp hx)
    have h1 := hs b0 (List.mem_of_mem_take hb0)
    have h2 : 0 ≤ weightSum ((sort BoneLink).drop 4) :=
      weightSum_nonneg (fun x hx => hs x (List.mem_of_mem_drop hx))
    simp only [bump]
    linarith
  · simpa [trimInfluences, h4] using h

theorem le_sum_of_mem_nonneg {l : List ℚ} (h : ∀ w ∈ l, 0 ≤ w) :
    0 ≤ l.sum ∧ ∀ w ∈ l, w ≤ l.sum := by
  induction l with
  | nil => simp
  | cons x t ih =>
    have hx := h x (List.mem_cons_self _ _)
    obtain ⟨h0, hle⟩ := ih (fun w hw => h w (List.mem_cons_of_mem _ hw))
    simp only [List.sum_cons]
    refine ⟨by linarith, ?_⟩
    intro w hw
    rcases List.mem_cons.mp hw with e | hw
    · rw [e]; linarith
    · have := hle w hw; linarith

/-- The dequantised sum of a vertex whose four weights are non-negative: the
packer loses less than `1/255` per slot and never gains. -/
theorem packWeights_dequantized (skin : SkinInfo) (hlen : skin.Weights.length = 4)
    (hnn : ∀ w ∈ skin.Weights, 0 ≤ w) (hsum : skin.Weights.sum * 255 < 256) :
    ∃ word, packWeights skin = some word ∧
      skin.Weights.sum - 4 / 255 < dequantizedSum word ∧
      dequantizedSum word ≤ skin.Weights.sum := by
  obtain ⟨W, B⟩ := skin
  simp only at hlen hnn hsum ⊢
  match W, hlen with
  | [w0, w1, w2, w3], _ =>
    obtain ⟨-, hle⟩ := le_sum_of_mem_nonneg hnn
    have r : ∀ w ∈ [w0, w1, w2, w3], 0 ≤ w ∧ w * 255 < 256 := by
      intro w hw
      have := hle w hw
      exact ⟨hnn w hw, by linarith⟩
    obtain ⟨q0, q1, q2, q3, hpack, ⟨f0, b0⟩, ⟨f1, b1⟩, ⟨f2, b2⟩, ⟨f3, b3⟩⟩ :=
      packWeights_of_range w0 w1 w2 w3 B (r w0 (by simp)) (r w1 (by simp)) (r w2 (by simp))
        (r w3 (by simp))
    obtain ⟨y0, y1, y2, y3⟩ := byteOf_four_bytes q0 q1 q2 q3 b0 b1 b2 b3
    refine ⟨_, hpack, ?_, ?_⟩
    all_goals
      simp only [dequantizedSum, y0, y1, y2, y3, List.sum_cons, List.sum_nil]
      have c : ∀ (q : Nat) (w : ℚ), (q : Int) = ⌊w * 255⌋ →
          (q : ℚ) ≤ w * 255 ∧ w * 255 < (q : ℚ) + 1 := by
        intro q w hq
        have h1 : ((⌊w * 255⌋ : Int) : ℚ) ≤ w * 255 := Int.floor_le _
        have h2 : w * 255 < ((⌊w * 255⌋ : Int) : ℚ) + 1 := Int.lt_floor_add_one _
        rw [← hq] at h1 h2
        exact ⟨by exact_mod_cast h1, by exact_mod_cast h2⟩
      obtain ⟨l0, u0⟩ := c q0 w0 f0
      obtain ⟨l1, u1⟩ := c q1 w1 f1
      obtain ⟨l2, u2⟩ := c q2 w2 f2
      obtain ⟨l3, u3⟩ := c q3 w3 f3
      push_cast
      first
        | (rw [lt_div_iff₀ (by norm_num)]; linarith)
        | (rw [div_le_iff₀ (by norm_num)]; linarith)

/-- C11 (as amended). The dequantised sum `(q0 + q1 + q2 + q3) / 255` of the
packed weight bytes of a vertex lies in `(T - 4/255, T]`, `T` the exact sum of
the four weights stored in the slots of the vertex, when these are
non-negative with `T * 255 < 256`: truncation loses less than `1/255` per
slot. For a vertex with at most 4 raw influences the stored weights are the
raw weights, and `T` is their sum `S`. -/
theorem C11_dequantized_sum_bounds (sortInf : List BoneInf → List BoneInf)
    (sortBones : List BoneIndexInfo → List BoneIndexInfo)
    (SkinInfoArray : List VertexSkinInfo)
    (Importer : FbxFileImporter) (Vert : Nat) (Vertex : VertexSkinInfo)
    (hV : SkinInfoArray[Vert]? = some Vertex)
    (hle : Vertex.BoneLink.length ≤ 4)
    (hnn : ∀ b ∈ Vertex.BoneLink, 0 ≤ b.Weight)
    (hsum : WeightTotal Vertex.BoneLink * 255 < 256) :
    (∃ skin word,
      (importSkin sortInf sortBones SkinInfoArray Importer)._SkinInfoArray[Vert]? = some skin ∧
      skin.Weights =
        Vertex.BoneLink.map (fun b => b.Weight) ++
          List.replicate (4 - Vertex.BoneLink.length) 0 ∧
      packWeights skin = some word ∧
      WeightTotal Vertex.BoneLink - 4 / 255 < dequantizedSum word ∧
      dequantizedSum word ≤ WeightTotal Vertex.BoneLink) ∧
    ∀ stored : SkinInfo, stored.Weights.length = 4 → (∀ w ∈ stored.Weights, 0 ≤ w) →
      stored.Weights.sum * 255 < 256 →
      ∃ word, packWeights stored = some word ∧
        stored.Weights.sum - 4 / 255 < dequantizedSum word ∧
        dequantizedSum word ≤ stored.Weights.sum := by
  refine ⟨?_, fun stored hlen hnn2 hsum2 => packWeights_dequantized stored hlen hnn2 hsum2⟩
  have hn : ¬ Vertex.BoneLink.length > 4 := by omega
  have htrim : (trimAll sortInf SkinInfoArray)[Vert]? = some Vertex := by
    simp only [trimAll, List.getElem?_map, hV, Option.map_some', trimInfluences, if_neg hn]
  have hskin := importSkin_skinInfo sortInf sortBones SkinInfoArray Importer Vert _ htrim
  have hW := remapVertex_weights_eq
    (resolveBones sortBones (trimAll sortInf SkinInfoArray) Importer).BoneIndexMap Vertex hle
  have hlen := (remapVertex_slots
    (resolveBones sortBones (trimAll sortInf SkinInfoArray) Importer).BoneIndexMap
    Vertex hle).1
  have htot : (remapVertex
      (resolveBones sortBones (trimAll sortInf SkinInfoArray) Importer).BoneIndexMap
      Vertex SkinInfo.zero).Weights.sum = WeightTotal Vertex.BoneLink := by
    rw [hW, List.sum_append, WeightTotal_eq_weightSum]
    simp [weightSum]
  have hnn2 : ∀ w ∈ (remapVertex
      (resolveBones sortBones (trimAll sortInf SkinInfoArray) Importer).BoneIndexMap
      Vertex SkinInfo.zero).Weights, 0 ≤ w := by
    intro w hw
    rw [hW] at hw
    rcases List.mem_append.mp hw with h1 | h1
    · obtain ⟨b, hb, rfl⟩ := List.mem_map.mp h1
      exact hnn b hb
    · rw [(List.mem_replicate.mp h1).2]
  obtain ⟨word, hpack, hlo, hhi⟩ := packWeights_dequantized _ hlen hnn2 (by rw [htot]; exact hsum)
  rw [htot] at hlo hhi
  exact ⟨_, word, hskin, hW, hpack, hlo, hhi⟩

/-- Witness for C11 (as amended): vertex 0 of Scenario C (weights 1/2 and 1/2,
sum 1). -/
theorem C11_dequantized_sum_bounds_witness :
    (scenarioCTable[0]? = some ⟨[⟨"bone7", 1 / 2⟩, ⟨"bone2", 1 / 2⟩]⟩ ∧
      ([⟨"bone7", 1 / 2⟩, ⟨"bone2", 1 / 2⟩] : List BoneInf).length ≤ 4 ∧
      (∀ b ∈ ([⟨"bone7", 1 / 2⟩, ⟨"bone2", 1 / 2⟩] : List BoneInf), 0 ≤ b.Weight) ∧
      WeightTotal [⟨"bone7", 1 / 2⟩, ⟨"bone2", 1 / 2⟩] * 255 < 256) ∧
    ((∃ skin word,
      (importSkin sortBoneInf sortBoneIndexInfo scenarioCTable
        scenarioCImporter)._SkinInfoArray[0]? = some skin ∧
      skin.Weights =
        ([⟨"bone7", 1 / 2⟩, ⟨"bone2", 1 / 2⟩] : List BoneInf).map (fun b => b.Weight) ++
          List.replicate (4 - ([⟨"bone7", 1 / 2⟩, ⟨"bone2", 1 / 2⟩] : List BoneInf).length) 0 ∧
      packWeights skin = some word ∧
      WeightTotal [⟨"bone7", 1 / 2⟩, ⟨"bone2", 1 / 2⟩] - 4 / 255 < dequantizedSum word ∧
      dequantizedSum word ≤ WeightTotal [⟨"bone7", 1 / 2⟩, ⟨"bone2", 1 / 2⟩]) ∧
    ∀ stored : SkinInfo, stored.Weights.length = 4 → (∀ w ∈ stored.Weights, 0 ≤ w) →
      stored.Weights.sum * 255 < 256 →
      ∃ word, packWeights stored = some word ∧
        stored.Weights.sum - 4 / 255 < dequantizedSum word ∧
        dequantizedSum word ≤ stored.Weights.sum) :=
  ⟨⟨rfl, by decide,
      by intro b hb; simp at hb; rcases hb with h | h <;> rw [h] <;> norm_num,
      by norm_num [WeightTotal]⟩,
    C11_dequantized_sum_bounds sortBoneInf sortBoneIndexInfo
      scenarioCTable scenarioCImporter 0 ⟨[⟨"bone7", 1 / 2⟩, ⟨"bone2", 1 / 2⟩]⟩ rfl
      (by decide)
      (by intro b hb; simp at hb; rcases hb with h | h <;> rw [h] <;> norm_num)
      (by norm_num [WeightTotal])⟩

/-- Counterexample to C11 as stated: a vertex with four influences of weight
0.25 (sum 1, so the assertion of line 467 holds). Every weight is packed as
the byte 63 and the dequantised sum is `252/255`, below 0.996. -/
theorem C11_dequantized_sum_counterexample :
    ∃ skin word,
      (importSkin sortBoneInf sortBoneIndexInfo quarterWeightsTable
        scenarioCImporter)._SkinInfoArray[0]? = some skin ∧
      packWeights skin = some word ∧
      dequantizedSum word = 252 / 255 ∧ dequantizedSum word < 996 / 1000 ∧
      (∀ V ∈ quarterWeightsTable, 1 ≤ V.BoneLink.length ∧ WeightTotal V.BoneLink = 1) := by
  have hq : toUnsignedInt ((1 / 4 : ℚ) * 255) = some 63 :=
    toUnsignedInt_eq _ 63 (by norm_num) (by norm_num) (by norm_num)
  have hpack := packWeights_of_quantized (1 / 4) (1 / 4) (1 / 4) (1 / 4) [0, 1, 2, 3]
    63 63 63 63 hq hq hq hq (by norm_num) (by norm_num) (by norm_num) (by norm_num)
  obtain ⟨y0, y1, y2, y3⟩ := byteOf_four_bytes 63 63 63 63 (by norm_num) (by norm_num)
    (by norm_num) (by norm_num)
  have hD : dequantizedSum (63 + 2 ^ 8 * 63 + 2 ^ 16 * 63 + 2 ^ 24 * 63) = 252 / 255 := by
    simp only [dequantizedSum, y0, y1, y2, y3]
    norm_num
  refine ⟨⟨[1 / 4, 1 / 4, 1 / 4, 1 / 4], [0, 1, 2, 3]⟩, _, by rfl, hpack, hD, ?_, ?_⟩
  · rw [hD]; norm_num
  · intro V hV
    simp only [quarterWeightsTable, List.mem_singleton] at hV
    subst hV
    refine ⟨by simp, ?_⟩
    norm_num [WeightTotal]

/-! ### Several imports through one importer -/

theorem resolveBones_keys (sortBones : List BoneIndexInfo → List BoneIndexInfo)
    (T : List VertexSkinInfo) (Importer : FbxFileImporter)
    (hwf : RegistryWF Importer.BoneIndexMap) :
    mapKeys (resolveBones sortBones T Importer).BoneIndexMap =
      mapKeys (Importer.BoneIndexMap.filter (fun e =>
        e.2.IsUsedLink || decide (e.1 ∈ referencedNames T))) := by
  have hF := marked_wf (T := T) hwf
  simp only [resolveBones]
  rw [mapKeys_assigned _ _ _ hF.1, mapKeys_marked T _ hwf.1]

/-- Every entry that the bone registry phase leaves in the registry comes from
an entry of the registry on entry with the same key, bone name and skeleton
index. -/
theorem resolveBones_origin (sortBones : List BoneIndexInfo → List BoneIndexInfo)
    (T : List VertexSkinInfo) (Importer : FbxFileImporter)
    (hwf : RegistryWF Importer.BoneIndexMap)
    (e : String × BoneIndexInfo) (he : e ∈ (resolveBones sortBones T Importer).BoneIndexMap) :
    ∃ e0 ∈ Importer.BoneIndexMap, e.1 = e0.1 ∧ e.2.BoneName = e0.2.BoneName ∧
      e.2.SkeletonIndex = e0.2.SkeletonIndex := by
  have hF := marked_wf (T := T) hwf
  simp only [resolveBones] at he
  obtain ⟨e1, he1, heq⟩ := (mem_assigned hF.1).mp he
  obtain ⟨-, e0, he0, hk0, hn0, hs0, -⟩ := mem_marked hwf.1 he1
  refine ⟨e0, he0, ?_, ?_, ?_⟩
  · rw [heq]; exact hk0
  · rw [heq]; exact hn0
  · rw [heq]; exact hs0

theorem resolveBones_skeleton_nodup (sortBones : List BoneIndexInfo → List BoneIndexInfo)
    (T : List VertexSkinInfo) (Importer : FbxFileImporter)
    (hwf : RegistryWF Importer.BoneIndexMap)
    (hdistinct : (Importer.BoneIndexMap.map (fun e => e.2.SkeletonIndex)).Nodup) :
    ((resolveBones sortBones T Importer).BoneIndexMap.map
      (fun e => e.2.SkeletonIndex)).Nodup := by
  have hF := marked_wf (T := T) hwf
  have h1 : (resolveBones sortBones T Importer).BoneIndexMap.map (fun e => e.2.SkeletonIndex) =
      (eraseUnused (markPhase T Importer.BoneIndexMap)).map (fun e => e.2.SkeletonIndex) := by
    simp only [resolveBones, assignIndexFrom_eq _ _ _ hF.1, List.map_map]
    rfl
  rw [h1]
  exact (marked_map_skeletonIndex_sublist T _ hwf.1).nodup hdistinct

/-- In a first import with distinct skeleton indices, the dense index of a
registry entry is the number of entries with a smaller skeleton index. -/
theorem first_import_index_count (sortBones : List BoneIndexInfo → List BoneIndexInfo)
    (hsort : IsStdSort BoneIndexInfo.lt sortBones) (T : List VertexSkinInfo)
    (Importer : FbxFileImporter) (hwf : RegistryWF Importer.BoneIndexMap)
    (hempty : Importer.BoneArray = [])
    (hdistinct : (Importer.BoneIndexMap.map (fun e => e.2.SkeletonIndex)).Nodup)
    (e : String × BoneIndexInfo) (he : e ∈ (resolveBones sortBones T Importer).BoneIndexMap) :
    e.2.Index = ((resolveBones sortBones T Importer).BoneIndexMap.filter
      (fun e' => decide (e'.2.SkeletonIndex < e.2.SkeletonIndex))).length := by
  have hF := marked_wf (T := T) hwf
  have hsorted := first_import_sorted sortBones hsort T Importer hwf hempty hdistinct
  obtain ⟨e0, he0, hk, hs, hlt, harr⟩ :=
    first_import_index sortBones hsort T Importer hwf hempty e he
  have hlt2 : e.2.Index <
      ((resolveBones sortBones T Importer).BoneArray.map (fun b => b.SkeletonIndex)).length := by
    simpa using hlt
  have hcount := filter_lt_length_of_sorted _ hsorted e.2.Index hlt2
  have hget : ((resolveBones sortBones T Importer).BoneArray.map
      (fun b => b.SkeletonIndex))[e.2.Index] = e.2.SkeletonIndex := by
    rw [List.getElem_map, harr, hs]
  rw [hget] at hcount
  have hperm : ((resolveBones sortBones T Importer).BoneArray.map
      (fun b => b.SkeletonIndex)).Perm
      ((resolveBones sortBones T Importer).BoneIndexMap.map
        (fun e' => e'.2.SkeletonIndex)) := by
    simp only [resolveBones, hempty, pushAll, List.nil_append,
      assignIndexFrom_eq _ _ _ hF.1, List.map_map]
    have h1 := ((hsort ((eraseUnused (markPhase T Importer.BoneIndexMap)).map
      (fun e => e.2))).1).map (fun b => b.SkeletonIndex)
    rw [List.map_map] at h1
    exact h1
  have hfl := (hperm.filter (fun x => decide (x < e.2.SkeletonIndex))).length_eq
  rw [hcount, List.filter_map, List.length_map] at hfl
  rw [hfl]
  rfl

/-- A registry all of whose entries are used is left unchanged by the mark
and erase loops. -/
theorem marked_eq_self (T : List VertexSkinInfo) (m : List (String × BoneIndexInfo))
    (hnd : (mapKeys m).Nodup) (hused : ∀ e ∈ m, e.2.IsUsedLink = true) :
    eraseUnused (markPhase T m) = m := by
  have h1 : markPhase T m = m := by
    rw [markPhase_eq T m hnd]
    have hid : ∀ e ∈ m, (fun e : String × BoneIndexInfo =>
        if e.1 ∈ referencedNames T then (e.1, setUsed e.2) else e) e = id e := by
      intro e he
      have hu := hused e he
      have hs : setUsed e.2 = e.2 := by
        cases h : e.2 with
        | mk n u s i =>
          rw [h] at hu
          simp only at hu
          simp [setUsed, hu]
      by_cases hr : e.1 ∈ referencedNames T
      · simp [hr, hs]
      · simp [hr]
    rw [List.map_congr_left hid, List.map_id]
  rw [h1, eraseUnused, List.filter_eq_self]
  intro e he
  exact hused e he

theorem filter_skeleton_length_map (g : String × BoneIndexInfo → String × BoneIndexInfo)
    (hg : ∀ e, (g e).2.SkeletonIndex = e.2.SkeletonIndex)
    (m : List (String × BoneIndexInfo)) (x : Int) :
    ((m.map g).filter (fun e' => decide (e'.2.SkeletonIndex < x))).length =
      (m.filter (fun e' => decide (e'.2.SkeletonIndex < x))).length := by
  rw [List.filter_map, List.length_map]
  congr 1
  apply List.filter_congr
  intro e _
  simp [Function.comp, hg e]

/-- Running the bone registry phase again on the registry that a first import
has left, with `BoneArray` empty as before the first import, changes
nothing in the registry. -/
theorem resolveBones_rerun (sortBones : List BoneIndexInfo → List BoneIndexInfo)
    (hsort : IsStdSort BoneIndexInfo.lt sortBones) (T : List VertexSkinInfo)
    (Importer : FbxFileImporter) (hwf : RegistryWF Importer.BoneIndexMap)
    (hempty : Importer.BoneArray = [])
    (hdistinct : (Importer.BoneIndexMap.map (fun e => e.2.SkeletonIndex)).Nodup) :
    (resolveBones sortBones T
        ⟨(resolveBones sortBones T Importer).BoneIndexMap, []⟩).BoneIndexMap =
      (resolveBones sortBones T Importer).BoneIndexMap := by
  have hR1wf : RegistryWF (resolveBones sortBones T Importer).BoneIndexMap :=
    assigned_wf (marked_wf (T := T) hwf)
  have hR1used : ∀ e ∈ (resolveBones sortBones T Importer).BoneIndexMap,
      e.2.IsUsedLink = true := fun e he =>
    (resolveBones_index sortBones hsort T Importer hwf e he).1
  have hR1nd := resolveBones_skeleton_nodup sortBones T Importer hwf hdistinct
  have hcount1 := first_import_index_count sortBones hsort T Importer hwf hempty hdistinct
  generalize hR1 : (resolveBones sortBones T Importer).BoneIndexMap = R1 at *
  have hcount2 := first_import_index_count sortBones hsort T ⟨R1, []⟩ hR1wf rfl hR1nd
  have hF2 : eraseUnused (markPhase T R1) = R1 := marked_eq_self T R1 hR1wf.1 hR1used
  have hR2 : (resolveBones sortBones T ⟨R1, []⟩).BoneIndexMap =
      R1.map (fun e => (e.1, setIndex
        ((finalIndex 0 (sortBones (pushAll [] R1)) e.1).getD e.2.Index) e.2)) := by
    simp only [resolveBones, hF2]
    exact assignIndexFrom_eq _ 0 R1 hR1wf.1
  rw [hR2] at hcount2 ⊢
  have hid : ∀ e ∈ R1, (fun e : String × BoneIndexInfo => (e.1, setIndex
      ((finalIndex 0 (sortBones (pushAll [] R1)) e.1).getD e.2.Index) e.2)) e = id e := by
    intro e he
    have h2 := hcount2 _ (List.mem_map_of_mem _ he)
    change (finalIndex 0 (sortBones (pushAll [] R1)) e.1).getD e.2.Index =
      ((R1.map (fun e : String × BoneIndexInfo => (e.1, setIndex
        ((finalIndex 0 (sortBones (pushAll [] R1)) e.1).getD e.2.Index) e.2))).filter
        (fun e' => decide (e'.2.SkeletonIndex < e.2.SkeletonIndex))).length at h2
    rw [filter_skeleton_length_map (fun e : String × BoneIndexInfo => (e.1, setIndex
      ((finalIndex 0 (sortBones (pushAll [] R1)) e.1).getD e.2.Index) e.2)) (fun _ => rfl)
      R1 e.2.SkeletonIndex] at h2
    have h1 := hcount1 e he
    have hidx : (finalIndex 0 (sortBones (pushAll [] R1)) e.1).getD e.2.Index = e.2.Index := by
      rw [h2, ← h1]
    simp only [hidx, id]
    rfl
  rw [List.map_congr_left hid, List.map_id]

/-- C17 (as amended). Re-running the mark/compact part on the registry that
the first run has left, with `BoneArray` empty as it was before the first run
(first import of a session, distinct skeleton indices), leaves every registry
entry unchanged, so every used bone keeps its dense index, and it gives the
same bone count. -/
theorem C17_rerun_from_empty_bone_array (sortInf : List BoneInf → List BoneInf)
    (sortBones : List BoneIndexInfo → List BoneIndexInfo)
    (hsort : IsStdSort BoneIndexInfo.lt sortBones) (SkinInfoArray : List VertexSkinInfo)
    (Importer : FbxFileImporter) (hwf : RegistryWF Importer.BoneIndexMap)
    (hempty : Importer.BoneArray = [])
    (hdistinct : (Importer.BoneIndexMap.map (fun e => e.2.SkeletonIndex)).Nodup) :
    (importSkin sortInf sortBones SkinInfoArray
        ⟨(importSkin sortInf sortBones SkinInfoArray Importer).Importer.BoneIndexMap,
          []⟩).Importer.BoneIndexMap =
      (importSkin sortInf sortBones SkinInfoArray Importer).Importer.BoneIndexMap ∧
    (importSkin sortInf sortBones SkinInfoArray
        ⟨(importSkin sortInf sortBones SkinInfoArray Importer).Importer.BoneIndexMap,
          []⟩)._NumBone =
      (importSkin sortInf sortBones SkinInfoArray Importer)._NumBone := by
  have hmap := resolveBones_rerun sortBones hsort (trimAll sortInf SkinInfoArray) Importer hwf
    hempty hdistinct
  have hR1wf : RegistryWF (resolveBones sortBones (trimAll sortInf SkinInfoArray)
      Importer).BoneIndexMap := assigned_wf (marked_wf hwf)
  have hnum : ∀ Imp : FbxFileImporter, (importSkin sortInf sortBones SkinInfoArray Imp)._NumBone =
      (resolveBones sortBones (trimAll sortInf SkinInfoArray) Imp).BoneArray.length :=
    fun _ => rfl
  refine ⟨?_, ?_⟩
  · rw [importSkin_importer, importSkin_importer]
    exact hmap
  · rw [hnum, hnum, importSkin_importer,
      resolveBones_length_first sortBones hsort (trimAll sortInf SkinInfoArray)
        ⟨(resolveBones sortBones (trimAll sortInf SkinInfoArray) Importer).BoneIndexMap, []⟩
        hR1wf rfl,
      resolveBones_length_first sortBones hsort _ _ hwf hempty, hmap]

/-- Witness for C17 (as amended): Scenario C. -/
theorem C17_rerun_from_empty_bone_array_witness :
    (IsStdSort BoneIndexInfo.lt sortBoneIndexInfo ∧
      RegistryWF scenarioCImporter.BoneIndexMap ∧ scenarioCImporter.BoneArray = [] ∧
      (scenarioCImporter.BoneIndexMap.map (fun e => e.2.SkeletonIndex)).Nodup) ∧
    ((importSkin sortBoneInf sortBoneIndexInfo scenarioCTable
        ⟨(importSkin sortBoneInf sortBoneIndexInfo scenarioCTable
          scenarioCImporter).Importer.BoneIndexMap, []⟩).Importer.BoneIndexMap =
      (importSkin sortBoneInf sortBoneIndexInfo scenarioCTable
        scenarioCImporter).Importer.BoneIndexMap ∧
    (importSkin sortBoneInf sortBoneIndexInfo scenarioCTable
        ⟨(importSkin sortBoneInf sortBoneIndexInfo scenarioCTable
          scenarioCImporter).Importer.BoneIndexMap, []⟩)._NumBone =
      (importSkin sortBoneInf sortBoneIndexInfo scenarioCTable scenarioCImporter)._NumBone) :=
  ⟨⟨sortBoneIndexInfo_isStdSort, scenarioCImporter_inv.1, rfl, by decide⟩,
    C17_rerun_from_empty_bone_array sortBoneInf sortBoneIndexInfo sortBoneIndexInfo_isStdSort
      scenarioCTable scenarioCImporter scenarioCImporter_inv.1 rfl (by decide)⟩

/-- Counterexample to C17 as stated: the mesh of Scenario C imported a second
time through the importer as the first import left it (registry and
`BoneArray`). The used bones had the dense indices 0, 1, 2 and the bone count
was 3; the second run gives 1, 3, 5 and the bone count 6. -/
theorem C17_second_run_counterexample :
    scenarioCFirst.Importer.BoneIndexMap.map (fun e => (e.1, e.2.Index)) =
      [("bone2", 0), ("bone5", 1), ("bone7", 2)] ∧
    scenarioCSecond.Importer.BoneIndexMap.map (fun e => (e.1, e.2.Index)) =
      [("bone2", 1), ("bone5", 3), ("bone7", 5)] ∧
    scenarioCFirst._NumBone = 3 ∧ scenarioCSecond._NumBone = 6 := by
  decide

/-- The bone index stored in a slot, looked up in the dense-to-skeleton array
of the same mesh, gives the skeleton index of the registry entry of the
influence's bone. -/
theorem slot_resolves (sortInf : List BoneInf → List BoneInf)
    (sortBones : List BoneIndexInfo → List BoneIndexInfo)
    (hsortInf : IsStdSort BoneInf.lt sortInf) (hsortBones : IsStdSort BoneIndexInfo.lt sortBones)
    (T : List VertexSkinInfo) (Importer : FbxFileImporter) (hinv : ImporterInv Importer)
    (Vert k : Nat) (Vertex : VertexSkinInfo) (inf : BoneInf)
    (hV : (trimAll sortInf T)[Vert]? = some Vertex) (hk : Vertex.BoneLink[k]? = some inf)
    (e0 : String × BoneIndexInfo) (he0 : e0 ∈ Importer.BoneIndexMap)
    (hname : inf.BoneName = e0.1) :
    ∃ skin b, (importSkin sortInf sortBones T Importer)._SkinInfoArray[Vert]? = some skin ∧
      skin.Bones[k]? = some b ∧
      (importSkin sortInf sortBones T Importer)._RequiredBoneArray[b]? =
        some e0.2.SkeletonIndex := by
  have hwf := hinv.1
  have hF := marked_wf (T := trimAll sortInf T) hwf
  have hR : RegistryWF (resolveBones sortBones (trimAll sortInf T) Importer).BoneIndexMap :=
    assigned_wf hF
  have hinv1 := resolveBones_inv sortBones hsortBones (trimAll sortInf T) Importer hinv
  have hle := trimAll_length_le sortInf hsortInf T Vert Vertex hV
  have href := mem_referencedNames hV hk
  -- the entry of the bone after the import
  have hF1 := mem_marked_of_referenced (T := trimAll sortInf T) hwf.1 he0
    (by rw [← hname]; exact href)
  have hmemR : (e0.1, setIndex ((finalIndex 0 (resolveBones sortBones (trimAll sortInf T)
      Importer).BoneArray e0.1).getD (setUsed e0.2).Index) (setUsed e0.2)) ∈
      (resolveBones sortBones (trimAll sortInf T) Importer).BoneIndexMap := by
    simp only [resolveBones]
    exact (mem_assigned hF.1).mpr ⟨_, hF1, rfl⟩
  have hfind := mapFind_of_mem hR.1 hmemR
  obtain ⟨-, hlt, hbn⟩ := resolveBones_index sortBones hsortBones (trimAll sortInf T)
    Importer hwf _ hmemR
  obtain ⟨-, -, hat, -⟩ := remapVertex_slots
    (resolveBones sortBones (trimAll sortInf T) Importer).BoneIndexMap Vertex hle
  refine ⟨_, _, importSkin_skinInfo sortInf sortBones T Importer Vert Vertex hV,
    (hat k inf hk).2, ?_⟩
  have hslot : slotBone (resolveBones sortBones (trimAll sortInf T) Importer).BoneIndexMap inf =
      (setIndex ((finalIndex 0 (resolveBones sortBones (trimAll sortInf T)
        Importer).BoneArray e0.1).getD (setUsed e0.2).Index) (setUsed e0.2)).Index := by
    simp only [slotBone, hname]
    simp only at hfind
    rw [hfind]
  rw [hslot, importSkin_required, List.getElem?_map, List.getElem?_eq_getElem hlt]
  simp only [Option.map_some', Option.some.injEq]
  have := hinv1.2 _ (List.getElem_mem hlt) _ hmemR hbn.symm
  rw [this]
  rfl

/-- C18 (as amended). Dense bone indices are assigned per mesh. What is stable
across the meshes of a session is the skeleton bone that a stored index
selects: for a mesh A imported first and a mesh B imported next through the
same importer, and every kept influence of either mesh whose bone is in the
registry when that mesh is imported, the bone index stored in the slot,
looked up in the dense-to-skeleton array of the same mesh, is the skeleton
index that the bone had in the registry at the start of the session. -/
theorem C18_stored_index_resolves (sortInf : List BoneInf → List BoneInf)
    (sortBones : List BoneIndexInfo → List BoneIndexInfo)
    (hsortInf : IsStdSort BoneInf.lt sortInf) (hsortBones : IsStdSort BoneIndexInfo.lt sortBones)
    (TableA TableB : List VertexSkinInfo) (Importer : FbxFileImporter)
    (hinv : ImporterInv Importer)
    (e0 : String × BoneIndexInfo) (he0 : e0 ∈ Importer.BoneIndexMap) :
    (∀ (Vert k : Nat) (Vertex : VertexSkinInfo) (inf : BoneInf),
      (trimAll sortInf TableA)[Vert]? = some Vertex → Vertex.BoneLink[k]? = some inf →
      inf.BoneName = e0.1 →
      ∃ skin b, (importSkin sortInf sortBones TableA Importer)._SkinInfoArray[Vert]? =
          some skin ∧ skin.Bones[k]? = some b ∧
        (importSkin sortInf sortBones TableA Importer)._RequiredBoneArray[b]? =
          some e0.2.SkeletonIndex) ∧
    (∀ (Vert k : Nat) (Vertex : VertexSkinInfo) (inf : BoneInf),
      (trimAll sortInf TableB)[Vert]? = some Vertex → Vertex.BoneLink[k]? = some inf →
      inf.BoneName = e0.1 →
      e0.1 ∈ mapKeys (importSkin sortInf sortBones TableA Importer).Importer.BoneIndexMap →
      ∃ skin b, (importSkin sortInf sortBones TableB
          (importSkin sortInf sortBones TableA Importer).Importer)._SkinInfoArray[Vert]? =
          some skin ∧ skin.Bones[k]? = some b ∧
        (importSkin sortInf sortBones TableB
          (importSkin sortInf sortBones TableA Importer).Importer)._RequiredBoneArray[b]? =
          some e0.2.SkeletonIndex) := by
  constructor
  · intro Vert k Vertex inf hV hk hname
    exact slot_resolves sortInf sortBones hsortInf hsortBones TableA Importer hinv Vert k
      Vertex inf hV hk e0 he0 hname
  · intro Vert k Vertex inf hV hk hname hkey
    rw [importSkin_importer] at hkey ⊢
    have hinvA := resolveBones_inv sortBones hsortBones (trimAll sortInf TableA) Importer hinv
    simp only [mapKeys, List.mem_map] at hkey
    obtain ⟨eA, heA, hkA⟩ := hkey
    obtain ⟨e0', he0', hk', -, hs'⟩ := resolveBones_origin sortBones (trimAll sortInf TableA)
      Importer hinv.1 eA heA
    have hsame : e0' = e0 := eq_of_key_eq hinv.1.1 he0' he0 (by rw [← hk', hkA])
    obtain ⟨skin, b, h1, h2, h3⟩ := slot_resolves sortInf sortBones hsortInf hsortBones TableB
      (resolveBones sortBones (trimAll sortInf TableA) Importer) hinvA Vert k Vertex inf hV hk
      eA heA (by rw [hname, hkA])
    refine ⟨skin, b, h1, h2, ?_⟩
    rw [h3, hs', hsame]

/-- Witness for C18 (as amended): the mesh of Scenario C, then a mesh bound to
`bone5`, whose skeleton index is 5. -/
theorem C18_stored_index_resolves_witness :
    (IsStdSort BoneInf.lt sortBoneInf ∧ IsStdSort BoneIndexInfo.lt sortBoneIndexInfo ∧
      ImporterInv scenarioCImporter ∧
      (("bone5", ⟨"bone5", false, 5, 0⟩) : String × BoneIndexInfo) ∈
        scenarioCImporter.BoneIndexMap) ∧
    ((∀ (Vert k : Nat) (Vertex : VertexSkinInfo) (inf : BoneInf),
      (trimAll sortBoneInf scenarioCTable)[Vert]? = some Vertex →
      Vertex.BoneLink[k]? = some inf → inf.BoneName = "bone5" →
      ∃ skin b, (importSkin sortBoneInf sortBoneIndexInfo scenarioCTable
          scenarioCImporter)._SkinInfoArray[Vert]? = some skin ∧ skin.Bones[k]? = some b ∧
        (importSkin sortBoneInf sortBoneIndexInfo scenarioCTable
          scenarioCImporter)._RequiredBoneArray[b]? = some 5) ∧
    (∀ (Vert k : Nat) (Vertex : VertexSkinInfo) (inf : BoneInf),
      (trimAll sortBoneInf scenarioCMeshB)[Vert]? = some Vertex →
      Vertex.BoneLink[k]? = some inf → inf.BoneName = "bone5" →
      "bone5" ∈ mapKeys (importSkin sortBoneInf sortBoneIndexInfo scenarioCTable
        scenarioCImporter).Importer.BoneIndexMap →
      ∃ skin b, (importSkin sortBoneInf sortBoneIndexInfo scenarioCMeshB
          (importSkin sortBoneInf sortBoneIndexInfo scenarioCTable
            scenarioCImporter).Importer)._SkinInfoArray[Vert]? = some skin ∧
        skin.Bones[k]? = some b ∧
        (importSkin sortBoneInf sortBoneIndexInfo scenarioCMeshB
          (importSkin sortBoneInf sortBoneIndexInfo scenarioCTable
            scenarioCImporter).Importer)._RequiredBoneArray[b]? = some 5)) :=
  ⟨⟨sortBoneInf_isStdSort, sortBoneIndexInfo_isStdSort, scenarioCImporter_inv, by decide⟩,
    C18_stored_index_resolves sortBoneInf sortBoneIndexInfo sortBoneInf_isStdSort
      sortBoneIndexInfo_isStdSort scenarioCTable scenarioCMeshB scenarioCImporter
      scenarioCImporter_inv ("bone5", ⟨"bone5", false, 5, 0⟩) (by decide)⟩

/-- Counterexample to C18 as stated: the first import of Scenario C gives
`bone7` the dense index 2, which is stored in the mesh's `SkinInfo`; after
the import of a second mesh through the same importer the registry holds
the dense index 5 for `bone7`. -/
theorem C18_index_changes_counterexample :
    (mapFind scenarioCFirst.Importer.BoneIndexMap "bone7").map (fun b => b.Index) = some 2 ∧
    scenarioCFirst._SkinInfoArray.map (fun s => s.Bones) = [[2, 0, 0, 0], [1, 2, 0, 0]] ∧
    (mapFind scenarioCThenB.Importer.BoneIndexMap "bone7").map (fun b => b.Index) = some 5 := by
  decide

/-- C19 (as amended). `ImportFromFbxMesh` runs the mark, erase and compact
phases for each mesh in turn. After the import of a mesh A the registry keeps
exactly the entries that are used (flagged or referenced by A). For a mesh B
imported next through the same importer, every bone that B references and
that is still in the registry is marked used and receives a dense index, a
position of `BoneArray` that holds the bone; a bone that is no longer in the
registry stays absent. -/
theorem C19_bones_available_to_second_mesh (sortInf : List BoneInf → List BoneInf)
    (sortBones : List BoneIndexInfo → List BoneIndexInfo)
    (hsortBones : IsStdSort BoneIndexInfo.lt sortBones)
    (TableA TableB : List VertexSkinInfo) (Importer : FbxFileImporter)
    (hwf : RegistryWF Importer.BoneIndexMap) :
    mapKeys (importSkin sortInf sortBones TableA Importer).Importer.BoneIndexMap =
      mapKeys (Importer.BoneIndexMap.filter (fun e =>
        e.2.IsUsedLink || decide (e.1 ∈ referencedNames (trimAll sortInf TableA)))) ∧
    (∀ name ∈ referencedNames (trimAll sortInf TableB),
      name ∈ mapKeys (importSkin sortInf sortBones TableA Importer).Importer.BoneIndexMap →
      ∃ L, mapFind (importSkin sortInf sortBones TableB
          (importSkin sortInf sortBones TableA Importer).Importer).Importer.BoneIndexMap name =
          some L ∧
        L.IsUsedLink = true ∧
        ∃ h : L.Index < (importSkin sortInf sortBones TableB
            (importSkin sortInf sortBones TableA Importer).Importer).Importer.BoneArray.length,
          ((importSkin sortInf sortBones TableB
            (importSkin sortInf sortBones TableA Importer).Importer).Importer.BoneArray[
              L.Index]).BoneName = name) ∧
    (∀ name,
      name ∉ mapKeys (importSkin sortInf sortBones TableA Importer).Importer.BoneIndexMap →
      mapFind (importSkin sortInf sortBones TableB
        (importSkin sortInf sortBones TableA Importer).Importer).Importer.BoneIndexMap name =
        none) := by
  have hA : RegistryWF (importSkin sortInf sortBones TableA Importer).Importer.BoneIndexMap := by
    rw [importSkin_importer]
    exact assigned_wf (marked_wf hwf)
  have hkeysB := resolveBones_keys sortBones (trimAll sortInf TableB)
    (importSkin sortInf sortBones TableA Importer).Importer hA
  refine ⟨?_, ?_, ?_⟩
  · rw [importSkin_importer]
    exact resolveBones_keys sortBones (trimAll sortInf TableA) Importer hwf
  · intro name href hkey
    rw [importSkin_importer sortInf sortBones TableB
      (importSkin sortInf sortBones TableA Importer).Importer]
    have hkeyB : name ∈ mapKeys (resolveBones sortBones (trimAll sortInf TableB)
        (importSkin sortInf sortBones TableA Importer).Importer).BoneIndexMap := by
      rw [hkeysB]
      simp only [mapKeys, List.mem_map] at hkey ⊢
      obtain ⟨eA, heA, hk⟩ := hkey
      refine ⟨eA, ?_, hk⟩
      rw [List.mem_filter]
      refine ⟨heA, ?_⟩
      have : eA.1 ∈ referencedNames (trimAll sortInf TableB) := by rw [hk]; exact href
      simp [this]
    obtain ⟨L, hL⟩ := Option.isSome_iff_exists.mp ((mapFind_isSome_iff _ _).mpr hkeyB)
    obtain ⟨hused, hlt, hbn⟩ := resolveBones_index sortBones hsortBones
      (trimAll sortInf TableB) (importSkin sortInf sortBones TableA Importer).Importer hA
      (name, L) (mem_of_mapFind hL)
    exact ⟨L, hL, hused, hlt, hbn⟩
  · intro name hkey
    rw [importSkin_importer sortInf sortBones TableB
      (importSkin sortInf sortBones TableA Importer).Importer]
    apply mapFind_none_of_not_mem
    rw [hkeysB]
    intro hmem
    apply hkey
    simp only [mapKeys, List.mem_map] at hmem ⊢
    obtain ⟨eA, heA, hk⟩ := hmem
    exact ⟨eA, (List.mem_filter.mp heA).1, hk⟩

/-- Witness for C19 (as amended): the mesh of Scenario C, then a mesh bound to
`bone5`. -/
theorem C19_bones_available_to_second_mesh_witness :
    (IsStdSort BoneIndexInfo.lt sortBoneIndexInfo ∧ RegistryWF scenarioCImporter.BoneIndexMap) ∧
    (mapKeys (importSkin sortBoneInf sortBoneIndexInfo scenarioCTable
        scenarioCImporter).Importer.BoneIndexMap =
      mapKeys (scenarioCImporter.BoneIndexMap.filter (fun e =>
        e.2.IsUsedLink ||
          decide (e.1 ∈ referencedNames (trimAll sortBoneInf scenarioCTable)))) ∧
    (∀ name ∈ referencedNames (trimAll sortBoneInf scenarioCMeshB),
      name ∈ mapKeys (importSkin sortBoneInf sortBoneIndexInfo scenarioCTable
        scenarioCImporter).Importer.BoneIndexMap →
      ∃ L, mapFind (importSkin sortBoneInf sortBoneIndexInfo scenarioCMeshB
          (importSkin sortBoneInf sortBoneIndexInfo scenarioCTable
            scenarioCImporter).Importer).Importer.BoneIndexMap name = some L ∧
        L.IsUsedLink = true ∧
        ∃ h : L.Index < (importSkin sortBoneInf sortBoneIndexInfo scenarioCMeshB
            (importSkin sortBoneInf sortBoneIndexInfo scenarioCTable
              scenarioCImporter).Importer).Importer.BoneArray.length,
          ((importSkin sortBoneInf sortBoneIndexInfo scenarioCMeshB
            (importSkin sortBoneInf sortBoneIndexInfo scenarioCTable
              scenarioCImporter).Importer).Importer.BoneArray[L.Index]).BoneName = name) ∧
    (∀ name,
      name ∉ mapKeys (importSkin sortBoneInf sortBoneIndexInfo scenarioCTable
        scenarioCImporter).Importer.BoneIndexMap →
      mapFind (importSkin sortBoneInf sortBoneIndexInfo scenarioCMeshB
        (importSkin sortBoneInf sortBoneIndexInfo scenarioCTable
          scenarioCImporter).Importer).Importer.BoneIndexMap name = none)) :=
  ⟨⟨sortBoneIndexInfo_isStdSort, scenarioCImporter_inv.1⟩,
    C19_bones_available_to_second_mesh sortBoneInf sortBoneIndexInfo
      sortBoneIndexInfo_isStdSort scenarioCTable scenarioCMeshB scenarioCImporter
      scenarioCImporter_inv.1⟩

/-- Counterexample to C19 as stated: `bone3` is in the initial registry of
Scenario C and is referenced by the second mesh only. The import of the
first mesh erases it, so when the second mesh is imported `bone3` is not in
the registry: it is not marked, gets no dense index, and the slot of the
influence keeps bone index 0. -/
theorem C19_erased_bone_counterexample :
    "bone3" ∈ mapKeys scenarioCImporter.BoneIndexMap ∧
    "bone3" ∈ referencedNames (trimAll sortBoneInf scenarioCMeshBone3) ∧
    mapFind scenarioCFirst.Importer.BoneIndexMap "bone3" = none ∧
    mapFind scenarioCThenBone3.Importer.BoneIndexMap "bone3" = none ∧
    scenarioCThenBone3._SkinInfoArray.map (fun s => s.Bones) = [[0, 0, 0, 0]] := by
  decide

/-! ### Compaction: lists that pass through, and ties -/

/-- C21. An influence list with at most 4 entries is left unchanged by the
compaction step: same entries, same order, same bone names and weights. -/
theorem C21_at_most_four_unchanged (sort : List BoneInf → List BoneInf)
    (BoneLink : List BoneInf) (h : BoneLink.length ≤ 4) :
    trimInfluences sort BoneLink = BoneLink := by
  have hn : ¬ BoneLink.length > 4 := by omega
  rw [trimInfluences, if_neg hn]

/-- Witness for C21: the two influences of vertex 0 of Scenario C. -/
theorem C21_at_most_four_unchanged_witness :
    ([⟨"bone7", 1 / 2⟩, ⟨"bone2", 1 / 2⟩] : List BoneInf).length ≤ 4 ∧
    trimInfluences sortBoneInf [⟨"bone7", 1 / 2⟩, ⟨"bone2", 1 / 2⟩] =
      [⟨"bone7", 1 / 2⟩, ⟨"bone2", 1 / 2⟩] :=
  ⟨by decide, C21_at_most_four_unchanged sortBoneInf [⟨"bone7", 1 / 2⟩, ⟨"bone2", 1 / 2⟩]
    (by decide)⟩

/-- C26 (as amended). For a list with more than 4 influences the compaction
step sorts with `std::sort`, whose contract fixes the order by descending
weight only: the four kept influences are the first four of a rearrangement
of the list in which every kept influence weighs at least as much as every
dropped one. The order of influences of equal weight is not fixed. -/
theorem C26_sort_descending_only (sort : List BoneInf → List BoneInf)
    (hsort : IsStdSort BoneInf.lt sort) (BoneLink : List BoneInf)
    (h : 4 < BoneLink.length) :
    (sort BoneLink).Perm BoneLink ∧
    trimInfluences sort BoneLink =
      ((sort BoneLink).take 4).map (bump (weightSum ((sort BoneLink).drop 4) / 4)) ∧
    ∀ kept ∈ (sort BoneLink).take 4, ∀ dropped ∈ (sort BoneLink).drop 4,
      dropped.Weight ≤ kept.Weight := by
  refine ⟨(hsort BoneLink).1, trimInfluences_gt sort hsort.length_eq BoneLink h, ?_⟩
  intro kept hk dropped hd
  have hpw := (hsort BoneLink).2
  rw [← List.take_append_drop 4 (sort BoneLink), List.pairwise_append] at hpw
  have := hpw.2.2 kept hk dropped hd
  simp only [BoneInf.lt] at this
  by_contra hcon
  have hlt : dropped.Weight > kept.Weight := not_le.mp hcon
  simp [hlt] at this

/-- Witness for C26 (as amended): Scenario A. -/
theorem C26_sort_descending_only_witness :
    (IsStdSort BoneInf.lt sortBoneInf ∧ 4 < scenarioA.length) ∧
    ((sortBoneInf scenarioA).Perm scenarioA ∧
      trimInfluences sortBoneInf scenarioA =
        ((sortBoneInf scenarioA).take 4).map
          (bump (weightSum ((sortBoneInf scenarioA).drop 4) / 4)) ∧
      ∀ kept ∈ (sortBoneInf scenarioA).take 4, ∀ dropped ∈ (sortBoneInf scenarioA).drop 4,
        dropped.Weight ≤ kept.Weight) :=
  ⟨⟨sortBoneInf_isStdSort, by decide⟩,
    C26_sort_descending_only sortBoneInf sortBoneInf_isStdSort scenarioA (by decide)⟩

theorem compareAt_tied (BoneLink : List BoneInf) (w : ℚ)
    (h : ∀ b ∈ BoneLink, b.Weight = w) : compareAt BoneLink = fun _ _ => false := by
  funext i j
  unfold compareAt
  cases hi : BoneLink[i]? with
  | none => rfl
  | some a =>
    cases hj : BoneLink[j]? with
    | none => rfl
    | some b =>
      have ha := h a (List.getElem?_mem hi)
      have hb := h b (List.getElem?_mem hj)
      simp [BoneInf.lt, ha, hb]

theorem trimInfluences_of_sorted (sort : List BoneInf → List BoneInf) (l : List BoneInf)
    (a b c d : BoneInf) (t : List BoneInf) (h : 4 < l.length)
    (hs : sort l = a :: b :: c :: d :: t) :
    trimInfluences sort l =
      [bump (weightSum t / 4) a, bump (weightSum t / 4) b, bump (weightSum t / 4) c,
        bump (weightSum t / 4) d] := by
  have h4 : t.length + 1 + 1 + 1 + 1 - t.length = 4 := by omega
  rw [trimInfluences, if_pos h, hs]
  simp [redistribute_cons4, h4]

/-- The `std::sort` of libstdc++ on twenty elements that all compare equal. -/
theorem stdSortPositions_twenty_tied :
    stdSortPositions (fun _ _ => false) 20 =
      [10, 19, 18, 17, 16, 15, 14, 13, 12, 11, 0, 9, 8, 7, 6, 5, 4, 3, 2, 1] := by
  have hlg : Nat.log2 20 = 4 := by simp [Nat.log2]
  rw [stdSortPositions, if_neg (by decide), hlg]
  decide

/-- The `std::sort` of libstdc++ on five elements that all compare equal. -/
theorem stdSortPositions_five_tied :
    stdSortPositions (fun _ _ => false) 5 = [0, 1, 2, 3, 4] := by
  decide

/-- Counterexample to C26 as stated: twenty influences of equal weight,
collected in the order `A .. T` (positions 0 to 19), sorted by the
`std::sort` of libstdc++. The range is longer than the 16 elements that are
sorted by insertion: the median-of-three step and the partition exchange
equal elements, the sorted list starts with `K, T, S, R`, and these four are
kept instead of `A, B, C, D`, the four collected first. (Five tied
influences are sorted by insertion alone and keep their order.) -/
theorem C26_unstable_sort_counterexample :
    (∀ b ∈ twentyTiedInfluences, b.Weight = 1 / 32) ∧
    twentyTiedInfluences.map (fun b => b.BoneName) =
      ["A", "B", "C", "D", "E", "F", "G", "H", "I", "J",
       "K", "L", "M", "N", "O", "P", "Q", "R", "S", "T"] ∧
    (stdSort twentyTiedInfluences).map (fun b => b.BoneName) =
      ["K", "T", "S", "R", "Q", "P", "O", "N", "M", "L",
       "A", "J", "I", "H", "G", "F", "E", "D", "C", "B"] ∧
    (trimInfluences stdSort twentyTiedInfluences).map (fun b => b.BoneName) =
      ["K", "T", "S", "R"] ∧
    (stdSort fiveTiedInfluences).map (fun b => b.BoneName) = ["A", "B", "C", "D", "E"] := by
  have hw : ∀ b ∈ twentyTiedInfluences, b.Weight = 1 / 32 := by
    intro b hb
    simp only [twentyTiedInfluences, List.mem_cons, List.mem_singleton, List.not_mem_nil,
      or_false] at hb
    rcases hb with h | h | h | h | h | h | h | h | h | h | h | h | h | h | h | h | h | h | h | h <;>
      rw [h]
  have hw5 : ∀ b ∈ fiveTiedInfluences, b.Weight = 1 / 32 := by
    intro b hb
    simp only [fiveTiedInfluences, List.mem_cons, List.mem_singleton, List.not_mem_nil,
      or_false] at hb
    rcases hb with h | h | h | h | h <;> rw [h]
  have hlen : twentyTiedInfluences.length = 20 := rfl
  have hlen5 : fiveTiedInfluences.length = 5 := rfl
  have hsort : stdSort twentyTiedInfluences =
      [⟨"K", 1 / 32⟩, ⟨"T", 1 / 32⟩, ⟨"S", 1 / 32⟩, ⟨"R", 1 / 32⟩, ⟨"Q", 1 / 32⟩,
       ⟨"P", 1 / 32⟩, ⟨"O", 1 / 32⟩, ⟨"N", 1 / 32⟩, ⟨"M", 1 / 32⟩, ⟨"L", 1 / 32⟩,
       ⟨"A", 1 / 32⟩, ⟨"J", 1 / 32⟩, ⟨"I", 1 / 32⟩, ⟨"H", 1 / 32⟩, ⟨"G", 1 / 32⟩,
       ⟨"F", 1 / 32⟩, ⟨"E", 1 / 32⟩, ⟨"D", 1 / 32⟩, ⟨"C", 1 / 32⟩, ⟨"B", 1 / 32⟩] := by
    rw [stdSort, compareAt_tied twentyTiedInfluences (1 / 32) hw, hlen,
      stdSortPositions_twenty_tied]
    rfl
  have hsort5 : stdSort fiveTiedInfluences = fiveTiedInfluences := by
    rw [stdSort, compareAt_tied fiveTiedInfluences (1 / 32) hw5, hlen5,
      stdSortPositions_five_tied]
    rfl
  refine ⟨hw, rfl, ?_, ?_, ?_⟩
  · rw [hsort]
    rfl
  · rw [trimInfluences_of_sorted stdSort twentyTiedInfluences _ _ _ _ _ (by decide) hsort]
    rfl
  · rw [hsort5]
    rfl

/-! ### The collection loops -/

theorem Extends.trans {T0 T1 T2 : List VertexSkinInfo} {f g : Nat → List BoneInf}
    (h1 : Extends T0 T1 f) (h2 : Extends T1 T2 g) :
    Extends T0 T2 (fun v => f v ++ g v) := by
  refine ⟨h2.1.trans h1.1, fun v V hV => ?_⟩
  have := h2.2 v _ (h1.2 v V hV)
  rw [this, List.append_assoc]

theorem Extends.refl (T : List VertexSkinInfo) : Extends T T (fun _ => []) := by
  refine ⟨rfl, fun v V hV => ?_⟩
  rw [hV, List.append_nil]

theorem collectPair_extends (Bone : String) (T : List VertexSkinInfo) (p : Nat × ℚ)
    (hp : p.1 < T.length) :
    ∃ T1, collectPair Bone T p = some T1 ∧
      Extends T T1 (fun v => if p.1 = v then [⟨Bone, p.2⟩] else []) := by
  have hget : T[p.1]? = some T[p.1] := List.getElem?_eq_getElem hp
  refine ⟨T.set p.1 ⟨T[p.1].BoneLink ++ [⟨Bone, p.2⟩]⟩, ?_, ?_, ?_⟩
  · simp only [collectPair, hget]
  · simp
  · intro v V hV
    by_cases hv : p.1 = v
    · subst hv
      rw [hget] at hV
      cases hV
      simp [List.getElem?_set, hp]
    · rw [List.getElem?_set_ne hv, hV]
      simp [hv]

theorem foldlM_collectPair_extends (Bone : String) (ps : List (Nat × ℚ)) :
    ∀ (T : List VertexSkinInfo), (∀ p ∈ ps, p.1 < T.length) →
    ∃ T1, ps.foldlM (collectPair Bone) T = some T1 ∧
      Extends T T1 (fun v => (ps.filter (fun p => p.1 = v)).map (fun p => ⟨Bone, p.2⟩)) := by
  induction ps with
  | nil =>
    intro T _
    exact ⟨T, rfl, Extends.refl T⟩
  | cons p ps ih =>
    intro T h
    obtain ⟨T1, h1, e1⟩ := collectPair_extends Bone T p (h p (List.mem_cons_self _ _))
    obtain ⟨T2, h2, e2⟩ := ih T1 (fun q hq => by
      rw [e1.1]; exact h q (List.mem_cons_of_mem _ hq))
    refine ⟨T2, ?_, ?_⟩
    · rw [List.foldlM_cons, h1]
      exact h2
    · have := e1.trans e2
      refine ⟨this.1, fun v V hV => ?_⟩
      rw [this.2 v V hV]
      by_cases hv : p.1 = v <;> simp [List.filter_cons, hv]

theorem collectCluster_extends (c : FbxCluster) (T : List VertexSkinInfo)
    (h : ∀ p ∈ c.ControlPoints, p.1 < T.length) :
    ∃ T1, collectCluster T c = some T1 ∧
      Extends T T1 (fun v => clusterInfluencesOf v c) := by
  unfold collectCluster clusterInfluencesOf
  cases hL : c.Link with
  | none => exact ⟨T, rfl, Extends.refl T⟩
  | some Bone => exact foldlM_collectPair_extends Bone c.ControlPoints T h

theorem collectSkin_extends (cs : List FbxCluster) :
    ∀ (T : List VertexSkinInfo), (∀ c ∈ cs, ∀ p ∈ c.ControlPoints, p.1 < T.length) →
    ∃ T1, cs.foldlM collectCluster T = some T1 ∧
      Extends T T1 (fun v => cs.flatMap (clusterInfluencesOf v)) := by
  induction cs with
  | nil =>
    intro T _
    exact ⟨T, rfl, Extends.refl T⟩
  | cons c cs ih =>
    intro T h
    obtain ⟨T1, h1, e1⟩ := collectCluster_extends c T (h c (List.mem_cons_self _ _))
    obtain ⟨T2, h2, e2⟩ := ih T1 (fun d hd q hq => by
      rw [e1.1]; exact h d (List.mem_cons_of_mem _ hd) q hq)
    refine ⟨T2, ?_, ?_⟩
    · rw [List.foldlM_cons, h1]
      exact h2
    · have := e1.trans e2
      refine ⟨this.1, fun v V hV => ?_⟩
      rw [this.2 v V hV]
      simp only [List.flatMap_cons]

theorem collectSkins_extends (Skins : List FbxSkin) :
    ∀ (T : List VertexSkinInfo),
      (∀ s ∈ Skins, ∀ c ∈ s.Clusters, ∀ p ∈ c.ControlPoints, p.1 < T.length) →
    ∃ T1, Skins.foldlM collectSkin T = some T1 ∧
      Extends T T1 (fun v => influencesOf Skins v) := by
  induction Skins with
  | nil =>
    intro T _
    exact ⟨T, rfl, Extends.refl T⟩
  | cons s ss ih =>
    intro T h
    obtain ⟨T1, h1, e1⟩ := collectSkin_extends s.Clusters T (h s (List.mem_cons_self _ _))
    obtain ⟨T2, h2, e2⟩ := ih T1 (fun t ht d hd q hq => by
      rw [e1.1]; exact h t (List.mem_cons_of_mem _ ht) d hd q hq)
    refine ⟨T2, ?_, ?_⟩
    · have h1c : collectSkin T s = some T1 := h1
      rw [List.foldlM_cons, h1c]
      exact h2
    · have := e1.trans e2
      refine ⟨this.1, fun v V hV => ?_⟩
      rw [this.2 v V hV]
      simp only [influencesOf, List.flatMap_cons]

/-- C22. When every control-point index of every cluster is below the
control-point count, the collection loops complete, and the influence list of
control point `v` is the sequence of (linked bone name, weight) over the
triples (skin, cluster, pair) whose pair names `v`, in iteration order:
repeated references to a bone stay separate entries, and a cluster without a
link contributes nothing. -/
theorem C22_collection_sequence (lVertexCount : Nat) (Skins : List FbxSkin)
    (h : ∀ s ∈ Skins, ∀ c ∈ s.Clusters, ∀ p ∈ c.ControlPoints, p.1 < lVertexCount) :
    ∃ SkinInfoArray, collectSkinInfo lVertexCount Skins = some SkinInfoArray ∧
      SkinInfoArray.length = lVertexCount ∧
      ∀ v, v < lVertexCount → SkinInfoArray[v]? = some ⟨influencesOf Skins v⟩ := by
  obtain ⟨T1, h1, e1⟩ := collectSkins_extends Skins (List.replicate lVertexCount ⟨[]⟩)
    (by simpa using h)
  refine ⟨T1, h1, by simpa using e1.1, fun v hv => ?_⟩
  have := e1.2 v ⟨[]⟩ (by simp [List.getElem?_replicate, hv])
  simpa using this

/-- Witness for C22: two skins over three control points. Control point 1
receives `hip` twice (once with weight 0) and `knee` once, in that order. -/
theorem C22_collection_sequence_witness :
    (∀ s ∈ twoSkins, ∀ c ∈ s.Clusters, ∀ p ∈ c.ControlPoints, p.1 < 3) ∧
    (∃ SkinInfoArray, collectSkinInfo 3 twoSkins = some SkinInfoArray ∧
      SkinInfoArray.length = 3 ∧
      ∀ v, v < 3 → SkinInfoArray[v]? = some ⟨influencesOf twoSkins v⟩) ∧
    influencesOf twoSkins 1 = [⟨"hip", 1 / 2⟩, ⟨"hip", 0⟩, ⟨"knee", 1 / 2⟩] :=
  ⟨by decide, C22_collection_sequence 3 twoSkins (by decide), by rfl⟩

/-- C27. A cluster pair whose control-point index is not below the
control-point count is not skipped: the append to `SkinInfoArray[lIndex]`
precedes the test `lIndex >= lVertexCount`. For a mesh with one control point
and a cluster that also weights control point 1, the loops index the table
of length 1 at position 1. -/
theorem C27_append_precedes_bound_check :
    collectSkinInfo 1 staleSkin = none ∧
    collectPair "hip" [⟨[⟨"hip", 1⟩]⟩] (1, 1) = none := by
  decide

/-! ### Partitioning of every mesh whose material count matches -/

theorem map_range_getElem?_getD (l : List Nat) :
    (List.range l.length).map (fun p => (l[p]?).getD 0) = l := by
  apply List.ext_getElem
  · simp
  · intro i h1 h2
    simp [h2]

theorem tableLen_replicate_zero (n : Nat) : tableLen (List.replicate n 0) ≤ 1 := by
  induction n with
  | zero => simp [tableLen]
  | succ n ih =>
    rw [List.replicate_succ', tableLen_append]
    omega

theorem foldlM_congr_mem {α β : Type} (f g : β → α → Option β) (l : List α) :
    ∀ (b : β), (∀ a ∈ l, ∀ c, f c a = g c a) → l.foldlM f b = l.foldlM g b := by
  induction l with
  | nil => intro b _; rfl
  | cons a t ih =>
    intro b h
    rw [List.foldlM_cons, List.foldlM_cons, h a (List.mem_cons_self _ _) b]
    cases hg : g b a with
    | none => rfl
    | some c => exact ih c (fun x hx d => h x (List.mem_cons_of_mem _ hx) d)

theorem fillMaterialIndex_default (Mesh : FbxMesh)
    (h : ∀ em, Mesh.ElementMaterial = some em → em.MappingMode ≠ EMappingMode.eByPolygon)
    (p : Nat) : fillMaterialIndex Mesh p = some 0 := by
  unfold fillMaterialIndex
  cases hm : Mesh.ElementMaterial with
  | none => rfl
  | some em => simp [h em hm]

theorem buildSubMeshes_default (Mesh : FbxMesh)
    (h : ∀ em, Mesh.ElementMaterial = some em → em.MappingMode ≠ EMappingMode.eByPolygon) :
    buildSubMeshes Mesh = [some SubMesh.new] := by
  unfold buildSubMeshes
  cases hm : Mesh.ElementMaterial with
  | none => simp
  | some em => simp [h em hm]

theorem partitionAndFill_twin (Mesh : FbxMesh)
    (h : ∀ em, Mesh.ElementMaterial = some em → em.MappingMode ≠ EMappingMode.eByPolygon) :
    partitionAndFill Mesh = partitionAndFill (byPolygonTwin Mesh) := by
  have hstart : fillStart Mesh = fillStart (byPolygonTwin Mesh) := by
    have hb := buildSubMeshes_eq (byPolygonTwin Mesh)
      { IndexArray := List.replicate Mesh.PolygonCount 0,
        MappingMode := EMappingMode.eByPolygon } rfl rfl (by simp [byPolygonTwin])
    have hL := tableLen_replicate_zero Mesh.PolygonCount
    have h1 : max (tableLen (List.replicate Mesh.PolygonCount 0)) 1 = 1 := by omega
    simp only [h1] at hb
    simp only [fillStart, buildSubMeshes_default Mesh h, hb]
    simp [cursorTable, offsetOf, SubMesh.new, byPolygonTwin, List.range_succ]
  unfold partitionAndFill fillPass
  rw [hstart]
  apply foldlM_congr_mem
  intro p hp st
  have hp2 : p < Mesh.PolygonCount := List.mem_range.mp hp
  have ht : fillMaterialIndex (byPolygonTwin Mesh) p = some 0 := by
    simp [fillMaterialIndex, byPolygonTwin, hp2]
  simp only [fillPolygon, fillMaterialIndex_default Mesh h p, ht]
  rfl

theorem resolvedMaterials_byPolygon (Mesh : FbxMesh) (em : FbxGeometryElementMaterial)
    (hmat : Mesh.ElementMaterial = some em)
    (hmode : em.MappingMode = EMappingMode.eByPolygon)
    (hlen : em.IndexArray.length = Mesh.PolygonCount) :
    resolvedMaterials Mesh = em.IndexArray := by
  have : resolvedMaterials Mesh =
      (List.range em.IndexArray.length).map (fun p => (em.IndexArray[p]?).getD 0) := by
    simp [resolvedMaterials, fillMaterialIndex, hmat, hmode, hlen]
  rw [this, map_range_getElem?_getD]

theorem resolvedMaterials_default (Mesh : FbxMesh)
    (h : ∀ em, Mesh.ElementMaterial = some em → em.MappingMode ≠ EMappingMode.eByPolygon) :
    resolvedMaterials Mesh = List.replicate Mesh.PolygonCount 0 := by
  apply List.ext_getElem
  · simp [resolvedMaterials]
  · intro i h1 h2
    simp [resolvedMaterials, fillMaterialIndex_default Mesh h]

/-- For every mesh whose material count matches (no material element, a
mapping other than by polygon, or one index per polygon) the partitioning and
the fill pass complete: the submesh table has one entry per material index up
to the largest resolved one (one entry at least), the final triangle count of
submesh `m` is the number of polygons resolved to `m`, every index-array
position below `3 * PolygonCount` is written once and no other. -/
theorem partitionAndFill_counts (Mesh : FbxMesh) (hwf : MaterialCountMatches Mesh) :
    ∃ st, partitionAndFill Mesh = some st ∧
      st._SubMeshArray.length = max (tableLen (resolvedMaterials Mesh)) 1 ∧
      (∀ m, triangleCountAt st._SubMeshArray m = (resolvedMaterials Mesh).count m) ∧
      st.written.Perm (List.range (3 * Mesh.PolygonCount)) := by
  have key : ∀ (M : FbxMesh) (em : FbxGeometryElementMaterial),
      M.ElementMaterial = some em → em.MappingMode = EMappingMode.eByPolygon →
      em.IndexArray.length = M.PolygonCount →
      ∃ st, partitionAndFill M = some st ∧
        st._SubMeshArray.length = max (tableLen em.IndexArray) 1 ∧
        (∀ m, triangleCountAt st._SubMeshArray m = em.IndexArray.count m) ∧
        st.written.Perm (List.range (3 * M.PolygonCount)) := by
    intro M em hmat hmode hlen
    obtain ⟨st, hrun, hsub, -, -, hwr, -⟩ := partitionAndFill_inv M em hmat hmode hlen
    rw [List.take_length] at hsub
    refine ⟨st, hrun, by simp [hsub, cursorTable], ?_, ?_⟩
    · intro m
      rw [hsub]
      by_cases hm : m < max (tableLen em.IndexArray) 1
      · exact triangleCountAt_cursorTable _ _ _ m hm
      · have hnot : m ∉ em.IndexArray := fun hmem => by
          have := lt_tableLen_of_mem hmem
          omega
        have hnone : (cursorTable em.IndexArray (max (tableLen em.IndexArray) 1)
            em.IndexArray)[m]? = none := by
          rw [List.getElem?_eq_none]
          simp only [cursorTable, List.length_map, List.length_range]
          omega
        simp [triangleCountAt, hnone, List.count_eq_zero_of_not_mem hnot]
    · rw [hwr, ← hlen]
      exact written_perm_range em.IndexArray
  by_cases hby : ∃ em, Mesh.ElementMaterial = some em ∧
      em.MappingMode = EMappingMode.eByPolygon
  · obtain ⟨em, hmat, hmode⟩ := hby
    have hlen := hwf em hmat hmode
    rw [resolvedMaterials_byPolygon Mesh em hmat hmode hlen]
    exact key Mesh em hmat hmode hlen
  · have hdef : ∀ em, Mesh.ElementMaterial = some em →
        em.MappingMode ≠ EMappingMode.eByPolygon := fun em hmat hmode => hby ⟨em, hmat, hmode⟩
    rw [partitionAndFill_twin Mesh hdef, resolvedMaterials_default Mesh hdef]
    exact key (byPolygonTwin Mesh) _ rfl rfl (by simp [byPolygonTwin])

theorem tableLen_attained {mats : List Nat} (h : mats ≠ []) :
    ∃ m ∈ mats, tableLen mats = m + 1 ∧ ∀ x ∈ mats, x ≤ m := by
  induction mats using List.reverseRecOn with
  | nil => exact absurd rfl h
  | append_singleton p x ih =>
    rw [tableLen_append]
    by_cases hp : p = []
    · subst hp
      refine ⟨x, by simp, ?_, ?_⟩
      · have : tableLen ([] : List Nat) = 0 := rfl
        rw [this]; omega
      · intro y hy
        simp at hy
        omega
    · obtain ⟨m, hm, hlen, hmax⟩ := ih hp
      by_cases hxm : x ≤ m
      · refine ⟨m, List.mem_append_left _ hm, by rw [hlen]; omega, ?_⟩
        intro y hy
        rcases List.mem_append.mp hy with hy | hy
        · exact hmax y hy
        · simp at hy; omega
      · refine ⟨x, by simp, by rw [hlen]; omega, ?_⟩
        intro y hy
        rcases List.mem_append.mp hy with hy | hy
        · have := hmax y hy; omega
        · simp at hy; omega

/-- The partitioning of a mesh with at least one polygon whose material count
matches: the number of submeshes is the largest resolved material index plus
one, and submesh `m` ends with as many triangles as there are polygons
resolved to `m`. -/
theorem submeshes_of_matching_mesh (Mesh : FbxMesh) (hwf : MaterialCountMatches Mesh)
    (hpos : 0 < Mesh.PolygonCount) :
    ∃ st, partitionAndFill Mesh = some st ∧
      (∃ M ∈ resolvedMaterials Mesh, (∀ x ∈ resolvedMaterials Mesh, x ≤ M) ∧
        st._SubMeshArray.length = M + 1) ∧
      ∀ m, triangleCountAt st._SubMeshArray m = (resolvedMaterials Mesh).count m := by
  obtain ⟨st, hrun, hlen, hcount, -⟩ := partitionAndFill_counts Mesh hwf
  have hne : resolvedMaterials Mesh ≠ [] := by
    intro h
    have := congrArg List.length h
    simp [resolvedMaterials] at this
    omega
  obtain ⟨M, hM, hT, hmax⟩ := tableLen_attained hne
  exact ⟨st, hrun, ⟨M, hM, hmax, by rw [hlen, hT]; omega⟩, hcount⟩

/-- C23. The table of a mesh whose by-polygon material element has more
indices than the mesh has polygons: the count pass is skipped (line 110), the
table is the single default submesh, and the fill pass resolves polygon 1 to
material 1 and looks up `_SubMeshArray[1]`, past the end of the table: no
state with `(max index) + 1 = 2` submeshes is reached. -/
theorem C23_fill_pass_ignores_count_guard :
    extraIndexMesh.PolygonCount = 2 ∧
    resolvedMaterials extraIndexMesh = [0, 1] ∧
    buildSubMeshes extraIndexMesh = [some SubMesh.new] ∧
    partitionAndFill extraIndexMesh = none :=
  ⟨rfl, by decide, by decide, rfl⟩

/-- C28. A mesh with one polygon whose by-polygon material element has two
indices, `[1, 0]`: the table is the single default submesh, the fill pass
reads material 1 for polygon 0 and its lookup `_SubMeshArray[1]` is outside
the table. -/
theorem C28_submesh_lookup_out_of_bounds :
    (buildSubMeshes twoIndexTriangle).length = 1 ∧
    fillMaterialIndex twoIndexTriangle 0 = some 1 ∧
    (buildSubMeshes twoIndexTriangle)[1]? = none ∧
    fillPolygon twoIndexTriangle (fillStart twoIndexTriangle) 0 = none ∧
    partitionAndFill twoIndexTriangle = none :=
  ⟨by decide, by decide, by decide, rfl, rfl⟩

/-! ### Stored bone indices and the bone count -/

theorem slotBone_lt (sortBones : List BoneIndexInfo → List BoneIndexInfo)
    (hsortBones : IsStdSort BoneIndexInfo.lt sortBones) (T : List VertexSkinInfo)
    (Importer : FbxFileImporter) (hwf : RegistryWF Importer.BoneIndexMap) (inf : BoneInf)
    (href : inf.BoneName ∈ referencedNames T)
    (hpres : inf.BoneName ∈ mapKeys Importer.BoneIndexMap) :
    slotBone (resolveBones sortBones T Importer).BoneIndexMap inf <
      (resolveBones sortBones T Importer).BoneArray.length := by
  simp only [mapKeys, List.mem_map] at hpres
  obtain ⟨e0, he0, hname⟩ := hpres
  have hF := marked_wf (T := T) hwf
  have hR : RegistryWF (resolveBones sortBones T Importer).BoneIndexMap := assigned_wf hF
  have hF1 := mem_marked_of_referenced (T := T) hwf.1 he0 (by rw [hname]; exact href)
  have hmemR : (e0.1, setIndex ((finalIndex 0 (resolveBones sortBones T
      Importer).BoneArray e0.1).getD (setUsed e0.2).Index) (setUsed e0.2)) ∈
      (resolveBones sortBones T Importer).BoneIndexMap := by
    simp only [resolveBones]
    exact (mem_assigned hF.1).mpr ⟨_, hF1, rfl⟩
  have hfind := mapFind_of_mem hR.1 hmemR
  obtain ⟨-, hlt, -⟩ := resolveBones_index sortBones hsortBones T Importer hwf _ hmemR
  have hslot : slotBone (resolveBones sortBones T Importer).BoneIndexMap inf =
      (setIndex ((finalIndex 0 (resolveBones sortBones T
        Importer).BoneArray e0.1).getD (setUsed e0.2).Index) (setUsed e0.2)).Index := by
    simp only [slotBone, ← hname]
    simp only at hfind
    rw [hfind]
  rw [hslot]
  exact hlt

/-- C30 (as amended). After the import of a skinned mesh that has at least one
kept influence and in which the bone of every kept influence is in the
registry, every bone index in a `SkinInfo` slot (written from an influence or
padded with 0) is smaller than `_NumBone`, and `_RequiredBoneArray` has
`_NumBone` entries, so the index selects an entry of that array. The importer
may be in any state of a session: first and later imports alike. -/
theorem C30_slot_index_below_bone_count (sortInf : List BoneInf → List BoneInf)
    (sortBones : List BoneIndexInfo → List BoneIndexInfo)
    (hsortInf : IsStdSort BoneInf.lt sortInf) (hsortBones : IsStdSort BoneIndexInfo.lt sortBones)
    (SkinInfoArray : List VertexSkinInfo) (Importer : FbxFileImporter)
    (hwf : RegistryWF Importer.BoneIndexMap)
    (hpresent : ∀ name ∈ referencedNames (trimAll sortInf SkinInfoArray),
      name ∈ mapKeys Importer.BoneIndexMap)
    (hkept : referencedNames (trimAll sortInf SkinInfoArray) ≠ []) :
    (importSkin sortInf sortBones SkinInfoArray Importer)._RequiredBoneArray.length =
      (importSkin sortInf sortBones SkinInfoArray Importer)._NumBone ∧
    (importSkin sortInf sortBones SkinInfoArray Importer)._SkinInfoArray.length =
      SkinInfoArray.length ∧
    ∀ (Vert : Nat) (skin : SkinInfo),
      (importSkin sortInf sortBones SkinInfoArray Importer)._SkinInfoArray[Vert]? = some skin →
      skin.Bones.length = 4 ∧
      ∀ (k b : Nat), skin.Bones[k]? = some b →
        b < (importSkin sortInf sortBones SkinInfoArray Importer)._NumBone ∧
        ∃ SkeletonIndex,
          (importSkin sortInf sortBones SkinInfoArray Importer)._RequiredBoneArray[b]? =
            some SkeletonIndex := by
  have hnum : (importSkin sortInf sortBones SkinInfoArray Importer)._NumBone =
      (resolveBones sortBones (trimAll sortInf SkinInfoArray) Importer).BoneArray.length := rfl
  have hreq : (importSkin sortInf sortBones SkinInfoArray Importer)._RequiredBoneArray.length =
      (resolveBones sortBones (trimAll sortInf SkinInfoArray) Importer).BoneArray.length := by
    rw [importSkin_required, List.length_map]
  have hskin : (importSkin sortInf sortBones SkinInfoArray Importer)._SkinInfoArray =
      (trimAll sortInf SkinInfoArray).map (fun Vertex =>
        remapVertex (resolveBones sortBones (trimAll sortInf SkinInfoArray)
          Importer).BoneIndexMap Vertex SkinInfo.zero) := rfl
  -- the bone count is positive: some kept influence has a registry entry
  have hpos : 0 < (resolveBones sortBones (trimAll sortInf SkinInfoArray)
      Importer).BoneArray.length := by
    obtain ⟨name, hname⟩ := List.exists_mem_of_ne_nil _ hkept
    have hmem := hname
    simp only [referencedNames, List.mem_flatMap, List.mem_map] at hmem
    obtain ⟨Vertex, -, inf, -, hinf⟩ := hmem
    have := slotBone_lt sortBones hsortBones (trimAll sortInf SkinInfoArray) Importer hwf inf
      (by rw [hinf]; exact hname) (by rw [hinf]; exact hpresent name hname)
    omega
  refine ⟨by rw [hreq, hnum], by rw [hskin]; simp [trimAll], ?_⟩
  intro Vert skin hs
  rw [hskin, List.getElem?_map] at hs
  cases hV : (trimAll sortInf SkinInfoArray)[Vert]? with
  | none => rw [hV] at hs; exact Option.noConfusion hs
  | some Vertex =>
    rw [hV] at hs
    simp only [Option.map_some', Option.some.injEq] at hs
    have hle := trimAll_length_le sortInf hsortInf SkinInfoArray Vert Vertex hV
    obtain ⟨-, lb, hat, hpad⟩ := remapVertex_slots
      (resolveBones sortBones (trimAll sortInf SkinInfoArray) Importer).BoneIndexMap Vertex hle
    rw [hs] at lb hat hpad
    refine ⟨lb, ?_⟩
    intro k b hb
    have hlt : b < (resolveBones sortBones (trimAll sortInf SkinInfoArray)
        Importer).BoneArray.length := by
      by_cases hk : k < Vertex.BoneLink.length
      · have hinf : Vertex.BoneLink[k]? = some Vertex.BoneLink[k] :=
          List.getElem?_eq_getElem hk
        have h2 := (hat k _ hinf).2
        rw [hb] at h2
        cases h2
        have href := mem_referencedNames hV hinf
        exact slotBone_lt sortBones hsortBones (trimAll sortInf SkinInfoArray) Importer hwf _
          href (hpresent _ href)
      · have hk4 : k < 4 := by
          by_contra hcon
          have : skin.Bones[k]? = none := List.getElem?_eq_none (by omega)
          rw [this] at hb
          exact Option.noConfusion hb
        have h2 := (hpad k (by omega) hk4).2
        rw [hb] at h2
        cases h2
        exact hpos
    refine ⟨by rw [hnum]; exact hlt, ?_⟩
    have hlt2 : b < (importSkin sortInf sortBones SkinInfoArray
        Importer)._RequiredBoneArray.length := by rw [hreq]; exact hlt
    exact ⟨_, List.getElem?_eq_getElem hlt2⟩

/-- Witness for C30 (as amended): a later import of a session, the mesh bound
to `bone5` imported after the mesh of Scenario C. -/
theorem C30_slot_index_below_bone_count_witness :
    (IsStdSort BoneInf.lt sortBoneInf ∧ IsStdSort BoneIndexInfo.lt sortBoneIndexInfo ∧
      RegistryWF scenarioCFirst.Importer.BoneIndexMap ∧
      (∀ name ∈ referencedNames (trimAll sortBoneInf scenarioCMeshB),
        name ∈ mapKeys scenarioCFirst.Importer.BoneIndexMap) ∧
      referencedNames (trimAll sortBoneInf scenarioCMeshB) ≠ []) ∧
    ((importSkin sortBoneInf sortBoneIndexInfo scenarioCMeshB
        scenarioCFirst.Importer)._RequiredBoneArray.length =
      (importSkin sortBoneInf sortBoneIndexInfo scenarioCMeshB
        scenarioCFirst.Importer)._NumBone ∧
    (importSkin sortBoneInf sortBoneIndexInfo scenarioCMeshB
        scenarioCFirst.Importer)._SkinInfoArray.length = scenarioCMeshB.length ∧
    ∀ (Vert : Nat) (skin : SkinInfo),
      (importSkin sortBoneInf sortBoneIndexInfo scenarioCMeshB
        scenarioCFirst.Importer)._SkinInfoArray[Vert]? = some skin →
      skin.Bones.length = 4 ∧
      ∀ (k b : Nat), skin.Bones[k]? = some b →
        b < (importSkin sortBoneInf sortBoneIndexInfo scenarioCMeshB
          scenarioCFirst.Importer)._NumBone ∧
        ∃ SkeletonIndex,
          (importSkin sortBoneInf sortBoneIndexInfo scenarioCMeshB
            scenarioCFirst.Importer)._RequiredBoneArray[b]? = some SkeletonIndex) :=
  ⟨⟨sortBoneInf_isStdSort, sortBoneIndexInfo_isStdSort,
      (resolveBones_inv sortBoneIndexInfo sortBoneIndexInfo_isStdSort
        (trimAll sortBoneInf scenarioCTable) scenarioCImporter scenarioCImporter_inv).1,
      by decide, by decide⟩,
    C30_slot_index_below_bone_count sortBoneInf sortBoneIndexInfo sortBoneInf_isStdSort
      sortBoneIndexInfo_isStdSort scenarioCMeshB scenarioCFirst.Importer
      (resolveBones_inv sortBoneIndexInfo sortBoneIndexInfo_isStdSort
        (trimAll sortBoneInf scenarioCTable) scenarioCImporter scenarioCImporter_inv).1
      (by decide) (by decide)⟩

/-- Counterexample to C30 as stated: a skinned mesh whose only control point
has no influence, imported first in a session in a build without assertions.
No kept influence names a bone outside the registry, the import returns
`true`, the bone count is 0 and `_RequiredBoneArray` is empty, and the four
slots of the vertex hold the bone index 0, which is not below 0. -/
theorem C30_no_influence_counterexample :
    (∀ name ∈ referencedNames (trimAll sortBoneInf noInfluenceTable),
      name ∈ mapKeys scenarioCImporter.BoneIndexMap) ∧
    (importMesh true sortBoneInf sortBoneIndexInfo (skinnedRun noInfluenceTable)
      scenarioCImporter).result = some true ∧
    (importSkin sortBoneInf sortBoneIndexInfo noInfluenceTable scenarioCImporter)._NumBone = 0 ∧
    (importSkin sortBoneInf sortBoneIndexInfo noInfluenceTable
      scenarioCImporter)._RequiredBoneArray = [] ∧
    (importSkin sortBoneInf sortBoneIndexInfo noInfluenceTable
      scenarioCImporter)._SkinInfoArray.map (fun skin => skin.Bones) = [[0, 0, 0, 0]] := by
  refine ⟨by decide, by decide, by decide, by decide, by decide⟩

/-! ### Vertex attribute arrays -/

theorem lPolygonVertexCount_eq (Mesh : FbxMesh) :
    lPolygonVertexCount Mesh = Mesh.ControlPointsCount := rfl

theorem getElem?_set_step {α : Type} (l : List α) (k i : Nat) (x : α) (f : Nat → α)
    (hk : k < l.length) (hi : i < k + 1) (h : ∀ j, j < k → l[j]? = some (f j))
    (hx : x = f k) : (l.set k x)[i]? = some (f i) := by
  by_cases hik : i = k
  · subst hik
    simp [List.getElem?_set, hk, hx]
  · have hne : ¬ k = i := fun e => hik e.symm
    rw [List.getElem?_set_ne hne]
    exact h i (by omega)

theorem populateControlPoint_step (Normalize : Vec3 → Vec3) (a : FbxMeshAttributes)
    (n k : Nat) (hk : k < n) (arrays : VertexArrays)
    (hinv : PopulateInv Normalize a n k arrays) :
    ∃ arrays1, populateControlPoint Normalize a arrays k = some arrays1 ∧
      PopulateInv Normalize a n (k + 1) arrays1 := by
  obtain ⟨hp, hnl, hul, hat⟩ := hinv
  have hkp : k < arrays._PositionArray.length := by rw [hp]; exact hk
  cases hn : mHasNormal a <;> cases hu : mHasUV a
  · simp only [hn, hu, Bool.false_eq_true, if_false] at hnl hul
    refine ⟨⟨arrays._PositionArray.set k (a.ControlPoint k), arrays._NormalArray,
      arrays._TexCoordArray⟩, ?_, ?_⟩
    · simp [populateControlPoint, setAt, hkp, hn, hu]
    · refine ⟨by simpa using hp, by simpa [hn] using hnl, by simpa [hu] using hul, ?_⟩
      intro i hi
      refine ⟨?_, by simp [hn], by simp [hu]⟩
      exact getElem?_set_step _ k i _ a.ControlPoint hkp hi (fun j hj => (hat j hj).1) rfl
  · simp only [hn, hu, Bool.false_eq_true, if_false, if_true] at hnl hul
    have hku : k < arrays._TexCoordArray.length := by rw [hul]; exact hk
    refine ⟨⟨arrays._PositionArray.set k (a.ControlPoint k), arrays._NormalArray,
      arrays._TexCoordArray.set k (a.UV k)⟩, ?_, ?_⟩
    · simp [populateControlPoint, setAt, hkp, hku, hn, hu]
    · refine ⟨by simpa using hp, by simpa [hn] using hnl, by simpa [hu] using hul, ?_⟩
      intro i hi
      refine ⟨?_, by simp [hn], fun _ => ?_⟩
      · exact getElem?_set_step _ k i _ a.ControlPoint hkp hi (fun j hj => (hat j hj).1) rfl
      · exact getElem?_set_step _ k i _ a.UV hku hi (fun j hj => (hat j hj).2.2 hu) rfl
  · simp only [hn, hu, Bool.false_eq_true, if_false, if_true] at hnl hul
    have hkn : k < arrays._NormalArray.length := by rw [hnl]; exact hk
    refine ⟨⟨arrays._PositionArray.set k (a.ControlPoint k),
      arrays._NormalArray.set k (storedNormal Normalize (a.Normal k)),
      arrays._TexCoordArray⟩, ?_, ?_⟩
    · simp [populateControlPoint, setAt, hkp, hkn, hn, hu]
    · refine ⟨by simpa using hp, by simpa [hn] using hnl, by simpa [hu] using hul, ?_⟩
      intro i hi
      refine ⟨?_, fun _ => ?_, by simp [hu]⟩
      · exact getElem?_set_step _ k i _ a.ControlPoint hkp hi (fun j hj => (hat j hj).1) rfl
      · exact getElem?_set_step _ k i _ (fun j => storedNormal Normalize (a.Normal j)) hkn hi
          (fun j hj => (hat j hj).2.1 hn) rfl
  · simp only [hn, hu, if_true] at hnl hul
    have hkn : k < arrays._NormalArray.length := by rw [hnl]; exact hk
    have hku : k < arrays._TexCoordArray.length := by rw [hul]; exact hk
    refine ⟨⟨arrays._PositionArray.set k (a.ControlPoint k),
      arrays._NormalArray.set k (storedNormal Normalize (a.Normal k)),
      arrays._TexCoordArray.set k (a.UV k)⟩, ?_, ?_⟩
    · simp [populateControlPoint, setAt, hkp, hkn, hku, hn, hu]
    · refine ⟨by simpa using hp, by simpa [hn] using hnl, by simpa [hu] using hul, ?_⟩
      intro i hi
      refine ⟨?_, fun _ => ?_, fun _ => ?_⟩
      · exact getElem?_set_step _ k i _ a.ControlPoint hkp hi (fun j hj => (hat j hj).1) rfl
      · exact getElem?_set_step _ k i _ (fun j => storedNormal Normalize (a.Normal j)) hkn hi
          (fun j hj => (hat j hj).2.1 hn) rfl
      · exact getElem?_set_step _ k i _ a.UV hku hi (fun j hj => (hat j hj).2.2 hu) rfl

theorem populate_upTo (Normalize : Vec3 → Vec3) (Mesh : FbxMesh) (a : FbxMeshAttributes)
    (huv : mHasUV a = true → 0 < a.UVSetNamesCount) :
    ∀ k, k ≤ Mesh.ControlPointsCount →
      ∃ arrays, (List.range k).foldlM (populateControlPoint Normalize a)
          (allocateArrays Mesh a) = some arrays ∧
        PopulateInv Normalize a Mesh.ControlPointsCount k arrays := by
  intro k
  induction k with
  | zero =>
    intro _
    refine ⟨allocateArrays Mesh a, rfl, ?_, ?_, ?_, ?_⟩
    · simp [allocateArrays, lPolygonVertexCount_eq]
    · cases hn : mHasNormal a <;> simp [allocateArrays, lPolygonVertexCount_eq, hn]
    · cases hu : mHasUV a
      · simp [allocateArrays, hu]
      · simp [allocateArrays, lPolygonVertexCount_eq, hu, huv hu]
    · intro i hi; omega
  | succ k ih =>
    intro hk
    obtain ⟨arrays, hrun, hinv⟩ := ih (by omega)
    obtain ⟨arrays1, hstep, hinv1⟩ := populateControlPoint_step Normalize a
      Mesh.ControlPointsCount k (by omega) arrays hinv
    refine ⟨arrays1, ?_, hinv1⟩
    rw [List.range_succ, List.foldlM_append, hrun]
    simp [hstep]

/-- The attribute arrays of a mesh whose UV element, if it has one, has a UV
set name: the loops complete, every array that the mesh uses has one entry
per control point, and entry `i` holds the attributes of control point `i`. -/
theorem importArrays_spec (Normalize : Vec3 → Vec3) (Mesh : FbxMesh) (a : FbxMeshAttributes)
    (huv : mHasUV a = true → 0 < a.UVSetNamesCount) :
    ∃ arrays, importArrays Normalize Mesh a = some arrays ∧
      PopulateInv Normalize a Mesh.ControlPointsCount Mesh.ControlPointsCount arrays := by
  obtain ⟨arrays, hrun, hinv⟩ := populate_upTo Normalize Mesh a huv Mesh.ControlPointsCount
    (le_refl _)
  refine ⟨arrays, ?_, hinv⟩
  rw [← hrun]
  rfl

/-- For a skinned mesh whose influence table has one entry per control point,
`_SkinInfoArray` and the attribute arrays in use have the same length, the
control-point count. -/
theorem skinned_arrays_same_length (Normalize : Vec3 → Vec3) (Mesh : FbxMesh)
    (a : FbxMeshAttributes) (huv : mHasUV a = true → 0 < a.UVSetNamesCount)
    (sortInf : List BoneInf → List BoneInf)
    (sortBones : List BoneIndexInfo → List BoneIndexInfo)
    (SkinInfoArray : List VertexSkinInfo) (Importer : FbxFileImporter)
    (hlen : SkinInfoArray.length = Mesh.ControlPointsCount) :
    ∃ arrays, importArrays Normalize Mesh a = some arrays ∧
      (meshSkinInfoArray (some (importSkin sortInf sortBones SkinInfoArray Importer))).length =
        arrays._PositionArray.length ∧
      (mHasNormal a = true → arrays._NormalArray.length = arrays._PositionArray.length) ∧
      (mHasUV a = true → arrays._TexCoordArray.length = arrays._PositionArray.length) := by
  obtain ⟨arrays, hrun, hp, hnl, hul, -⟩ := importArrays_spec Normalize Mesh a huv
  refine ⟨arrays, hrun, ?_, ?_, ?_⟩
  · have hskin : (importSkin sortInf sortBones SkinInfoArray Importer)._SkinInfoArray =
        (trimAll sortInf SkinInfoArray).map (fun Vertex =>
          remapVertex (resolveBones sortBones (trimAll sortInf SkinInfoArray)
            Importer).BoneIndexMap Vertex SkinInfo.zero) := rfl
    simp [meshSkinInfoArray, hskin, trimAll, hlen, hp]
  · intro hn; rw [hnl, hp, if_pos hn]
  · intro hu; rw [hul, hp, if_pos hu]

/-- C24. A mesh with normals and without skin deformer: four control points,
so `_PositionArray` and `_NormalArray` have four entries after the attribute
loops, while `_SkinInfoArray`, resized only inside the skin block, is empty.
The vertex packer reads `_SkinInfoArray[0]`, outside the array. -/
theorem C24_skin_array_empty_without_skin (Normalize : Vec3 → Vec3) :
    (importArrays Normalize plainQuad normalsByControlPoint).map
        (fun arrays => (arrays._PositionArray.length, arrays._NormalArray.length)) =
      some (4, 4) ∧
    (meshSkinInfoArray none).length = 0 ∧
    (meshSkinInfoArray none)[0]? = none ∧
    (importArrays Normalize plainQuad normalsByControlPoint).bind
        (fun arrays => packVertices plainQuad normalsByControlPoint arrays
          (meshSkinInfoArray none)) = none :=
  ⟨rfl, rfl, rfl, rfl⟩

/-- Whatever the mapping modes of the normal and UV elements, when the loops
complete the attribute arrays have one entry per control point, entry `i`
holding the attributes looked up with the index `i`, and the fill pass stores
the control-point index of every polygon corner in the index array. -/
theorem arrays_by_control_point (Normalize : Vec3 → Vec3) (Mesh : FbxMesh)
    (a : FbxMeshAttributes) (huv : mHasUV a = true → 0 < a.UVSetNamesCount) :
    lPolygonVertexCount Mesh = Mesh.ControlPointsCount ∧
    (∃ arrays, importArrays Normalize Mesh a = some arrays ∧
      arrays._PositionArray.length = Mesh.ControlPointsCount ∧
      (mHasNormal a = true → arrays._NormalArray.length = Mesh.ControlPointsCount) ∧
      (mHasUV a = true → arrays._TexCoordArray.length = Mesh.ControlPointsCount) ∧
      ∀ i, i < Mesh.ControlPointsCount →
        arrays._PositionArray[i]? = some (a.ControlPoint i) ∧
        (mHasNormal a = true →
          arrays._NormalArray[i]? = some (storedNormal Normalize (a.Normal i))) ∧
        (mHasUV a = true → arrays._TexCoordArray[i]? = some (a.UV i))) ∧
    ∀ (P pos v : Nat) (st : FillState), pos + v < st._IndiceArray.length →
      ∃ st1, fillVertex Mesh P pos st v = some st1 ∧
        st1._IndiceArray[pos + v]? = some (Mesh.PolygonVertex P v) := by
  refine ⟨rfl, ?_, ?_⟩
  · obtain ⟨arrays, hrun, hp, hnl, hul, hat⟩ := importArrays_spec Normalize Mesh a huv
    refine ⟨arrays, hrun, hp, ?_, ?_, hat⟩
    · intro hn; rw [hnl, if_pos hn]
    · intro hu; rw [hul, if_pos hu]
  · intro P pos v st h
    refine ⟨_, fillVertex_eq Mesh P pos st v h, ?_⟩
    simp [List.getElem?_set, h]

/-- A mesh with a UV element and no UV set name: `_TexCoordArray` is not
resized (line 212) and the write `_TexCoordArray[0]` of line 274 is outside
the array. -/
theorem importArrays_uv_without_name (Normalize : Vec3 → Vec3) :
    mHasUV { attributesByPolygonVertex with UVSetNamesCount := 0 } = true ∧
    (allocateArrays plainQuad
      { attributesByPolygonVertex with UVSetNamesCount := 0 })._TexCoordArray = [] ∧
    importArrays Normalize plainQuad
      { attributesByPolygonVertex with UVSetNamesCount := 0 } = none :=
  ⟨rfl, rfl, rfl⟩

/-- C25. A mesh of two polygons over four control points whose normal and UV
elements are mapped by polygon vertex. The flag `mAllByControlPoint` is never
cleared (both assignments of `false` are commented out), so the branch for
attributes by polygon vertex is not taken: the attribute arrays have 4
entries, not `PolygonCount * 3 = 6`; the index array holds the control-point
indices `0, 1, 2, 0, 2, 3` (entry 3 is 0, not the expanded vertex 3); and
entry `i` of an attribute array is entry `i` of the direct array, which is
indexed by polygon vertex: control point 3 gets the UV of polygon vertex 3,
a corner that lies at control point 0. -/
theorem C25_by_polygon_vertex_branch_not_taken (Normalize : Vec3 → Vec3) :
    attributesByPolygonVertex.NormalMappingMode = EMappingMode.eByPolygonVertex ∧
    attributesByPolygonVertex.UVMappingMode = EMappingMode.eByPolygonVertex ∧
    plainQuad.PolygonCount * 3 = 6 ∧
    lPolygonVertexCount plainQuad = 4 ∧
    (importArrays Normalize plainQuad attributesByPolygonVertex).map
        (fun arrays => (arrays._PositionArray.length, arrays._NormalArray.length,
          arrays._TexCoordArray.length)) = some (4, 4, 4) ∧
    (partitionAndFill plainQuad).map (fun st => st._IndiceArray) = some [0, 1, 2, 0, 2, 3] ∧
    plainQuad.PolygonVertex 1 0 = 0 ∧
    (importArrays Normalize plainQuad attributesByPolygonVertex).map
        (fun arrays => arrays._TexCoordArray[3]?) =
      some (some (attributesByPolygonVertex.UV 3)) :=
  ⟨rfl, rfl, rfl, rfl, rfl, by decide, rfl, rfl⟩

/-- C29. The normal stored for a control point takes `x` and `y` from the
normalised vector `FinalNormal` and `z` from the source normal
`lCurrentNormal` (line 262). For the source normal `(3, 0, 4)` the stored `z`
is 4 whatever `Normalize` returns, so the stored normal is not of unit length;
with `FinalNormal = (3/5, 0, 4/5)` it is `(3/5, 0, 4)`. The branch for
attributes by polygon vertex stores all of `FinalNormal`. -/
theorem C29_stored_normal_z_not_normalized (Normalize : Vec3 → Vec3) :
    (importArrays Normalize plainQuad normalsByControlPoint).map
        (fun arrays => arrays._NormalArray[0]?) =
      some (some ⟨(Normalize ⟨3, 0, 4⟩).x, (Normalize ⟨3, 0, 4⟩).y, 4⟩) ∧
    (storedNormal Normalize ⟨3, 0, 4⟩).z = 4 ∧
    (storedNormal Normalize ⟨3, 0, 4⟩).x * (storedNormal Normalize ⟨3, 0, 4⟩).x +
      (storedNormal Normalize ⟨3, 0, 4⟩).y * (storedNormal Normalize ⟨3, 0, 4⟩).y +
      (storedNormal Normalize ⟨3, 0, 4⟩).z * (storedNormal Normalize ⟨3, 0, 4⟩).z ≠ 1 ∧
    storedNormal (fun _ => ⟨3 / 5, 0, 4 / 5⟩) ⟨3, 0, 4⟩ = ⟨3 / 5, 0, 4⟩ ∧
    storedNormalByPolygonVertex Normalize ⟨3, 0, 4⟩ = Normalize ⟨3, 0, 4⟩ := by
  refine ⟨rfl, rfl, ?_, rfl, rfl⟩
  simp only [storedNormal]
  nlinarith [mul_self_nonneg (Normalize ⟨3, 0, 4⟩).x, mul_self_nonneg (Normalize ⟨3, 0, 4⟩).y]

end SkeletalMesh
